import Mathlib

/-!
# Order lifecycle of the marketplace back end

A shallow embedding of `server/controllers/OrderController.js`: the handlers
`createOrder`, `updateOrderStatus` and `deleteOrder` become pure functions from
a store (the Mongo collections they touch) and a request body to the new store
and the HTTP response.

* JavaScript numbers are idealised: quantities and stocks are integers,
  prices and monetary totals are rationals.
* An `ObjectId` is carried by its string form. An identifier in the body
  of a `createOrder` request is the string the client sent. Where a query on
  the catalog, the accounts or the carts, or the `Order` schema, asks for an
  `ObjectId`, Mongoose casts the value first (`Env.castId`); a value that
  cannot be cast makes the call throw, and the handler's `catch` answers 500.
  The comparisons the controller writes itself
  (`a.toString() === b.toString()`) are on the strings as they stand.
* The order and suborder identifiers of `updateOrderStatus` and `deleteOrder`
  are taken in the spelling `toString()` gives them.
* `Date.now()`, identifier generation, `ObjectId.isValid`, the cast and the
  payment gateway are supplied by an environment record.
-/

namespace OrderController

/-! ## Data model -/

/-- A Mongo identifier, carried by its string form. -/
structure ObjectId where
  hex : String
  deriving DecidableEq, Repr

/-- The `toString()` of an identifier. -/
def ObjectId.toString (i : ObjectId) : String := i.hex

/-- A line item of a request body or of a stored order. -/
structure Item where
  productId : ObjectId
  sellerId : ObjectId
  quantity : Int
  price : ℚ
  deriving DecidableEq, Repr

/-- The plain object built per seller by the grouping loop of `createOrder`. -/
structure SuborderData where
  sellerId : ObjectId
  items : List Item
  subtotal : ℚ
  status : String
  deriving DecidableEq, Repr

/-- A suborder subdocument of a stored order. -/
structure Suborder where
  _id : ObjectId
  sellerId : ObjectId
  items : List Item
  subtotal : ℚ
  status : String
  statusUpdatedAt : Option Nat
  deriving DecidableEq, Repr

/-- The shipping details of an order, an uninterpreted value object. -/
structure ShippingInfo where
  address : String
  deriving DecidableEq, Repr

/-- A stored order document. -/
structure Order where
  _id : ObjectId
  userId : ObjectId
  items : List Item
  suborders : List Suborder
  shippingInfo : ShippingInfo
  deliveryMethod : Option String
  paymentMethod : String
  subtotal : ℚ
  shipping : ℚ
  tax : ℚ
  total : ℚ
  paymentStatus : String
  stripePaymentIntentId : Option String
  status : String
  statusUpdatedAt : Option Nat
  deriving DecidableEq, Repr

/-- One seller's offer of a product: its stock and price. -/
structure SellerEntry where
  sellerId : ObjectId
  stock : Int
  price : ℚ
  deriving DecidableEq, Repr

/-- A catalog product with its per-seller entries. -/
structure Product where
  _id : ObjectId
  name : String
  sellers : List SellerEntry
  deriving DecidableEq, Repr

/-- An account, as far as the order controller reads it. -/
structure User where
  _id : ObjectId
  name : String
  email : String
  deriving DecidableEq, Repr

/-- An entry of a buyer's cart. -/
structure CartItem where
  productId : ObjectId
  sellerId : ObjectId
  quantity : Int
  deriving DecidableEq, Repr

/-- A buyer's cart document. -/
structure Cart where
  userId : ObjectId
  items : List CartItem
  deriving DecidableEq, Repr

/-- The collections the order controller reads and writes, together with the
log of refund requests sent to the payment gateway. -/
structure Store where
  products : List Product
  users : List User
  orders : List Order
  carts : List Cart
  refunds : List String
  deriving DecidableEq, Repr

/-- What the handlers take from their surroundings: the clock, the identifier
generator, the library's `ObjectId.isValid`, Mongoose's cast of a request value
to an `ObjectId` (`none` when the cast throws a `CastError`), and whether the
gateway accepts a refund of a given payment intent. -/
structure Env where
  now : Nat
  newId : Nat → ObjectId
  isValid : String → Bool
  castId : String → Option ObjectId
  refundOk : String → Bool

/-- An HTTP response: status code, the `message` field, and the optional
`order` and `paymentIntentId` fields of the JSON body. -/
structure Response where
  code : Nat
  message : String
  order : Option Order
  paymentIntentId : Option String
  deriving DecidableEq, Repr

/-! ## Collection operations -/

/-- The first element satisfying `p` is replaced by its image under `f`. -/
def modifyFirst {α : Type} (p : α → Bool) (f : α → α) : List α → List α
  | [] => []
  | x :: xs => if p x then f x :: xs else x :: modifyFirst p f xs

/-- Mongoose `Order.findById` on a request identifier. -/
def Order.findById (orders : List Order) (id : String) : Option Order :=
  orders.find? (fun o => o._id.toString == id)

/-- Mongoose `order.save()` of a document that was loaded from the collection:
the stored document with the same `_id` is overwritten. -/
def Order.save (orders : List Order) (order : Order) : List Order :=
  modifyFirst (fun o => o._id.toString == order._id.toString) (fun _ => order) orders

/-- Mongoose `Order.deleteOne({ _id })`. -/
def Order.deleteOne (orders : List Order) (id : ObjectId) : List Order :=
  orders.eraseP (fun o => o._id == id)

/-- Mongoose `Product.findById`, on the identifier the request value was cast
to. -/
def Product.findById (products : List Product) (id : ObjectId) : Option Product :=
  products.find? (fun p => p._id == id)

/-- Mongoose `User.findById`, on the identifier the request value was cast
to. -/
def User.findById (users : List User) (id : ObjectId) : Option User :=
  users.find? (fun u => u._id == id)

/-- The identifier a request value is cast to, at a place the handler reaches
only after an earlier query has cast the same value, so that the cast cannot
throw there. -/
def Env.cast (env : Env) (id : ObjectId) : ObjectId :=
  match env.castId id.toString with
  | some objectId => objectId
  | none => id

/-- The positional update `$inc: { 'sellers.$.stock': d }`: the first seller
entry matching `sellerId` has `d` added to its stock. -/
def incStock (sellers : List SellerEntry) (sellerId : ObjectId) (d : Int) : List SellerEntry :=
  modifyFirst (fun s => s.sellerId == sellerId) (fun s => { s with stock := s.stock + d }) sellers

/-- Mongoose `Product.findOneAndUpdate({ _id, 'sellers.sellerId': sellerId },
{ $inc: { 'sellers.$.stock': d } })`: the first product with that `_id` that
has an entry for the seller is updated; `none` when no product matches. -/
def Product.findOneAndUpdate (products : List Product) (productId sellerId : ObjectId)
    (d : Int) : Option (List Product) :=
  match products with
  | [] => none
  | p :: rest =>
    if p._id == productId && p.sellers.any (fun s => s.sellerId == sellerId) then
      some ({ p with sellers := incStock p.sellers sellerId d } :: rest)
    else
      (Product.findOneAndUpdate rest productId sellerId d).map (fun ps => p :: ps)

/-! ## updateOrderStatus -/

/-- The body of an `updateOrderStatus` request. -/
structure UpdateStatusBody where
  orderId : String
  suborderId : String
  status : String
  deriving DecidableEq, Repr

/-- The five statuses `updateOrderStatus` accepts. -/
def allowedStatuses : List String :=
  ["pending", "processing", "shipped", "delivered", "cancelled"]

/-- The recomputation of `order.status` and `order.paymentStatus` once the
suborder has been written: the statement `if (order.suborders.length === 1)
... else ...` of `updateOrderStatus`. -/
def recomputeStatus (order : Order) (status : String) : Order :=
  if order.suborders.length == 1 then
    let order1 := { order with status := status }
    if status == "delivered" && order.paymentMethod != "stripe" then
      { order1 with paymentStatus := "paid" }
    else order1
  else
    let suborderStatuses := order.suborders.map (fun sub => sub.status)
    let hasProcessing := suborderStatuses.contains "processing"
    let hasShipped := suborderStatuses.contains "shipped"
    let hasDelivered := suborderStatuses.contains "delivered"
    let allCancelled := suborderStatuses.all (fun status => status == "cancelled")
    let allDelivered := suborderStatuses.all (fun status => status == "delivered")
    if hasProcessing then
      { order with status := "processing" }
    else if allDelivered then
      let order1 := { order with status := "delivered" }
      if order.paymentMethod != "stripe" then { order1 with paymentStatus := "paid" }
      else order1
    else if allCancelled then
      { order with status := "cancelled" }
    else if hasShipped ||
        (hasDelivered && suborderStatuses.any (fun status => status != "delivered")) then
      { order with status := "shipped" }
    else
      { order with status := "processing" }

/-- The writes `updateOrderStatus` makes to the loaded order before saving it:
the addressed suborder gets the new status and timestamp, the order's status
and payment status are recomputed, and the order's timestamp is set. -/
def applyStatusUpdate (env : Env) (order : Order) (body : UpdateStatusBody) : Order :=
  let suborders := modifyFirst (fun sub => sub._id.toString == body.suborderId)
    (fun sub => { sub with status := body.status, statusUpdatedAt := some env.now })
    order.suborders
  let order1 := recomputeStatus { order with suborders := suborders } body.status
  { order1 with statusUpdatedAt := some env.now }

/-- The handler `updateOrderStatus`. -/
def updateOrderStatus (env : Env) (db : Store) (body : UpdateStatusBody) : Store × Response :=
  if !env.isValid body.orderId then
    (db, ⟨400, "Invalid orderId", none, none⟩)
  else if !env.isValid body.suborderId then
    (db, ⟨400, "Invalid suborderId", none, none⟩)
  else if !allowedStatuses.contains body.status then
    (db, ⟨400, "Invalid status", none, none⟩)
  else
    match Order.findById db.orders body.orderId with
    | none => (db, ⟨404, "Order not found", none, none⟩)
    | some order =>
      match order.suborders.find? (fun sub => sub._id.toString == body.suborderId) with
      | none => (db, ⟨404, "Suborder not found", none, none⟩)
      | some _ =>
        let db1 := { db with orders := Order.save db.orders (applyStatusUpdate env order body) }
        (db1, ⟨200, "Order and suborder status updated successfully",
          Order.findById db1.orders body.orderId, none⟩)

/-- The precedence table of section 4.4 of the specification for an order with
several suborders, written after the specification's wording (rules a, b, c,
d, e in that order) and not after the code. -/
def precedenceTable (statuses : List String) : String :=
  if ∃ s ∈ statuses, s = "processing" then "processing"
  else if ∀ s ∈ statuses, s = "delivered" then "delivered"
  else if ∀ s ∈ statuses, s = "cancelled" then "cancelled"
  else if (∃ s ∈ statuses, s = "shipped") ∨
      ((∃ s ∈ statuses, s = "delivered") ∧ ∃ s ∈ statuses, s ≠ "delivered") then "shipped"
  else "processing"

/-! ## createOrder -/

/-- The `paymentResult` object of a request body. -/
structure PaymentResult where
  id : Option String
  status : Option String
  deriving DecidableEq, Repr

/-- The body of a `createOrder` request; a field that may be absent is an
`Option`. -/
structure CreateOrderBody where
  userId : Option ObjectId
  items : Option (List Item)
  shippingInfo : Option ShippingInfo
  deliveryMethod : Option String
  paymentMethod : Option String
  subtotal : ℚ
  shipping : ℚ
  tax : ℚ
  total : ℚ
  paymentResult : Option PaymentResult
  deriving DecidableEq, Repr

/-- JavaScript truthiness of an optional string: present and not empty. -/
def truthy : Option String → Bool
  | none => false
  | some s => s != ""

/-- The guard `!paymentResult || !paymentResult.id || paymentResult.status !==
'succeeded'`. -/
def paymentResultRejected : Option PaymentResult → Bool
  | none => true
  | some r => !truthy r.id || r.status != some "succeeded"

/-- The validation loop of `createOrder`: the response of the first line item
that fails, or `none` when every line item passes. `Product.findById` casts
the item's product identifier; when the cast throws, the response is the one
of the handler's `catch`. -/
def validateItems (env : Env) (products : List Product) : List Item → Option Response
  | [] => none
  | item :: rest =>
    match env.castId item.productId.toString with
    | none => some ⟨500, "Failed to create order", none, none⟩
    | some productId =>
      match Product.findById products productId with
      | none =>
        some ⟨404, "Product with ID " ++ item.productId.toString ++ " not found", none, none⟩
      | some product =>
        match product.sellers.find?
            (fun seller => seller.sellerId.toString == item.sellerId.toString) with
        | none =>
          some ⟨400, "Seller with ID " ++ item.sellerId.toString ++
            " not associated with product " ++ product.name, none, none⟩
        | some sellerData =>
          if sellerData.stock < item.quantity then
            some ⟨400, "Insufficient stock for product: " ++ product.name, none, none⟩
          else validateItems env products rest

/-- A JavaScript `Map` with string keys: its entries in insertion order. -/
abbrev JsMap (β : Type) : Type := List (String × β)

/-- `Map.prototype.has`. -/
def JsMap.has {β : Type} (m : JsMap β) (key : String) : Bool :=
  m.any (fun e => e.1 == key)

/-- `Map.prototype.set`: a present key keeps its position, a new key goes
last. -/
def JsMap.set {β : Type} (m : JsMap β) (key : String) (value : β) : JsMap β :=
  if m.has key then modifyFirst (fun e => e.1 == key) (fun e => (e.1, value)) m
  else m ++ [(key, value)]

/-- A mutation, through the reference returned by `Map.prototype.get`, of the
object stored under `key`. -/
def JsMap.mutate {β : Type} (m : JsMap β) (key : String) (f : β → β) : JsMap β :=
  modifyFirst (fun e => e.1 == key) (fun e => (e.1, f e.2)) m

/-- The values in iteration order, as `Map.prototype.forEach` visits them. -/
def JsMap.values {β : Type} (m : JsMap β) : List β :=
  m.map (fun e => e.2)

/-- One iteration of the grouping loop of `createOrder`. -/
def groupStep (sellerMap : JsMap SuborderData) (item : Item) : JsMap SuborderData :=
  let sellerId := item.sellerId.toString
  let sellerMap1 :=
    if !sellerMap.has sellerId then
      sellerMap.set sellerId
        { sellerId := item.sellerId, items := [], subtotal := 0, status := "pending" }
    else sellerMap
  sellerMap1.mutate sellerId (fun suborder =>
    { suborder with
      items := suborder.items ++ [item]
      subtotal := suborder.subtotal + item.price * (item.quantity : ℚ) })

/-- The grouping of the line items by seller: the loop over `items` followed
by `sellerMap.forEach((suborder) => suborders.push(suborder))`. -/
def groupBySeller (items : List Item) : List SuborderData :=
  (items.foldl groupStep []).values

/-- A line item as Mongoose casts it for the filter of a stock update and for
the `Order` schema: the product identifier is the one `Product.findById` cast
it to in the validation loop. The seller identifier of a line item that passed
the validation loop is the string form of a stored identifier, which is cast
to that identifier. -/
def castItem (env : Env) (item : Item) : Item :=
  { item with productId := env.cast item.productId }

/-- Modelled from the spec: the `Order` schema (`models/Order.js` is not among
the sources). Constructing the document casts the buyer's and the line items'
identifiers, gives the order and each suborder an identifier and gives the
order the status `pending`; every other field passed to the constructor is
stored as given. -/
def Order.new (env : Env) (userId : ObjectId) (items : List Item)
    (suborders : List SuborderData) (shippingInfo : ShippingInfo)
    (deliveryMethod : Option String) (paymentMethod : String)
    (subtotal shipping tax total : ℚ) (paymentStatus : String)
    (stripePaymentIntentId : Option String) : Order :=
  { _id := env.newId 0
    userId := env.cast userId
    items := items.map (castItem env)
    suborders := suborders.enum.map (fun e =>
      { _id := env.newId (e.1 + 1), sellerId := e.2.sellerId,
        items := e.2.items.map (castItem env),
        subtotal := e.2.subtotal, status := e.2.status, statusUpdatedAt := none })
    shippingInfo := shippingInfo
    deliveryMethod := deliveryMethod
    paymentMethod := paymentMethod
    subtotal := subtotal
    shipping := shipping
    tax := tax
    total := total
    paymentStatus := paymentStatus
    stripePaymentIntentId := stripePaymentIntentId
    status := "pending"
    statusUpdatedAt := none }

/-- The stock loop of `createOrder`: each line item's quantity is subtracted
from its product/seller stock in turn, the update's filter being cast by
Mongoose; the result is the catalog reached and the line item whose update
found nothing, if any. -/
def decrementStock (env : Env) (products : List Product) :
    List Item → List Product × Option Item
  | [] => (products, none)
  | item :: rest =>
    match Product.findOneAndUpdate products (castItem env item).productId item.sellerId
        (-item.quantity) with
    | none => (products, some item)
    | some products1 => decrementStock env products1 rest

/-- The cart items kept by the filter of `createOrder`: those for which no
line item of the request has, as a string, the same productId and the same
sellerId. -/
def keptCartItems (cart : Cart) (items : List Item) : List CartItem :=
  cart.items.filter (fun cartItem =>
    !items.any (fun orderItem =>
      orderItem.productId.toString == cartItem.productId.toString &&
      orderItem.sellerId.toString == cartItem.sellerId.toString))

/-- The cart step of `createOrder`, on the buyer's identifier as
`Cart.findOne` casts it: the buyer's cart keeps the items the filter lets
through and is deleted when nothing is left. -/
def clearCart (carts : List Cart) (userId : ObjectId) (items : List Item) : List Cart :=
  match carts.find? (fun c => c.userId == userId) with
  | none => carts
  | some cart =>
    let kept := keptCartItems cart items
    if kept.length == 0 then carts.eraseP (fun c => c.userId == userId)
    else modifyFirst (fun c => c.userId == userId) (fun c => { c with items := kept }) carts

/-- The handler `createOrder`. An exception thrown by a query before the
order is saved (the `CastError` of a value that is no identifier) is caught by
the handler's `catch`, which answers 500 'Failed to create order'. -/
def createOrder (env : Env) (db : Store) (body : CreateOrderBody) : Store × Response :=
  match body.userId, body.items, body.shippingInfo, body.paymentMethod with
  | some userId, some items, some shippingInfo, some paymentMethod =>
    if userId.toString == "" || items.length == 0 || paymentMethod == "" then
      (db, ⟨400, "Missing required fields", none, none⟩)
    else if paymentMethod == "stripe" && paymentResultRejected body.paymentResult then
      (db, ⟨400, "Valid Stripe payment result required", none, none⟩)
    else
      match validateItems env db.products items with
      | some rejection => (db, rejection)
      | none =>
        match env.castId userId.toString with
        | none => (db, ⟨500, "Failed to create order", none, none⟩)
        | some buyer =>
          match User.findById db.users buyer with
          | none => (db, ⟨404, "User not found", none, none⟩)
          | some _ =>
            let suborders := groupBySeller items
            let paymentStatus := if paymentMethod == "stripe" then "paid" else "pending"
            let stripePaymentIntentId :=
              if paymentMethod == "stripe" then body.paymentResult.bind (fun r => r.id)
              else none
            let order := Order.new env userId items suborders shippingInfo body.deliveryMethod
              paymentMethod body.subtotal body.shipping body.tax body.total paymentStatus
              stripePaymentIntentId
            let orders1 := db.orders ++ [order]
            match decrementStock env db.products items with
            | (products1, some item) =>
              ({ db with products := products1, orders := Order.deleteOne orders1 order._id },
                ⟨500, "Failed to update stock for product ID " ++ item.productId.toString,
                  none, none⟩)
            | (products1, none) =>
              let db1 := { db with
                products := products1
                orders := orders1
                carts := clearCart db.carts buyer items }
              (db1, ⟨201, "Order created successfully",
                Order.findById db1.orders order._id.toString, stripePaymentIntentId⟩)
  | _, _, _, _ => (db, ⟨400, "Missing required fields", none, none⟩)

/-- The handler `createOrder` while other requests write to the store:
`concurrent` is the combined effect of the writes of other requests that land
after the handler's checks (its reads of the catalog and of the account) and
before its own writes. With `concurrent := id` this is `createOrder`. -/
def createOrderInterleaved (env : Env) (db : Store) (body : CreateOrderBody)
    (concurrent : Store → Store) : Store × Response :=
  match body.userId, body.items, body.shippingInfo, body.paymentMethod with
  | some userId, some items, some shippingInfo, some paymentMethod =>
    if userId.toString == "" || items.length == 0 || paymentMethod == "" then
      (db, ⟨400, "Missing required fields", none, none⟩)
    else if paymentMethod == "stripe" && paymentResultRejected body.paymentResult then
      (db, ⟨400, "Valid Stripe payment result required", none, none⟩)
    else
      match validateItems env db.products items with
      | some rejection => (db, rejection)
      | none =>
        match env.castId userId.toString with
        | none => (db, ⟨500, "Failed to create order", none, none⟩)
        | some buyer =>
          match User.findById db.users buyer with
          | none => (db, ⟨404, "User not found", none, none⟩)
          | some _ =>
            let db0 := concurrent db
            let suborders := groupBySeller items
            let paymentStatus := if paymentMethod == "stripe" then "paid" else "pending"
            let stripePaymentIntentId :=
              if paymentMethod == "stripe" then body.paymentResult.bind (fun r => r.id)
              else none
            let order := Order.new env userId items suborders shippingInfo body.deliveryMethod
              paymentMethod body.subtotal body.shipping body.tax body.total paymentStatus
              stripePaymentIntentId
            let orders1 := db0.orders ++ [order]
            match decrementStock env db0.products items with
            | (products1, some item) =>
              ({ db0 with products := products1, orders := Order.deleteOne orders1 order._id },
                ⟨500, "Failed to update stock for product ID " ++ item.productId.toString,
                  none, none⟩)
            | (products1, none) =>
              let db1 := { db0 with
                products := products1
                orders := orders1
                carts := clearCart db0.carts buyer items }
              (db1, ⟨201, "Order created successfully",
                Order.findById db1.orders order._id.toString, stripePaymentIntentId⟩)
  | _, _, _, _ => (db, ⟨400, "Missing required fields", none, none⟩)

/-! ## deleteOrder -/

/-- The restore loop of `deleteOrder`: each line item's quantity is added back
to its product/seller stock in turn; the result is the catalog reached and the
line item whose update found nothing, if any. -/
def restoreStock (products : List Product) : List Item → List Product × Option Item
  | [] => (products, none)
  | item :: rest =>
    match Product.findOneAndUpdate products item.productId item.sellerId item.quantity with
    | none => (products, some item)
    | some products1 => restoreStock products1 rest

/-- The handler `deleteOrder`; a refund request is appended to the store's
refund log whether or not the gateway accepts it. -/
def deleteOrder (env : Env) (db : Store) (orderId : String) : Store × Response :=
  if !env.isValid orderId then
    (db, ⟨400, "Invalid orderId", none, none⟩)
  else
    match Order.findById db.orders orderId with
    | none => (db, ⟨404, "Order not found", none, none⟩)
    | some order =>
      if order.status != "pending" then
        (db, ⟨400, "Cannot delete order that is not in pending status", none, none⟩)
      else
        match restoreStock db.products order.items with
        | (products1, some item) =>
          ({ db with products := products1 },
            ⟨500, "Failed to restore stock for product ID " ++ item.productId.toString,
              none, none⟩)
        | (products1, none) =>
          let db1 := { db with products := products1 }
          let deleted := { db1 with
            orders := db1.orders.eraseP (fun o => o._id.toString == orderId) }
          match order.stripePaymentIntentId with
          | some intent =>
            if order.paymentMethod == "stripe" && intent != "" then
              let db2 := { db1 with refunds := db1.refunds ++ [intent] }
              if env.refundOk intent then
                ({ db2 with orders := db2.orders.eraseP (fun o => o._id.toString == orderId) },
                  ⟨200, "Order deleted successfully", none, none⟩)
              else (db2, ⟨500, "Failed to process refund", none, none⟩)
            else (deleted, ⟨200, "Order deleted successfully", none, none⟩)
          | none => (deleted, ⟨200, "Order deleted successfully", none, none⟩)

/-! ## getSellerStats -/

/-- The `stats` object built by `getSellerStats`. -/
structure SellerStats where
  totalOrders : Nat
  pending : Nat
  processing : Nat
  shipped : Nat
  delivered : Nat
  deriving DecidableEq, Repr

/-- The response of `getSellerStats`: status code, the `message` field and the
optional `stats` field of the JSON body. -/
structure StatsResponse where
  code : Nat
  message : String
  stats : Option SellerStats
  deriving DecidableEq, Repr

/-- The property of the `stats` object named `key`, if the object has one. -/
def SellerStats.get (stats : SellerStats) (key : String) : Option Nat :=
  if key == "totalOrders" then some stats.totalOrders
  else if key == "pending" then some stats.pending
  else if key == "processing" then some stats.processing
  else if key == "shipped" then some stats.shipped
  else if key == "delivered" then some stats.delivered
  else none

/-- The inner `forEach` body of `getSellerStats`: a suborder is counted under
its status. -/
def countSuborder (stats : SellerStats) (suborder : Suborder) : SellerStats :=
  if suborder.status == "pending" then { stats with pending := stats.pending + 1 }
  else if suborder.status == "processing" then { stats with processing := stats.processing + 1 }
  else if suborder.status == "shipped" then { stats with shipped := stats.shipped + 1 }
  else if suborder.status == "delivered" then { stats with delivered := stats.delivered + 1 }
  else stats

/-- The outer `forEach` body of `getSellerStats`: the seller's suborders of one
order are added to the totals. -/
def countOrder (sellerId : String) (stats : SellerStats) (order : Order) : SellerStats :=
  let sellerSuborders :=
    order.suborders.filter (fun suborder => suborder.sellerId.toString == sellerId)
  let stats1 := { stats with totalOrders := stats.totalOrders + sellerSuborders.length }
  sellerSuborders.foldl countSuborder stats1

/-- The handler `getSellerStats`; the identifier built from the request
parameter is the one with that string form. -/
def getSellerStats (env : Env) (db : Store) (sellerId : String) : StatsResponse :=
  if !env.isValid sellerId then
    ⟨400, "Invalid sellerId", none⟩
  else
    let sellerObjectId : ObjectId := ⟨sellerId⟩
    let orders := db.orders.filter (fun order =>
      order.suborders.any (fun sub => sub.sellerId == sellerObjectId))
    let stats := orders.foldl (countOrder sellerId) ⟨0, 0, 0, 0, 0⟩
    ⟨200, "Stats retrieved successfully", some stats⟩

/-! ## Auxiliary definitions for the proofs -/

/-- The number of suborders of the seller with the given status, over all the
orders. -/
def countSellerSuborders (orders : List Order) (sellerId status : String) : Nat :=
  (orders.map (fun o => o.suborders.countP (fun sub =>
    sub.sellerId.toString == sellerId && sub.status == status))).sum

/-- The number of suborders of the seller, over all the orders. -/
def countSellerAll (orders : List Order) (sellerId : String) : Nat :=
  (orders.map (fun o => o.suborders.countP (fun sub =>
    sub.sellerId.toString == sellerId))).sum


/-- The suborder object after one more line item has been pushed to it. -/
def pushItem (item : Item) (suborder : SuborderData) : SuborderData :=
  { suborder with
    items := suborder.items ++ [item]
    subtotal := suborder.subtotal + item.price * (item.quantity : ℚ) }

/-- What the grouping loop of `createOrder` maintains between its map `m` and
the line items `xs` read so far. -/
structure GroupInv (m : JsMap SuborderData) (xs : List Item) : Prop where
  nodup : (m.map Prod.fst).Nodup
  key_eq : ∀ e ∈ m, e.2.sellerId.toString = e.1
  items_eq : ∀ e ∈ m, e.2.items = xs.filter (fun it => it.sellerId.toString == e.1)
  seen : ∀ e ∈ m, e.1 ∈ xs.map (fun it => it.sellerId.toString)
  covers : ∀ it ∈ xs, it.sellerId.toString ∈ m.map Prod.fst
  subtotal_eq : ∀ e ∈ m,
    e.2.subtotal = (e.2.items.map (fun it => it.price * (it.quantity : ℚ))).sum
  pending : ∀ e ∈ m, e.2.status = "pending"
  ordered : (m.map Prod.fst).Pairwise (fun a b =>
    (xs.map (fun it => it.sellerId.toString)).indexOf a
      < (xs.map (fun it => it.sellerId.toString)).indexOf b)

/-- The plain-object content of a suborder subdocument. -/
def Suborder.data (s : Suborder) : SuborderData :=
  { sellerId := s.sellerId, items := s.items, subtotal := s.subtotal, status := s.status }

/-- Whether a product is matched by the filter
`{ _id: productId, 'sellers.sellerId': sellerId }` of the stock updates. -/
def matchesPair (productId sellerId : ObjectId) (p : Product) : Bool :=
  p._id == productId && p.sellers.any (fun s => s.sellerId == sellerId)

/-- The stock a stock update addresses: that of the first entry for the seller
in the first product the filter matches; `none` when the product/seller pair
does not exist. -/
def stockOf (products : List Product) (productId sellerId : ObjectId) : Option Int :=
  (products.find? (matchesPair productId sellerId)).bind (fun p =>
    (p.sellers.find? (fun s => s.sellerId == sellerId)).map (fun s => s.stock))

/-- The stock update as a total function on the catalog: the first product the
filter matches has `d` added to the stock of its first entry for the seller,
and a catalog without the product/seller pair is left as it is. -/
def incPair (products : List Product) (productId sellerId : ObjectId) (d : Int) :
    List Product :=
  modifyFirst (matchesPair productId sellerId)
    (fun p => { p with sellers := incStock p.sellers sellerId d }) products

/-- A line item is available in a catalog: its productId is cast to the
identifier of a product there, the product has an entry for the item's seller,
and that entry's stock is at least the requested quantity. -/
def Available (env : Env) (products : List Product) (item : Item) : Prop :=
  ∃ productId product sellerData, env.castId item.productId.toString = some productId ∧
    Product.findById products productId = some product ∧
    product.sellers.find? (fun seller => seller.sellerId.toString == item.sellerId.toString)
      = some sellerData ∧
    item.quantity ≤ sellerData.stock

/-- The plain suborder object with its line items cast as the `Order` schema
casts them. -/
def castData (env : Env) (d : SuborderData) : SuborderData :=
  { d with items := d.items.map (castItem env) }

/-- A required field of a `createOrder` body is missing: userId, items,
shippingInfo or paymentMethod is absent (for the two given as text: absent or
the empty text), or items is empty. -/
def requiredFieldMissing (body : CreateOrderBody) : Prop :=
  (body.userId = none ∨ body.userId = some ⟨""⟩) ∨
  (body.items = none ∨ body.items = some []) ∨
  body.shippingInfo = none ∨
  (body.paymentMethod = none ∨ body.paymentMethod = some "")

/-- The loaded order once `updateOrderStatus` has written the new status and
timestamp to the addressed suborder, before the order's own status is
recomputed. -/
def writeSuborder (env : Env) (order : Order) (body : UpdateStatusBody) : Order :=
  { order with
    suborders := modifyFirst (fun sub => sub._id.toString == body.suborderId)
      (fun sub => { sub with status := body.status, statusUpdatedAt := some env.now })
      order.suborders }

/-- The condition under which the recomputation in `updateOrderStatus` writes
`paid` to the order's paymentStatus. -/
def marksPaid (order : Order) (status : String) : Bool :=
  if order.suborders.length == 1 then
    status == "delivered" && order.paymentMethod != "stripe"
  else
    !(order.suborders.map (fun sub => sub.status)).contains "processing" &&
      (order.suborders.map (fun sub => sub.status)).all (fun status => status == "delivered") &&
      order.paymentMethod != "stripe"

/-! ## Sample data -/

/-- A hexadecimal digit in lower case; `none` for any other character. -/
def hexDigit (c : Char) : Option Char :=
  if c.isDigit then some c
  else if 'a' ≤ c ∧ c ≤ 'f' then some c
  else if 'A' ≤ c ∧ c ≤ 'F' then some c.toLower
  else none

/-- The cast of the sample environments: a string of 24 hexadecimal digits is
cast to the identifier with those digits in lower case, and nothing else is
cast. -/
def castHex (s : String) : Option ObjectId :=
  if s.length == 24 then (s.data.mapM hexDigit).map (fun cs => ⟨String.mk cs⟩) else none

/-- A sample environment: a string is a valid identifier, and is cast to its
lower-case spelling, when it consists of 24 hexadecimal digits; fresh
identifiers are numbered, and the gateway accepts every refund. -/
def demoEnv : Env :=
  { now := 1700000000
    newId := fun n => ⟨"65a0000000000000000000f" ++ toString n⟩
    isValid := fun s => (castHex s).isSome
    castId := castHex
    refundOk := fun _ => true }

/-- Seller A. -/
def sellerA : ObjectId := ⟨"65a00000000000000000000a"⟩

/-- Seller B. -/
def sellerB : ObjectId := ⟨"65a00000000000000000000b"⟩

/-- A pen, the first sample product. -/
def penId : ObjectId := ⟨"65a000000000000000000101"⟩

/-- A cup, the second sample product. -/
def cupId : ObjectId := ⟨"65a000000000000000000102"⟩

/-- The sample buyer. -/
def buyerId : ObjectId := ⟨"65a000000000000000000201"⟩

/-- A stored cash-on-delivery order with two suborders, the first delivered and
the second shipped. -/
def demoOrder : Order :=
  { _id := ⟨"65a000000000000000000301"⟩
    userId := buyerId
    items := [⟨penId, sellerA, 2, 3⟩, ⟨cupId, sellerB, 1, 5⟩]
    suborders :=
      [⟨⟨"65a000000000000000000401"⟩, sellerA, [⟨penId, sellerA, 2, 3⟩], 6, "delivered", none⟩,
       ⟨⟨"65a000000000000000000402"⟩, sellerB, [⟨cupId, sellerB, 1, 5⟩], 5, "shipped", none⟩]
    shippingInfo := ⟨"1 Main Street"⟩
    deliveryMethod := some "standard"
    paymentMethod := "cod"
    subtotal := 11
    shipping := 1
    tax := 0
    total := 12
    paymentStatus := "pending"
    stripePaymentIntentId := none
    status := "shipped"
    statusUpdatedAt := none }

/-- A stored cash-on-delivery order with a single suborder. -/
def demoSingleOrder : Order :=
  { _id := ⟨"65a000000000000000000302"⟩
    userId := buyerId
    items := [⟨penId, sellerA, 1, 3⟩]
    suborders :=
      [⟨⟨"65a000000000000000000403"⟩, sellerA, [⟨penId, sellerA, 1, 3⟩], 3, "pending", none⟩]
    shippingInfo := ⟨"1 Main Street"⟩
    deliveryMethod := some "standard"
    paymentMethod := "cod"
    subtotal := 3
    shipping := 1
    tax := 0
    total := 4
    paymentStatus := "pending"
    stripePaymentIntentId := none
    status := "pending"
    statusUpdatedAt := none }

/-- A store holding the two sample orders and the sample catalog. -/
def demoStore : Store :=
  { products := [⟨penId, "pen", [⟨sellerA, 5, 3⟩]⟩, ⟨cupId, "cup", [⟨sellerB, 4, 5⟩]⟩]
    users := [⟨buyerId, "Ada", "ada@example.org"⟩]
    orders := [demoOrder, demoSingleOrder]
    carts := []
    refunds := [] }

/-- A cash-on-delivery cart of three line items from two sellers; the request
claims a subtotal of 14. -/
def demoBody : CreateOrderBody :=
  { userId := some buyerId
    items := some [⟨penId, sellerA, 2, 3⟩, ⟨cupId, sellerB, 1, 5⟩, ⟨penId, sellerA, 1, 3⟩]
    shippingInfo := some ⟨"1 Main Street"⟩
    deliveryMethod := some "standard"
    paymentMethod := some "cod"
    subtotal := 14
    shipping := 1
    tax := 0
    total := 15
    paymentResult := none }

/-- A cash-on-delivery cart with two line items for the same pen of seller A,
each asking for 3 of the 5 in stock. -/
def oversellBody : CreateOrderBody :=
  { userId := some buyerId
    items := some [⟨penId, sellerA, 3, 3⟩, ⟨penId, sellerA, 3, 3⟩]
    shippingInfo := some ⟨"1 Main Street"⟩
    deliveryMethod := some "standard"
    paymentMethod := some "cod"
    subtotal := 18
    shipping := 1
    tax := 0
    total := 19
    paymentResult := none }

/-- A catalog in which seller A holds only 2 pens. -/
def lowCatalog : List Product := [⟨penId, "pen", [⟨sellerA, 2, 3⟩]⟩]

/-- A cash-on-delivery cart whose second line item asks seller A for a cup,
which only seller B offers. -/
def mismatchBody : CreateOrderBody :=
  { userId := some buyerId
    items := some [⟨penId, sellerA, 2, 3⟩, ⟨cupId, sellerA, 1, 5⟩]
    shippingInfo := some ⟨"1 Main Street"⟩
    deliveryMethod := some "standard"
    paymentMethod := some "cod"
    subtotal := 11
    shipping := 1
    tax := 0
    total := 12
    paymentResult := none }

/-- The sample cart paid by `stripe`, with a payment confirmation of status
"failed". -/
def failedStripeBody : CreateOrderBody :=
  { userId := some buyerId
    items := some [⟨penId, sellerA, 2, 3⟩, ⟨cupId, sellerB, 1, 5⟩, ⟨penId, sellerA, 1, 3⟩]
    shippingInfo := some ⟨"1 Main Street"⟩
    deliveryMethod := some "standard"
    paymentMethod := some "stripe"
    subtotal := 14
    shipping := 1
    tax := 0
    total := 15
    paymentResult := some ⟨some "pi_1", some "failed"⟩ }

/-- The write of another request that takes the pen out of the catalog. -/
def removePen (db : Store) : Store :=
  { db with products := db.products.filter (fun p => p._id != penId) }

/-- The sample store in which the buyer has a cart holding seller A's pen and a
cup from seller A. -/
def cartStore : Store :=
  { demoStore with carts := [⟨buyerId, [⟨penId, sellerA, 2⟩, ⟨cupId, sellerA, 1⟩]⟩] }

/-- The sample store after the pen has left the catalog: the pending
single-suborder order still lists it. -/
def orphanStore : Store :=
  { demoStore with products := [⟨cupId, "cup", [⟨sellerB, 4, 5⟩]⟩] }

/-- An environment whose payment gateway refuses every refund. -/
def refusingEnv : Env :=
  { now := 1700000000
    newId := fun n => ⟨"65a0000000000000000000f" ++ toString n⟩
    isValid := fun s => (castHex s).isSome
    castId := castHex
    refundOk := fun _ => false }

/-- A store holding one pending order paid by `stripe`, with payment intent
"pi_9", for one pen of seller A. -/
def stripeStore : Store :=
  { products := [⟨penId, "pen", [⟨sellerA, 4, 3⟩]⟩]
    users := [⟨buyerId, "Ada", "ada@example.org"⟩]
    orders :=
      [{ _id := ⟨"65a000000000000000000303"⟩
         userId := buyerId
         items := [⟨penId, sellerA, 1, 3⟩]
         suborders :=
           [⟨⟨"65a000000000000000000404"⟩, sellerA, [⟨penId, sellerA, 1, 3⟩], 3, "pending",
             none⟩]
         shippingInfo := ⟨"1 Main Street"⟩
         deliveryMethod := some "standard"
         paymentMethod := "stripe"
         subtotal := 3
         shipping := 1
         tax := 0
         total := 4
         paymentStatus := "paid"
         stripePaymentIntentId := some "pi_9"
         status := "pending"
         statusUpdatedAt := none }]
    carts := []
    refunds := [] }

/-- A store holding one cash-on-delivery order with two suborders, both
`pending`, as `createOrder` leaves it. -/
def pendingPairStore : Store :=
  { products := [⟨penId, "pen", [⟨sellerA, 3, 3⟩]⟩, ⟨cupId, "cup", [⟨sellerB, 3, 5⟩]⟩]
    users := [⟨buyerId, "Ada", "ada@example.org"⟩]
    orders :=
      [{ _id := ⟨"65a000000000000000000305"⟩
         userId := buyerId
         items := [⟨penId, sellerA, 2, 3⟩, ⟨cupId, sellerB, 1, 5⟩]
         suborders :=
           [⟨⟨"65a000000000000000000405"⟩, sellerA, [⟨penId, sellerA, 2, 3⟩], 6, "pending",
              none⟩,
            ⟨⟨"65a000000000000000000406"⟩, sellerB, [⟨cupId, sellerB, 1, 5⟩], 5, "pending",
              none⟩]
         shippingInfo := ⟨"1 Main Street"⟩
         deliveryMethod := some "standard"
         paymentMethod := "cod"
         subtotal := 11
         shipping := 1
         tax := 0
         total := 12
         paymentStatus := "pending"
         stripePaymentIntentId := none
         status := "pending"
         statusUpdatedAt := none }]
    carts := []
    refunds := [] }

/-- The sample cart paid by `stripe`, with a payment confirmation "pi_7" of
status "succeeded". -/
def paidStripeBody : CreateOrderBody :=
  { userId := some buyerId
    items := some [⟨penId, sellerA, 2, 3⟩, ⟨cupId, sellerB, 1, 5⟩, ⟨penId, sellerA, 1, 3⟩]
    shippingInfo := some ⟨"1 Main Street"⟩
    deliveryMethod := some "standard"
    paymentMethod := some "stripe"
    subtotal := 14
    shipping := 1
    tax := 0
    total := 15
    paymentResult := some ⟨some "pi_7", some "succeeded"⟩ }

/-- The write of another request that takes the cup out of the catalog. -/
def removeCup (db : Store) : Store :=
  { db with products := db.products.filter (fun p => p._id != cupId) }

/-- A store whose only order has one suborder of seller A, `cancelled`, and one
of seller B, `shipped`. -/
def cancelledStore : Store :=
  { demoStore with
    orders :=
      [{ demoOrder with
         suborders :=
           [⟨⟨"65a000000000000000000401"⟩, sellerA, [⟨penId, sellerA, 2, 3⟩], 6,
              "cancelled", none⟩,
            ⟨⟨"65a000000000000000000402"⟩, sellerB, [⟨cupId, sellerB, 1, 5⟩], 5,
              "shipped", none⟩] }] }

/-- The pen's identifier as a client may spell it, with its hexadecimal digits
in upper case. -/
def penIdUpper : ObjectId := ⟨"65A000000000000000000101"⟩

/-- A cash-on-delivery cart of 2 pens from seller A, the pen's identifier
spelled in upper case. -/
def upperCaseBody : CreateOrderBody :=
  { userId := some buyerId
    items := some [⟨penIdUpper, sellerA, 2, 3⟩]
    shippingInfo := some ⟨"1 Main Street"⟩
    deliveryMethod := some "standard"
    paymentMethod := some "cod"
    subtotal := 6
    shipping := 1
    tax := 0
    total := 7
    paymentResult := none }

/-- A cash-on-delivery cart whose only line item names the product "abc",
which is no identifier. -/
def malformedBody : CreateOrderBody :=
  { userId := some buyerId
    items := some [⟨⟨"abc"⟩, sellerA, 1, 3⟩]
    shippingInfo := some ⟨"1 Main Street"⟩
    deliveryMethod := some "standard"
    paymentMethod := some "cod"
    subtotal := 3
    shipping := 1
    tax := 0
    total := 4
    paymentResult := none }

/-! ## Lemmas on the collection operations -/

theorem find?_modifyFirst_const {α : Type} (p : α → Bool) (y : α) (hy : p y = true)
    (xs : List α) (x : α) (hx : xs.find? p = some x) :
    (modifyFirst p (fun _ => y) xs).find? p = some y := by
  induction xs with
  | nil => simp at hx
  | cons a as ih =>
    by_cases ha : p a = true
    · simp [modifyFirst, ha, hy]
    · have ha' : p a = false := by simpa using ha
      rw [List.find?_cons, ha'] at hx
      simp only [modifyFirst, ha', Bool.false_eq_true, if_false, List.find?_cons]
      exact ih hx

theorem length_modifyFirst {α : Type} (p : α → Bool) (f : α → α) (xs : List α) :
    (modifyFirst p f xs).length = xs.length := by
  induction xs with
  | nil => rfl
  | cons a as ih =>
    by_cases ha : p a = true
    · simp [modifyFirst, ha]
    · simp [modifyFirst, ha, ih]

theorem recomputeStatus_id (order : Order) (status : String) :
    (recomputeStatus order status)._id = order._id := by
  unfold recomputeStatus
  simp only []
  repeat' split
  all_goals rfl

theorem recomputeStatus_suborders (order : Order) (status : String) :
    (recomputeStatus order status).suborders = order.suborders := by
  unfold recomputeStatus
  simp only []
  repeat' split
  all_goals rfl

theorem applyStatusUpdate_id (env : Env) (order : Order) (body : UpdateStatusBody) :
    (applyStatusUpdate env order body)._id = order._id := by
  simp [applyStatusUpdate, recomputeStatus_id]

/-- A successful `updateOrderStatus` found the order, and afterwards the order
stored under that identifier is the loaded one with the status writes applied. -/
theorem updateOrderStatus_ok (env : Env) (db db' : Store) (body : UpdateStatusBody)
    (resp : Response) (hrun : updateOrderStatus env db body = (db', resp))
    (hok : resp.code = 200) :
    ∃ order sub, Order.findById db.orders body.orderId = some order ∧
      order.suborders.find? (fun sub => sub._id.toString == body.suborderId) = some sub ∧
      allowedStatuses.contains body.status = true ∧
      Order.findById db'.orders body.orderId = some (applyStatusUpdate env order body) := by
  unfold updateOrderStatus at hrun
  split at hrun
  · cases hrun; simp at hok
  split at hrun
  · cases hrun; simp at hok
  split at hrun
  · cases hrun; simp at hok
  rename_i hst
  split at hrun
  · cases hrun; simp at hok
  rename_i order hfind
  split at hrun
  · cases hrun; simp at hok
  rename_i sub hsub
  cases hrun
  refine ⟨order, sub, hfind, hsub, by simpa using hst, ?_⟩
  have hid : order._id.toString = body.orderId := by
    have := List.find?_some hfind
    simpa using this
  simp only [Order.findById, Order.save, applyStatusUpdate_id, hid]
  apply find?_modifyFirst_const _ _ _ _ order hfind
  simp [applyStatusUpdate_id, hid]

/-! ## The aggregate status -/

theorem recomputeStatus_status_of_many (order : Order) (status : String)
    (h : order.suborders.length ≠ 1) :
    (recomputeStatus order status).status
      = precedenceTable (order.suborders.map (fun sub => sub.status)) := by
  have h1 : (order.suborders.length == 1) = false := by simpa using h
  simp only [recomputeStatus, h1, precedenceTable]
  generalize order.suborders.map (fun sub => sub.status) = l
  simp only [List.contains_iff_exists_mem_beq, List.all_eq_true, List.any_eq_true,
    Bool.or_eq_true, Bool.and_eq_true, beq_iff_eq, bne_iff_ne, ne_eq, Bool.false_eq_true,
    if_false]
  have e1 : ∀ c : String, (∃ a ∈ l, c = a) ↔ ∃ s ∈ l, s = c := fun c =>
    ⟨fun ⟨a, ha, hc⟩ => ⟨a, ha, hc.symm⟩, fun ⟨a, ha, hc⟩ => ⟨a, ha, hc.symm⟩⟩
  simp only [e1]
  split_ifs <;> rfl

/-- Claim C1: for an order with two or more suborders, a successful
`updateOrderStatus` stores the order with the addressed suborder rewritten and
with a status equal to the specification's precedence table applied to the
suborder statuses after that write. -/
theorem updateOrderStatus_status_is_precedence_table (env : Env) (db db' : Store)
    (body : UpdateStatusBody) (resp : Response) (order : Order)
    (hfind : Order.findById db.orders body.orderId = some order)
    (hlen : 2 ≤ order.suborders.length)
    (hrun : updateOrderStatus env db body = (db', resp)) (hok : resp.code = 200) :
    ∃ o, Order.findById db'.orders body.orderId = some o ∧
      o.suborders = modifyFirst (fun sub => sub._id.toString == body.suborderId)
        (fun sub => { sub with status := body.status, statusUpdatedAt := some env.now })
        order.suborders ∧
      o.status = precedenceTable (o.suborders.map (fun sub => sub.status)) := by
  obtain ⟨order', -, hfind', -, -, hstored⟩ :=
    updateOrderStatus_ok env db db' body resp hrun hok
  rw [hfind] at hfind'
  cases hfind'
  refine ⟨_, hstored, ?_, ?_⟩
  · simp [applyStatusUpdate, recomputeStatus_suborders]
  · simp only [applyStatusUpdate, recomputeStatus_suborders]
    apply recomputeStatus_status_of_many
    simp only [length_modifyFirst]
    omega

/-- Witness for C1: setting the shipped suborder of the two-suborder sample
order to `delivered`. -/
theorem updateOrderStatus_status_is_precedence_table_witness :
    ∃ o, Order.findById
        (updateOrderStatus demoEnv demoStore
          ⟨"65a000000000000000000301", "65a000000000000000000402", "delivered"⟩).1.orders
        "65a000000000000000000301" = some o ∧
      o.suborders = modifyFirst (fun sub => sub._id.toString == "65a000000000000000000402")
        (fun sub => { sub with status := "delivered", statusUpdatedAt := some demoEnv.now })
        demoOrder.suborders ∧
      o.status = precedenceTable (o.suborders.map (fun sub => sub.status)) :=
  updateOrderStatus_status_is_precedence_table demoEnv demoStore _
    ⟨"65a000000000000000000301", "65a000000000000000000402", "delivered"⟩ _ demoOrder
    rfl (by decide) rfl (by decide)

theorem recomputeStatus_status_of_one (order : Order) (status : String)
    (h : order.suborders.length = 1) : (recomputeStatus order status).status = status := by
  have h1 : (order.suborders.length == 1) = true := by simpa using h
  simp only [recomputeStatus, h1, if_true]
  split <;> rfl

theorem recomputeStatus_paid (order : Order) (status : String)
    (hpm : order.paymentMethod ≠ "stripe")
    (hd : (recomputeStatus order status).status = "delivered") :
    (recomputeStatus order status).paymentStatus = "paid" := by
  have hpm' : (order.paymentMethod != "stripe") = true := by simpa using hpm
  unfold recomputeStatus at hd ⊢
  simp only [hpm', Bool.and_true, if_true] at hd ⊢
  split_ifs at hd ⊢ <;> first | rfl | simp_all

theorem modifyFirst_singleton {α : Type} (p : α → Bool) (f : α → α) (xs : List α) (x : α)
    (hlen : xs.length = 1) (hx : xs.find? p = some x) : modifyFirst p f xs = [f x] := by
  match xs, hlen with
  | [a], _ =>
    by_cases ha : p a = true
    · simp only [List.find?_cons, ha, Option.some.injEq] at hx
      subst hx
      simp [modifyFirst, ha]
    · simp [List.find?_cons, ha] at hx

/-- Claim C2: for an order with exactly one suborder, a successful
`updateOrderStatus` was given one of the five statuses, writes it to that
suborder, and stores it verbatim as the order's status. -/
theorem updateOrderStatus_single_suborder_passthrough (env : Env) (db db' : Store)
    (body : UpdateStatusBody) (resp : Response) (order : Order)
    (hfind : Order.findById db.orders body.orderId = some order)
    (hlen : order.suborders.length = 1)
    (hrun : updateOrderStatus env db body = (db', resp)) (hok : resp.code = 200) :
    body.status ∈ ["pending", "processing", "shipped", "delivered", "cancelled"] ∧
    ∃ o, Order.findById db'.orders body.orderId = some o ∧
      o.suborders.map (fun sub => sub.status) = [body.status] ∧
      o.status = body.status := by
  obtain ⟨order', sub, hfind', hsub, hst, hstored⟩ :=
    updateOrderStatus_ok env db db' body resp hrun hok
  rw [hfind] at hfind'
  cases hfind'
  refine ⟨by simpa [allowedStatuses] using hst, _, hstored, ?_, ?_⟩
  · simp only [applyStatusUpdate, recomputeStatus_suborders]
    rw [modifyFirst_singleton _ _ _ sub hlen hsub]
    rfl
  · simp only [applyStatusUpdate]
    apply recomputeStatus_status_of_one
    simp only [length_modifyFirst]
    exact hlen

/-- Witness for C2: the only suborder of the single-suborder sample order is
set to `cancelled`. -/
theorem updateOrderStatus_single_suborder_passthrough_witness :
    "cancelled" ∈ ["pending", "processing", "shipped", "delivered", "cancelled"] ∧
    ∃ o, Order.findById
        (updateOrderStatus demoEnv demoStore
          ⟨"65a000000000000000000302", "65a000000000000000000403", "cancelled"⟩).1.orders
        "65a000000000000000000302" = some o ∧
      o.suborders.map (fun sub => sub.status) = ["cancelled"] ∧
      o.status = "cancelled" :=
  updateOrderStatus_single_suborder_passthrough demoEnv demoStore _
    ⟨"65a000000000000000000302", "65a000000000000000000403", "cancelled"⟩ _ demoSingleOrder
    rfl (by decide) rfl (by decide)

/-- Claim C3: for an order with two or more suborders, if after a successful
`updateOrderStatus` some suborder has status `processing`, the stored order's
status is `processing`, whatever the other suborders' statuses are. -/
theorem updateOrderStatus_processing_wins (env : Env) (db db' : Store)
    (body : UpdateStatusBody) (resp : Response) (order : Order)
    (hfind : Order.findById db.orders body.orderId = some order)
    (hlen : 2 ≤ order.suborders.length)
    (hrun : updateOrderStatus env db body = (db', resp)) (hok : resp.code = 200) :
    ∃ o, Order.findById db'.orders body.orderId = some o ∧
      o.suborders.length = order.suborders.length ∧
      ((∃ sub ∈ o.suborders, sub.status = "processing") → o.status = "processing") := by
  obtain ⟨order', -, hfind', -, -, hstored⟩ :=
    updateOrderStatus_ok env db db' body resp hrun hok
  rw [hfind] at hfind'
  cases hfind'
  refine ⟨_, hstored, ?_, ?_⟩
  · simp [applyStatusUpdate, recomputeStatus_suborders, length_modifyFirst]
  · simp only [applyStatusUpdate, recomputeStatus_suborders]
    intro hp
    rw [recomputeStatus_status_of_many]
    · obtain ⟨sub, hmem, hs⟩ := hp
      have : ∃ s ∈ (modifyFirst (fun sub => sub._id.toString == body.suborderId)
          (fun sub => { sub with status := body.status, statusUpdatedAt := some env.now })
          order.suborders).map (fun sub => sub.status), s = "processing" :=
        ⟨sub.status, List.mem_map.2 ⟨sub, hmem, rfl⟩, hs⟩
      simp only [precedenceTable, this, if_true]
    · simp only [length_modifyFirst]
      omega

/-- Witness for C3: the delivered suborder of the two-suborder sample order is
set back to `processing` while the other one is `shipped`. -/
theorem updateOrderStatus_processing_wins_witness :
    ∃ o, Order.findById
        (updateOrderStatus demoEnv demoStore
          ⟨"65a000000000000000000301", "65a000000000000000000401", "processing"⟩).1.orders
        "65a000000000000000000301" = some o ∧
      o.suborders.length = demoOrder.suborders.length ∧
      ((∃ sub ∈ o.suborders, sub.status = "processing") → o.status = "processing") :=
  updateOrderStatus_processing_wins demoEnv demoStore _
    ⟨"65a000000000000000000301", "65a000000000000000000401", "processing"⟩ _ demoOrder
    rfl (by decide) rfl (by decide)

/-- Claim C4: for an order, with one or with several suborders, whose
paymentMethod is not `stripe`, a successful `updateOrderStatus` stores the
order with the addressed suborder rewritten; if the stored status is
`delivered` then the stored paymentStatus is `paid`; and if after the write
every suborder is `delivered`, the stored status is `delivered` and the stored
paymentStatus is `paid`. -/
theorem updateOrderStatus_delivered_marks_paid (env : Env) (db db' : Store)
    (body : UpdateStatusBody) (resp : Response) (order : Order)
    (hfind : Order.findById db.orders body.orderId = some order)
    (hpm : order.paymentMethod ≠ "stripe")
    (hrun : updateOrderStatus env db body = (db', resp)) (hok : resp.code = 200) :
    ∃ o, Order.findById db'.orders body.orderId = some o ∧
      o.suborders = modifyFirst (fun sub => sub._id.toString == body.suborderId)
        (fun sub => { sub with status := body.status, statusUpdatedAt := some env.now })
        order.suborders ∧
      (o.status = "delivered" → o.paymentStatus = "paid") ∧
      ((∀ sub ∈ o.suborders, sub.status = "delivered") →
        o.status = "delivered" ∧ o.paymentStatus = "paid") := by
  obtain ⟨order', sub, hfind', hsub, -, hstored⟩ :=
    updateOrderStatus_ok env db db' body resp hrun hok
  rw [hfind] at hfind'
  cases hfind'
  have hsubs : (applyStatusUpdate env order body).suborders
      = modifyFirst (fun sub => sub._id.toString == body.suborderId)
        (fun sub => { sub with status := body.status, statusUpdatedAt := some env.now })
        order.suborders := by
    simp [applyStatusUpdate, recomputeStatus_suborders]
  have hpaid : (applyStatusUpdate env order body).status = "delivered" →
      (applyStatusUpdate env order body).paymentStatus = "paid" := by
    simp only [applyStatusUpdate]
    exact recomputeStatus_paid _ _ hpm
  refine ⟨_, hstored, hsubs, hpaid, ?_⟩
  intro hall
  rw [hsubs] at hall
  have hstatus : (applyStatusUpdate env order body).status = "delivered" := by
    simp only [applyStatusUpdate]
    by_cases hlen : order.suborders.length = 1
    · rw [recomputeStatus_status_of_one _ _ (by simpa only [length_modifyFirst] using hlen)]
      rw [modifyFirst_singleton _ _ _ sub hlen hsub] at hall
      exact hall _ (List.mem_singleton.2 rfl)
    · rw [recomputeStatus_status_of_many _ _ (by simpa only [length_modifyFirst] using hlen)]
      have hnone : ¬ ∃ s ∈ (modifyFirst (fun sub => sub._id.toString == body.suborderId)
          (fun sub => { sub with status := body.status, statusUpdatedAt := some env.now })
          order.suborders).map (fun sub => sub.status), s = "processing" := by
        rintro ⟨s, hs, hproc⟩
        obtain ⟨t, ht, rfl⟩ := List.mem_map.1 hs
        rw [hall t ht] at hproc
        exact absurd hproc (by decide)
      have hdel : ∀ s ∈ (modifyFirst (fun sub => sub._id.toString == body.suborderId)
          (fun sub => { sub with status := body.status, statusUpdatedAt := some env.now })
          order.suborders).map (fun sub => sub.status), s = "delivered" := by
        intro s hs
        obtain ⟨t, ht, rfl⟩ := List.mem_map.1 hs
        exact hall t ht
      unfold precedenceTable
      rw [if_neg hnone, if_pos hdel]
  exact ⟨hstatus, hpaid hstatus⟩

/-- Witness for C4: the two-suborder cash-on-delivery sample order, one
suborder already delivered, has its other suborder set to `delivered`: the
stored order has suborder statuses delivered and delivered, status `delivered`
and paymentStatus `paid`. -/
theorem updateOrderStatus_delivered_marks_paid_witness :
    demoOrder.paymentMethod = "cod" ∧ demoOrder.paymentStatus = "pending" ∧
    ∃ o, Order.findById
        (updateOrderStatus demoEnv demoStore
          ⟨"65a000000000000000000301", "65a000000000000000000402", "delivered"⟩).1.orders
        "65a000000000000000000301" = some o ∧
      o.suborders.map (fun sub => sub.status) = ["delivered", "delivered"] ∧
      o.status = "delivered" ∧ o.paymentStatus = "paid" := by
  obtain ⟨o, hfind, hsubs, -, hall⟩ :=
    updateOrderStatus_delivered_marks_paid demoEnv demoStore _
      ⟨"65a000000000000000000301", "65a000000000000000000402", "delivered"⟩ _ demoOrder
      rfl (by decide) rfl (by decide)
  have hst : o.suborders.map (fun sub => sub.status) = ["delivered", "delivered"] := by
    rw [hsubs]
    rfl
  have hdel : ∀ sub ∈ o.suborders, sub.status = "delivered" := by
    intro sub hsub
    have hmem : sub.status ∈ o.suborders.map (fun sub => sub.status) :=
      List.mem_map.2 ⟨sub, hsub, rfl⟩
    rw [hst] at hmem
    simpa using hmem
  exact ⟨rfl, rfl, o, hfind, hst, (hall hdel).1, (hall hdel).2⟩

/-! ## The grouping loop -/

theorem modifyFirst_eq_map_of_nodup {β : Type} (k : String) (g : String × β → String × β)
    (m : List (String × β)) (hnd : (m.map Prod.fst).Nodup) :
    modifyFirst (fun e => e.1 == k) g m = m.map (fun e => if e.1 == k then g e else e) := by
  induction m with
  | nil => rfl
  | cons a as ih =>
    rw [List.map_cons, List.nodup_cons] at hnd
    by_cases ha : a.1 = k
    · have hrest : ∀ e ∈ as, (if (e.1 == k) = true then g e else e) = e := by
        intro e he
        have hne : e.1 ≠ k := by
          intro hek
          exact hnd.1 (List.mem_map.2 ⟨e, he, by rw [hek, ha]⟩)
        simp [hne]
      simp only [modifyFirst, ha, beq_self_eq_true, if_true, List.map_cons]
      congr 1
      rw [List.map_congr_left hrest, List.map_id']
    · simp only [modifyFirst, beq_iff_eq, ha, if_false, List.map_cons]
      rw [ih hnd.2]
      simp [ha]

theorem modifyFirst_append_of_not {α : Type} (p : α → Bool) (f : α → α) (xs ys : List α)
    (h : ∀ x ∈ xs, p x = false) : modifyFirst p f (xs ++ ys) = xs ++ modifyFirst p f ys := by
  induction xs with
  | nil => rfl
  | cons a as ih =>
    have ha : p a = false := h a (List.mem_cons_self _ _)
    have ih' := ih (fun x hx => h x (List.mem_cons_of_mem _ hx))
    simp [modifyFirst, ha, ih']

theorem has_eq_true_iff {β : Type} (m : JsMap β) (k : String) :
    m.has k = true ↔ k ∈ m.map Prod.fst := by
  simp only [JsMap.has, List.any_eq_true, beq_iff_eq, List.mem_map]

/-- An iteration of the grouping loop for a seller already in the map: the
seller's entry gets the item. -/
theorem groupStep_of_has (m : JsMap SuborderData) (x : Item) (hnd : (m.map Prod.fst).Nodup)
    (hk : m.has x.sellerId.toString = true) :
    groupStep m x =
      m.map (fun e => if e.1 == x.sellerId.toString then (e.1, pushItem x e.2) else e) := by
  simp only [groupStep, hk, Bool.not_true, Bool.false_eq_true, if_false, JsMap.mutate]
  exact modifyFirst_eq_map_of_nodup _ _ m hnd

/-- An iteration of the grouping loop for a seller not yet in the map: a new
entry holding the item goes last. -/
theorem groupStep_of_not_has (m : JsMap SuborderData) (x : Item)
    (hk : m.has x.sellerId.toString = false) :
    groupStep m x = m ++ [(x.sellerId.toString,
      { sellerId := x.sellerId, items := [x],
        subtotal := 0 + x.price * (x.quantity : ℚ), status := "pending" })] := by
  have hno : ∀ e ∈ m, (e.1 == x.sellerId.toString) = false := by
    intro e he
    by_contra hc
    have hek : e.1 = x.sellerId.toString := by simpa using hc
    have : m.has x.sellerId.toString = true :=
      (has_eq_true_iff m _).2 (List.mem_map.2 ⟨e, he, hek⟩)
    rw [hk] at this
    exact Bool.false_ne_true this
  simp only [groupStep, hk, Bool.not_false, if_true, JsMap.set, Bool.false_eq_true, if_false,
    JsMap.mutate]
  rw [modifyFirst_append_of_not _ _ _ _ hno]
  simp [modifyFirst]

theorem groupInv_nil : GroupInv [] [] := by
  constructor <;> simp

theorem groupInv_step_has (m : JsMap SuborderData) (xs : List Item) (x : Item)
    (h : GroupInv m xs) (hk : m.has x.sellerId.toString = true) :
    GroupInv (groupStep m x) (xs ++ [x]) := by
  rw [groupStep_of_has m x h.nodup hk]
  have hkeys : (m.map (fun e =>
      if e.1 == x.sellerId.toString then (e.1, pushItem x e.2) else e)).map Prod.fst
      = m.map Prod.fst := by
    rw [List.map_map]
    apply List.map_congr_left
    intro e _
    by_cases he : e.1 = x.sellerId.toString <;> simp [he]
  have hmem : ∀ e' ∈ m.map (fun e =>
      if e.1 == x.sellerId.toString then (e.1, pushItem x e.2) else e),
      ∃ e ∈ m, (e.1 = x.sellerId.toString ∧ e' = (e.1, pushItem x e.2)) ∨
        (e.1 ≠ x.sellerId.toString ∧ e' = e) := by
    intro e' he'
    obtain ⟨e, he, rfl⟩ := List.mem_map.1 he'
    refine ⟨e, he, ?_⟩
    by_cases hek : e.1 = x.sellerId.toString
    · left; simp [hek]
    · right; simp [hek]
  refine ⟨?_, ?_, ?_, ?_, ?_, ?_, ?_, ?_⟩
  · rw [hkeys]; exact h.nodup
  · intro e' he'
    obtain ⟨e, he, ⟨-, rfl⟩ | ⟨-, rfl⟩⟩ := hmem e' he'
    · exact h.key_eq e he
    · exact h.key_eq e' he
  · intro e' he'
    obtain ⟨e, he, ⟨hek, rfl⟩ | ⟨hek, rfl⟩⟩ := hmem e' he'
    · simp [pushItem, h.items_eq e he, List.filter_append, hek]
    · have : ¬ x.sellerId.toString = e'.1 := fun hc => hek hc.symm
      simp [h.items_eq e' he, List.filter_append, this]
  · intro e' he'
    obtain ⟨e, he, ⟨-, rfl⟩ | ⟨-, rfl⟩⟩ := hmem e' he'
    · rw [List.map_append]; exact List.mem_append_left _ (h.seen e he)
    · rw [List.map_append]; exact List.mem_append_left _ (h.seen e' he)
  · intro it hit
    rw [hkeys]
    rcases List.mem_append.1 hit with hit | hit
    · exact h.covers it hit
    · have : it = x := by simpa using hit
      subst this
      exact (has_eq_true_iff m _).1 hk
  · intro e' he'
    obtain ⟨e, he, ⟨-, rfl⟩ | ⟨-, rfl⟩⟩ := hmem e' he'
    · simp [pushItem, h.subtotal_eq e he]
    · exact h.subtotal_eq e' he
  · intro e' he'
    obtain ⟨e, he, ⟨-, rfl⟩ | ⟨-, rfl⟩⟩ := hmem e' he'
    · exact h.pending e he
    · exact h.pending e' he
  · rw [hkeys]
    have hseen : ∀ a ∈ m.map Prod.fst, a ∈ xs.map (fun it => it.sellerId.toString) := by
      intro a ha
      obtain ⟨e, he, rfl⟩ := List.mem_map.1 ha
      exact h.seen e he
    refine h.ordered.imp_of_mem ?_
    intro a b ha hb hab
    rw [List.map_append, List.indexOf_append_of_mem (hseen a ha),
      List.indexOf_append_of_mem (hseen b hb)]
    exact hab

theorem groupInv_step_not_has (m : JsMap SuborderData) (xs : List Item) (x : Item)
    (h : GroupInv m xs) (hk : m.has x.sellerId.toString = false) :
    GroupInv (groupStep m x) (xs ++ [x]) := by
  rw [groupStep_of_not_has m x hk]
  have hknot : x.sellerId.toString ∉ m.map Prod.fst := by
    intro hc
    have := (has_eq_true_iff m _).2 hc
    rw [hk] at this
    exact Bool.false_ne_true this
  have hkxs : x.sellerId.toString ∉ xs.map (fun it => it.sellerId.toString) := by
    intro hc
    obtain ⟨it, hit, hkey⟩ := List.mem_map.1 hc
    exact hknot (hkey ▸ h.covers it hit)
  have hseen : ∀ a ∈ m.map Prod.fst, a ∈ xs.map (fun it => it.sellerId.toString) := by
    intro a ha
    obtain ⟨e, he, rfl⟩ := List.mem_map.1 ha
    exact h.seen e he
  have hne : ∀ e ∈ m, ¬ x.sellerId.toString = e.1 := by
    intro e he hc
    exact hknot (List.mem_map.2 ⟨e, he, hc.symm⟩)
  refine ⟨?_, ?_, ?_, ?_, ?_, ?_, ?_, ?_⟩
  · rw [List.map_append, List.nodup_append]
    refine ⟨h.nodup, by simp, ?_⟩
    intro a ha ha'
    have : a = x.sellerId.toString := by simpa using ha'
    exact hknot (this ▸ ha)
  · intro e' he'
    rcases List.mem_append.1 he' with he | he
    · exact h.key_eq e' he
    · have : e' = _ := List.mem_singleton.1 he
      subst this; rfl
  · intro e' he'
    rcases List.mem_append.1 he' with he | he
    · simp [h.items_eq e' he, List.filter_append, hne e' he]
    · have : e' = _ := List.mem_singleton.1 he
      subst this
      have hnil : xs.filter (fun it => it.sellerId.toString == x.sellerId.toString) = [] := by
        rw [List.filter_eq_nil_iff]
        intro it hit hc
        exact hkxs (List.mem_map.2 ⟨it, hit, by simpa using hc⟩)
      simp [List.filter_append, hnil]
  · intro e' he'
    rw [List.map_append]
    rcases List.mem_append.1 he' with he | he
    · exact List.mem_append_left _ (h.seen e' he)
    · have : e' = _ := List.mem_singleton.1 he
      subst this
      exact List.mem_append_right _ (by simp)
  · intro it hit
    rw [List.map_append]
    rcases List.mem_append.1 hit with hit | hit
    · exact List.mem_append_left _ (h.covers it hit)
    · have : it = x := by simpa using hit
      subst this
      exact List.mem_append_right _ (by simp)
  · intro e' he'
    rcases List.mem_append.1 he' with he | he
    · exact h.subtotal_eq e' he
    · have : e' = _ := List.mem_singleton.1 he
      subst this
      simp
  · intro e' he'
    rcases List.mem_append.1 he' with he | he
    · exact h.pending e' he
    · have : e' = _ := List.mem_singleton.1 he
      subst this; rfl
  · simp only [List.map_append]
    rw [List.pairwise_append]
    refine ⟨?_, by simp, ?_⟩
    · refine h.ordered.imp_of_mem ?_
      intro a b ha hb hab
      rw [List.indexOf_append_of_mem (hseen a ha), List.indexOf_append_of_mem (hseen b hb)]
      exact hab
    · intro a ha b hb
      have hb' : b = x.sellerId.toString := by simpa using hb
      subst hb'
      rw [List.indexOf_append_of_mem (hseen a ha), List.indexOf_append_of_not_mem hkxs]
      have := List.indexOf_lt_length.2 (hseen a ha)
      omega

theorem groupInv_step (m : JsMap SuborderData) (xs : List Item) (x : Item)
    (h : GroupInv m xs) : GroupInv (groupStep m x) (xs ++ [x]) := by
  cases hk : m.has x.sellerId.toString
  · exact groupInv_step_not_has m xs x h hk
  · exact groupInv_step_has m xs x h hk

/-- The map built by the grouping loop satisfies the loop invariant for the
whole list of line items. -/
theorem groupInv_foldl (items : List Item) : GroupInv (items.foldl groupStep []) items := by
  induction items using List.reverseRecOn with
  | nil => exact groupInv_nil
  | append_singleton xs x ih =>
    rw [List.foldl_append]
    exact groupInv_step _ xs x ih

/-! ## Successful order creation -/

theorem validateItems_code (env : Env) (products : List Product) (items : List Item)
    (r : Response) (h : validateItems env products items = some r) :
    r.code = 500 ∨ r.code = 404 ∨ r.code = 400 := by
  induction items with
  | nil => simp [validateItems] at h
  | cons item rest ih =>
    unfold validateItems at h
    split at h
    · cases h; left; rfl
    · split at h
      · cases h; right; left; rfl
      · split at h
        · cases h; right; right; rfl
        · split at h
          · cases h; right; right; rfl
          · exact ih h

theorem cast_of_castId (env : Env) (id objectId : ObjectId)
    (h : env.castId id.toString = some objectId) : env.cast id = objectId := by
  simp only [Env.cast, h]

/-- A `createOrder` call answered with 201 passed every check, found the
buyer's account under the identifier the request's userId is cast to, appended
the newly built order to the order collection, reached its catalog by the
stock loop without a failed update, and filtered the buyer's cart. -/
theorem createOrder_created (env : Env) (db db' : Store) (body : CreateOrderBody)
    (resp : Response) (hrun : createOrder env db body = (db', resp)) (hok : resp.code = 201) :
    ∃ userId items shippingInfo paymentMethod,
      body.userId = some userId ∧ body.items = some items ∧
      body.shippingInfo = some shippingInfo ∧ body.paymentMethod = some paymentMethod ∧
      items ≠ [] ∧
      validateItems env db.products items = none ∧
      decrementStock env db.products items = (db'.products, none) ∧
      db'.orders = db.orders ++
        [Order.new env userId items (groupBySeller items) shippingInfo body.deliveryMethod
          paymentMethod body.subtotal body.shipping body.tax body.total
          (if paymentMethod == "stripe" then "paid" else "pending")
          (if paymentMethod == "stripe" then body.paymentResult.bind (fun r => r.id)
            else none)] ∧
      db'.carts = clearCart db.carts (env.cast userId) items ∧
      db'.users = db.users ∧ db'.refunds = db.refunds ∧
      (userId.toString == "" || items.length == 0 || paymentMethod == "") = false ∧
      (paymentMethod == "stripe" && paymentResultRejected body.paymentResult) = false ∧
      ∃ buyer user, env.castId userId.toString = some buyer ∧
        User.findById db.users buyer = some user := by
  unfold createOrder at hrun
  split at hrun
  · rename_i userId items shippingInfo paymentMethod hu hi hs hp
    split at hrun
    · cases hrun; simp at hok
    rename_i hmiss
    split at hrun
    · cases hrun; simp at hok
    rename_i hpay
    split at hrun
    · rename_i rejection hrej
      cases hrun
      rcases validateItems_code _ _ _ _ hrej with h | h | h <;> omega
    rename_i hval
    split at hrun
    · cases hrun; simp at hok
    rename_i buyer hcast
    split at hrun
    · cases hrun; simp at hok
    rename_i user huser
    simp only [] at hrun
    split at hrun
    · cases hrun; simp at hok
    rename_i products1 hdec
    cases hrun
    refine ⟨userId, items, shippingInfo, paymentMethod, hu, hi, hs, hp, ?_, hval, hdec,
      rfl, ?_, rfl, rfl, by simpa using hmiss, by simpa using hpay, buyer, user, hcast, huser⟩
    · intro hnil
      simp [hnil] at hmiss
    · rw [cast_of_castId env userId buyer hcast]
  · cases hrun; simp at hok

/-- A request that passes every check and whose stock loop finds every
product/seller pair is answered 201: the order is appended, the catalog is the
one the stock loop reached and the buyer's cart is filtered. -/
theorem createOrder_run (env : Env) (db : Store) (body : CreateOrderBody)
    (userId : ObjectId) (items : List Item) (shippingInfo : ShippingInfo)
    (paymentMethod : String) (buyer : ObjectId) (user : User) (products1 : List Product)
    (hu : body.userId = some userId) (hi : body.items = some items)
    (hs : body.shippingInfo = some shippingInfo) (hp : body.paymentMethod = some paymentMethod)
    (hfields : (userId.toString == "" || items.length == 0 || paymentMethod == "") = false)
    (hpay : (paymentMethod == "stripe" && paymentResultRejected body.paymentResult) = false)
    (hval : validateItems env db.products items = none)
    (hcast : env.castId userId.toString = some buyer)
    (huser : User.findById db.users buyer = some user)
    (hdec : decrementStock env db.products items = (products1, none)) :
    createOrder env db body =
      ({ db with
          products := products1
          orders := db.orders ++
            [Order.new env userId items (groupBySeller items) shippingInfo body.deliveryMethod
              paymentMethod body.subtotal body.shipping body.tax body.total
              (if paymentMethod == "stripe" then "paid" else "pending")
              (if paymentMethod == "stripe" then body.paymentResult.bind (fun r => r.id)
                else none)]
          carts := clearCart db.carts buyer items },
        ⟨201, "Order created successfully",
          Order.findById (db.orders ++
            [Order.new env userId items (groupBySeller items) shippingInfo body.deliveryMethod
              paymentMethod body.subtotal body.shipping body.tax body.total
              (if paymentMethod == "stripe" then "paid" else "pending")
              (if paymentMethod == "stripe" then body.paymentResult.bind (fun r => r.id)
                else none)]) (env.newId 0).toString,
          if paymentMethod == "stripe" then body.paymentResult.bind (fun r => r.id)
            else none⟩) := by
  simp only [createOrder, hu, hi, hs, hp, hfields, hpay, hval, hcast, huser, hdec,
    Bool.false_eq_true, if_false]
  rfl


theorem data_new_suborders (env : Env) (userId : ObjectId) (items : List Item)
    (suborders : List SuborderData) (shippingInfo : ShippingInfo)
    (deliveryMethod : Option String) (paymentMethod : String)
    (subtotal shipping tax total : ℚ) (paymentStatus : String)
    (stripePaymentIntentId : Option String) :
    (Order.new env userId items suborders shippingInfo deliveryMethod paymentMethod subtotal
      shipping tax total paymentStatus stripePaymentIntentId).suborders.map Suborder.data
      = suborders.map (castData env) := by
  simp only [Order.new, List.map_map]
  have hsnd : (Suborder.data ∘ fun e : ℕ × SuborderData =>
      ({ _id := env.newId (e.1 + 1), sellerId := e.2.sellerId,
         items := e.2.items.map (castItem env),
         subtotal := e.2.subtotal, status := e.2.status, statusUpdatedAt := none } : Suborder))
      = castData env ∘ Prod.snd := by
    funext e
    rfl
  rw [hsnd, ← List.map_map, List.enum_map_snd]

theorem modifyFirst_map {α β : Type} (g : α → β) (p : β → Bool) (f : β → β)
    (p' : α → Bool) (f' : α → α) (hp : ∀ x, p (g x) = p' x) (hf : ∀ x, f (g x) = g (f' x))
    (xs : List α) : modifyFirst p f (xs.map g) = (modifyFirst p' f' xs).map g := by
  induction xs with
  | nil => rfl
  | cons a as ih =>
    by_cases ha : p' a = true
    · simp [modifyFirst, hp, ha, hf]
    · have ha' : p' a = false := by simpa using ha
      simp [modifyFirst, hp, ha', ih]

theorem map_sellerId_castItem (env : Env) (items : List Item) :
    (items.map (castItem env)).map (fun it => it.sellerId.toString)
      = items.map (fun it => it.sellerId.toString) := by
  rw [List.map_map]
  rfl

theorem map_amount_castItem (env : Env) (items : List Item) :
    (items.map (castItem env)).map (fun it => it.price * (it.quantity : ℚ))
      = items.map (fun it => it.price * (it.quantity : ℚ)) := by
  rw [List.map_map]
  rfl

theorem filter_map_castItem (env : Env) (items : List Item) (sellerId : ObjectId) :
    (items.map (castItem env)).filter (fun it => it.sellerId == sellerId)
      = (items.filter (fun it => it.sellerId == sellerId)).map (castItem env) := by
  rw [List.filter_map]
  rfl

/-- One iteration of the grouping loop on the cast line item is the iteration
on the line item as sent, with the items of every group cast. -/
theorem groupStep_map (env : Env) (m : JsMap SuborderData) (x : Item) :
    groupStep (m.map (fun e => (e.1, castData env e.2))) (castItem env x)
      = (groupStep m x).map (fun e => (e.1, castData env e.2)) := by
  have hhas : JsMap.has (m.map (fun e => (e.1, castData env e.2))) x.sellerId.toString
      = JsMap.has m x.sellerId.toString := by
    simp only [JsMap.has, List.any_map]
    rfl
  have hpush : ∀ e : String × SuborderData,
      (fun e : String × SuborderData => (e.1, pushItem (castItem env x) e.2))
          ((fun e : String × SuborderData => (e.1, castData env e.2)) e)
        = (fun e : String × SuborderData => (e.1, castData env e.2))
          ((fun e : String × SuborderData => (e.1, pushItem x e.2)) e) := by
    intro e
    simp [pushItem, castData, castItem]
  cases hk : m.has x.sellerId.toString
  · rw [groupStep_of_not_has m x hk,
      groupStep_of_not_has _ (castItem env x) (by rw [← hk]; exact hhas)]
    simp [castData, castItem]
  · have hk' : JsMap.has (m.map (fun e => (e.1, castData env e.2)))
        (castItem env x).sellerId.toString = true := by
      rw [← hk]; exact hhas
    simp only [groupStep, hk, hk', Bool.not_true, Bool.false_eq_true, if_false, JsMap.mutate]
    exact modifyFirst_map (fun e : String × SuborderData => (e.1, castData env e.2))
      (fun e => e.1 == x.sellerId.toString)
      (fun e => (e.1, pushItem (castItem env x) e.2))
      (fun e => e.1 == x.sellerId.toString)
      (fun e => (e.1, pushItem x e.2)) (fun _ => rfl) hpush m

theorem foldl_groupStep_map (env : Env) (items : List Item) (m : JsMap SuborderData) :
    (items.map (castItem env)).foldl groupStep (m.map (fun e => (e.1, castData env e.2)))
      = (items.foldl groupStep m).map (fun e => (e.1, castData env e.2)) := by
  induction items generalizing m with
  | nil => rfl
  | cons x xs ih =>
    simp only [List.map_cons, List.foldl_cons]
    rw [groupStep_map]
    exact ih _

/-- Grouping the cast line items gives the groups of the line items as sent,
with their items cast. -/
theorem groupBySeller_map (env : Env) (items : List Item) :
    groupBySeller (items.map (castItem env)) = (groupBySeller items).map (castData env) := by
  have h := foldl_groupStep_map env items []
  simp only [List.map_nil] at h
  simp only [groupBySeller, JsMap.values, h, List.map_map]
  rfl

theorem GroupInv.eq_map_values {m : JsMap SuborderData} {xs : List Item} (h : GroupInv m xs) :
    m = m.values.map (fun d => (d.sellerId.toString, d)) := by
  simp only [JsMap.values, List.map_map]
  conv_lhs => rw [← List.map_id m]
  apply List.map_congr_left
  intro e he
  exact Prod.ext (h.key_eq e he).symm rfl

/-- The order stored by a successful `createOrder` holds the request's line
items, cast, and the request's subtotal, and its suborders, keyed by the string
form of their seller, satisfy the grouping invariant for those line items. -/
theorem createOrder_grouped (env : Env) (db db' : Store) (body : CreateOrderBody)
    (resp : Response) (hrun : createOrder env db body = (db', resp)) (hok : resp.code = 201) :
    ∃ items o, body.items = some items ∧ db'.orders = db.orders ++ [o] ∧
      o.items = items.map (castItem env) ∧
      o.subtotal = body.subtotal ∧
      GroupInv (o.suborders.map (fun s => (s.sellerId.toString, s.data)))
        (items.map (castItem env)) ∧
      items ≠ [] := by
  obtain ⟨userId, items, shippingInfo, paymentMethod, -, hi, -, -, hne, -, -, hord, -⟩ :=
    createOrder_created env db db' body resp hrun hok
  refine ⟨items, _, hi, hord, rfl, rfl, ?_, hne⟩
  have hG := groupInv_foldl (items.map (castItem env))
  have hmap : ∀ l : List Suborder,
      l.map (fun s => (s.sellerId.toString, s.data))
        = (l.map Suborder.data).map (fun d => (d.sellerId.toString, d)) := by
    intro l
    rw [List.map_map]
    rfl
  rw [hmap, data_new_suborders, ← groupBySeller_map, groupBySeller, ← hG.eq_map_values]
  exact hG

theorem keys_map_suborders (subs : List Suborder) :
    (subs.map (fun s => (s.sellerId.toString, s.data))).map Prod.fst
      = subs.map (fun s => s.sellerId.toString) := by
  rw [List.map_map]
  rfl

theorem ObjectId.toString_inj {a b : ObjectId} (h : a.toString = b.toString) : a = b := by
  cases a
  cases b
  simpa [ObjectId.toString] using h

theorem toString_beq (a b : ObjectId) : (a.toString == b.toString) = (a == b) := by
  by_cases h : a = b
  · simp [h]
  · have : a.toString ≠ b.toString := fun hc => h (ObjectId.toString_inj hc)
    simp [h, this]

/-- Claim C5: the order stored by a successful `createOrder` holds the
request's line items and has as many suborders as there are distinct string
forms of sellerIds among them. -/
theorem createOrder_suborder_count (env : Env) (db db' : Store) (body : CreateOrderBody)
    (resp : Response) (hrun : createOrder env db body = (db', resp)) (hok : resp.code = 201) :
    ∃ items o, body.items = some items ∧ db'.orders = db.orders ++ [o] ∧
      o.items = items.map (castItem env) ∧
      o.suborders.length = (items.map (fun it => it.sellerId.toString)).toFinset.card ∧
      o.suborders.length = (o.items.map (fun it => it.sellerId.toString)).toFinset.card := by
  obtain ⟨items, o, hi, hord, hitems, -, hG, -⟩ :=
    createOrder_grouped env db db' body resp hrun hok
  have hnd := hG.nodup
  rw [keys_map_suborders] at hnd
  have hset : (o.suborders.map (fun s => s.sellerId.toString)).toFinset
      = (items.map (fun it => it.sellerId.toString)).toFinset := by
    ext k
    simp only [List.mem_toFinset]
    constructor
    · intro hk
      obtain ⟨s, hs, rfl⟩ := List.mem_map.1 hk
      have := hG.seen _ (List.mem_map.2 ⟨s, hs, rfl⟩)
      rwa [map_sellerId_castItem] at this
    · intro hk
      rw [← map_sellerId_castItem env] at hk
      obtain ⟨it, hit, rfl⟩ := List.mem_map.1 hk
      have := hG.covers it hit
      rwa [keys_map_suborders] at this
  have hcount : o.suborders.length
      = (items.map (fun it => it.sellerId.toString)).toFinset.card := by
    rw [← hset, List.toFinset_card_of_nodup hnd, List.length_map]
  refine ⟨items, o, hi, hord, hitems, hcount, ?_⟩
  rw [hitems, map_sellerId_castItem]
  exact hcount

/-- Witness for C5: the sample cart of three line items from two sellers. -/
theorem createOrder_suborder_count_witness :
    ∃ items o, demoBody.items = some items ∧
      (createOrder demoEnv demoStore demoBody).1.orders = demoStore.orders ++ [o] ∧
      o.items = items.map (castItem demoEnv) ∧
      o.suborders.length = (items.map (fun it => it.sellerId.toString)).toFinset.card ∧
      o.suborders.length = (o.items.map (fun it => it.sellerId.toString)).toFinset.card :=
  createOrder_suborder_count demoEnv demoStore _ demoBody _ rfl (by decide)

/-- Claim C6: the order stored by a successful `createOrder` has, for every
line item of the request, a suborder of that item's seller whose items are the
request's line items of that seller and whose subtotal is the exact sum of
price times quantity over them; and every suborder's subtotal is the exact sum
of price times quantity over that suborder's items. -/
theorem createOrder_suborder_subtotal (env : Env) (db db' : Store) (body : CreateOrderBody)
    (resp : Response) (hrun : createOrder env db body = (db', resp)) (hok : resp.code = 201) :
    ∃ items o, body.items = some items ∧ items ≠ [] ∧ db'.orders = db.orders ++ [o] ∧
      o.items = items.map (castItem env) ∧
      (∀ s ∈ o.suborders,
        s.subtotal = (s.items.map (fun it => it.price * (it.quantity : ℚ))).sum) ∧
      (∀ it ∈ items, ∃ s ∈ o.suborders, s.sellerId = it.sellerId ∧
        s.items = (items.filter (fun x => x.sellerId == it.sellerId)).map (castItem env) ∧
        s.subtotal = ((items.filter (fun x => x.sellerId == it.sellerId)).map
          (fun x => x.price * (x.quantity : ℚ))).sum) := by
  obtain ⟨items, o, hi, hord, hitems, -, hG, hne⟩ :=
    createOrder_grouped env db db' body resp hrun hok
  have hsub : ∀ s ∈ o.suborders,
      s.subtotal = (s.items.map (fun it => it.price * (it.quantity : ℚ))).sum := by
    intro s hs
    exact hG.subtotal_eq _ (List.mem_map.2 ⟨s, hs, rfl⟩)
  refine ⟨items, o, hi, hne, hord, hitems, hsub, ?_⟩
  intro it hit
  have hcov := hG.covers (castItem env it) (List.mem_map.2 ⟨it, hit, rfl⟩)
  rw [keys_map_suborders] at hcov
  obtain ⟨s, hs, hkey⟩ := List.mem_map.1 hcov
  have hsid : s.sellerId = it.sellerId := ObjectId.toString_inj hkey
  have hfil : s.items
      = (items.filter (fun x => x.sellerId == it.sellerId)).map (castItem env) := by
    have h1 := hG.items_eq _ (List.mem_map.2 ⟨s, hs, rfl⟩)
    rw [show (s.sellerId.toString, s.data).2.items = s.items from rfl] at h1
    rw [h1, ← filter_map_castItem, hsid]
    apply List.filter_congr
    intro x _
    exact toString_beq _ _
  refine ⟨s, hs, hsid, hfil, ?_⟩
  rw [hsub s hs, hfil, map_amount_castItem]

/-- Witness for C6: in the sample cart seller A sells 2 pens and 1 pen at 3 and
seller B sells 1 cup at 5; the stored order has a suborder of seller A with
subtotal 9 and a suborder of seller B with subtotal 5. -/
theorem createOrder_suborder_subtotal_witness :
    ∃ o, (createOrder demoEnv demoStore demoBody).1.orders = demoStore.orders ++ [o] ∧
      (∃ s ∈ o.suborders, s.sellerId = sellerA ∧ s.subtotal = 9) ∧
      (∃ s ∈ o.suborders, s.sellerId = sellerB ∧ s.subtotal = 5) := by
  obtain ⟨items, o, hi, -, hord, -, -, hcov⟩ :=
    createOrder_suborder_subtotal demoEnv demoStore _ demoBody _ rfl (by decide)
  have hitems : items
      = [⟨penId, sellerA, 2, 3⟩, ⟨cupId, sellerB, 1, 5⟩, ⟨penId, sellerA, 1, 3⟩] := by
    have : some [(⟨penId, sellerA, 2, 3⟩ : Item), ⟨cupId, sellerB, 1, 5⟩, ⟨penId, sellerA, 1, 3⟩]
        = some items := hi
    exact (Option.some.inj this).symm
  subst hitems
  refine ⟨o, hord, ?_, ?_⟩
  · obtain ⟨s, hs, hsid, -, hsum⟩ := hcov ⟨penId, sellerA, 2, 3⟩ (by simp)
    refine ⟨s, hs, hsid, ?_⟩
    rw [hsum]
    have hfil : List.filter (fun x : Item => x.sellerId == sellerA)
        [⟨penId, sellerA, 2, 3⟩, ⟨cupId, sellerB, 1, 5⟩, ⟨penId, sellerA, 1, 3⟩]
        = [⟨penId, sellerA, 2, 3⟩, ⟨penId, sellerA, 1, 3⟩] := by rfl
    rw [hfil]
    norm_num
  · obtain ⟨s, hs, hsid, -, hsum⟩ := hcov ⟨cupId, sellerB, 1, 5⟩ (by simp)
    refine ⟨s, hs, hsid, ?_⟩
    rw [hsum]
    have hfil : List.filter (fun x : Item => x.sellerId == sellerB)
        [⟨penId, sellerA, 2, 3⟩, ⟨cupId, sellerB, 1, 5⟩, ⟨penId, sellerA, 1, 3⟩]
        = [⟨cupId, sellerB, 1, 5⟩] := by rfl
    rw [hfil]
    norm_num

/-- Claim C7: in the order stored by a successful `createOrder`, no two
suborders have the same seller, each suborder's items are exactly the line
items of its seller in their original order, and every line item lies in the
suborder of its seller and in no other suborder. -/
theorem createOrder_items_partitioned (env : Env) (db db' : Store) (body : CreateOrderBody)
    (resp : Response) (hrun : createOrder env db body = (db', resp)) (hok : resp.code = 201) :
    ∃ items o, body.items = some items ∧ db'.orders = db.orders ++ [o] ∧
      o.items = items.map (castItem env) ∧
      (o.suborders.map (fun s => s.sellerId)).Nodup ∧
      (∀ s ∈ o.suborders, s.items = o.items.filter (fun it => it.sellerId == s.sellerId)) ∧
      (∀ it ∈ o.items, ∃ s ∈ o.suborders, s.sellerId = it.sellerId ∧ it ∈ s.items ∧
        ∀ t ∈ o.suborders, it ∈ t.items → t = s) := by
  obtain ⟨items, o, hi, hord, hitems, -, hG, -⟩ :=
    createOrder_grouped env db db' body resp hrun hok
  rw [← hitems] at hG
  have hnd : (o.suborders.map (fun s => s.sellerId)).Nodup := by
    have h1 := hG.nodup
    rw [keys_map_suborders] at h1
    have h2 : o.suborders.map (fun s => s.sellerId.toString)
        = (o.suborders.map (fun s => s.sellerId)).map ObjectId.toString := by
      rw [List.map_map]
      rfl
    rw [h2] at h1
    exact h1.of_map _
  have hfilter : ∀ s ∈ o.suborders,
      s.items = o.items.filter (fun it => it.sellerId == s.sellerId) := by
    intro s hs
    have h1 := hG.items_eq _ (List.mem_map.2 ⟨s, hs, rfl⟩)
    rw [show (s.sellerId.toString, s.data).2.items = s.items from rfl] at h1
    rw [h1]
    apply List.filter_congr
    intro it _
    by_cases heq : it.sellerId = s.sellerId
    · simp [heq]
    · have : it.sellerId.toString ≠ s.sellerId.toString := fun hc =>
        heq (ObjectId.toString_inj hc)
      simp [heq, this]
  refine ⟨items, o, hi, hord, hitems, hnd, hfilter, ?_⟩
  intro it hit
  have hcov := hG.covers it hit
  rw [keys_map_suborders] at hcov
  obtain ⟨s, hs, hkey⟩ := List.mem_map.1 hcov
  have hsid : s.sellerId = it.sellerId := ObjectId.toString_inj hkey
  refine ⟨s, hs, hsid, ?_, ?_⟩
  · rw [hfilter s hs, List.mem_filter]
    exact ⟨hit, by simp [hsid]⟩
  · intro t ht hmem
    rw [hfilter t ht, List.mem_filter] at hmem
    have hts : t.sellerId = s.sellerId := by
      have : it.sellerId = t.sellerId := by simpa using hmem.2
      rw [hsid, this]
    exact List.inj_on_of_nodup_map hnd ht hs hts

/-- Witness for C7: the sample cart of three line items from two sellers. -/
theorem createOrder_items_partitioned_witness :
    ∃ items o, demoBody.items = some items ∧
      (createOrder demoEnv demoStore demoBody).1.orders = demoStore.orders ++ [o] ∧
      o.items = items.map (castItem demoEnv) ∧
      (o.suborders.map (fun s => s.sellerId)).Nodup ∧
      (∀ s ∈ o.suborders, s.items = o.items.filter (fun it => it.sellerId == s.sellerId)) ∧
      (∀ it ∈ o.items, ∃ s ∈ o.suborders, s.sellerId = it.sellerId ∧ it ∈ s.items ∧
        ∀ t ∈ o.suborders, it ∈ t.items → t = s) :=
  createOrder_items_partitioned demoEnv demoStore _ demoBody _ rfl (by decide)

/-- Claim C8: the order stored by a successful `createOrder` has a suborder for
the seller of every line item of the request, and none for any other seller;
the suborders stand in the order in which their sellers first occur among the
line items (a suborder listed earlier has a seller whose first line item comes
earlier, so that no seller has two suborders), and every suborder has status
`pending`; the request has a line item, so the order has a suborder. -/
theorem createOrder_suborders_first_seen_pending (env : Env) (db db' : Store)
    (body : CreateOrderBody) (resp : Response)
    (hrun : createOrder env db body = (db', resp)) (hok : resp.code = 201) :
    ∃ items o, body.items = some items ∧ db'.orders = db.orders ++ [o] ∧
      o.items = items.map (castItem env) ∧
      (o.suborders.map (fun s => s.sellerId.toString)).Pairwise (fun a b =>
        (items.map (fun it => it.sellerId.toString)).indexOf a
          < (items.map (fun it => it.sellerId.toString)).indexOf b) ∧
      (∀ s ∈ o.suborders, s.sellerId.toString ∈ items.map (fun it => it.sellerId.toString)) ∧
      (∀ s ∈ o.suborders, s.status = "pending") ∧
      (∀ it ∈ items, ∃ s ∈ o.suborders, s.sellerId = it.sellerId) ∧
      items ≠ [] ∧ o.suborders ≠ [] := by
  obtain ⟨items, o, hi, hord, hitems, -, hG, hne⟩ :=
    createOrder_grouped env db db' body resp hrun hok
  have hcov : ∀ it ∈ items, ∃ s ∈ o.suborders, s.sellerId = it.sellerId := by
    intro it hit
    have hc := hG.covers (castItem env it) (List.mem_map.2 ⟨it, hit, rfl⟩)
    rw [keys_map_suborders] at hc
    obtain ⟨s, hs, hkey⟩ := List.mem_map.1 hc
    exact ⟨s, hs, ObjectId.toString_inj hkey⟩
  refine ⟨items, o, hi, hord, hitems, ?_, ?_, ?_, hcov, hne, ?_⟩
  · have := hG.ordered
    rwa [keys_map_suborders, map_sellerId_castItem] at this
  · intro s hs
    have := hG.seen _ (List.mem_map.2 ⟨s, hs, rfl⟩)
    rwa [map_sellerId_castItem] at this
  · intro s hs
    exact hG.pending _ (List.mem_map.2 ⟨s, hs, rfl⟩)
  · obtain ⟨it, rest, rfl⟩ := List.exists_cons_of_ne_nil hne
    obtain ⟨s, hs, -⟩ := hcov it (List.mem_cons_self _ _)
    exact List.ne_nil_of_mem hs

/-- Witness for C8: the sample cart has line items of seller A, seller B and
seller A again; the stored order has a `pending` suborder of seller A followed
by a `pending` suborder of seller B. -/
theorem createOrder_suborders_first_seen_pending_witness :
    (∃ items o, demoBody.items = some items ∧
      (createOrder demoEnv demoStore demoBody).1.orders = demoStore.orders ++ [o] ∧
      o.items = items.map (castItem demoEnv) ∧
      (o.suborders.map (fun s => s.sellerId.toString)).Pairwise (fun a b =>
        (items.map (fun it => it.sellerId.toString)).indexOf a
          < (items.map (fun it => it.sellerId.toString)).indexOf b) ∧
      (∀ s ∈ o.suborders, s.sellerId.toString ∈ items.map (fun it => it.sellerId.toString)) ∧
      (∀ s ∈ o.suborders, s.status = "pending") ∧
      (∀ it ∈ items, ∃ s ∈ o.suborders, s.sellerId = it.sellerId) ∧
      items ≠ [] ∧ o.suborders ≠ []) ∧
    (createOrder demoEnv demoStore demoBody).1.orders.map
        (fun o => o.suborders.map (fun s => (s.sellerId, s.status)))
      = [[(sellerA, "delivered"), (sellerB, "shipped")], [(sellerA, "pending")],
          [(sellerA, "pending"), (sellerB, "pending")]] :=
  ⟨createOrder_suborders_first_seen_pending demoEnv demoStore _ demoBody _ rfl (by decide),
    by decide⟩


/-! ## Subtotals and stock -/

theorem sum_subtotal_modifyFirst (k : String) (x : Item) (m : JsMap SuborderData)
    (h : m.has k = true) :
    ((modifyFirst (fun e => e.1 == k) (fun e => (e.1, pushItem x e.2)) m).map
        (fun e => e.2.subtotal)).sum
      = (m.map (fun e => e.2.subtotal)).sum + x.price * (x.quantity : ℚ) := by
  induction m with
  | nil => simp [JsMap.has] at h
  | cons a as ih =>
    by_cases ha : a.1 = k
    · simp only [modifyFirst, ha, beq_self_eq_true, if_true, List.map_cons, List.sum_cons,
        pushItem]
      ring
    · have has : JsMap.has as k = true := by
        simpa [JsMap.has, ha] using h
      simp only [modifyFirst, beq_iff_eq, ha, if_false, List.map_cons, List.sum_cons, ih has]
      ring

theorem sum_subtotal_groupStep (m : JsMap SuborderData) (x : Item) :
    ((groupStep m x).map (fun e => e.2.subtotal)).sum
      = (m.map (fun e => e.2.subtotal)).sum + x.price * (x.quantity : ℚ) := by
  cases hk : m.has x.sellerId.toString
  · rw [groupStep_of_not_has m x hk]
    simp
  · have := sum_subtotal_modifyFirst x.sellerId.toString x m hk
    simpa only [groupStep, hk, Bool.not_true, Bool.false_eq_true, if_false, JsMap.mutate,
      pushItem] using this

/-- The subtotals of the groups built from the line items add up to the sum of
price times quantity over all line items. -/
theorem sum_subtotal_groupBySeller (items : List Item) :
    ((groupBySeller items).map (fun d => d.subtotal)).sum
      = (items.map (fun it => it.price * (it.quantity : ℚ))).sum := by
  have key : ∀ xs : List Item, ((xs.foldl groupStep []).map (fun e => e.2.subtotal)).sum
      = (xs.map (fun it => it.price * (it.quantity : ℚ))).sum := by
    intro xs
    induction xs using List.reverseRecOn with
    | nil => rfl
    | append_singleton xs x ih =>
      rw [List.foldl_append, List.foldl_cons, List.foldl_nil, sum_subtotal_groupStep, ih]
      simp
  simpa [groupBySeller, JsMap.values, List.map_map] using key items

/-- The sum of the suborder subtotals of the order a successful `createOrder`
stores is the sum of price times quantity over the request's line items, while
the stored subtotal is the one the request carried. -/
theorem createOrder_subtotals (env : Env) (db db' : Store) (body : CreateOrderBody)
    (resp : Response) (hrun : createOrder env db body = (db', resp)) (hok : resp.code = 201) :
    ∃ items o, body.items = some items ∧ db'.orders = db.orders ++ [o] ∧
      (o.suborders.map (fun s => s.subtotal)).sum
        = (items.map (fun it => it.price * (it.quantity : ℚ))).sum ∧
      o.subtotal = body.subtotal := by
  obtain ⟨userId, items, shippingInfo, paymentMethod, -, hi, -, -, -, -, -, hord, -⟩ :=
    createOrder_created env db db' body resp hrun hok
  refine ⟨items, _, hi, hord, ?_, rfl⟩
  have hmap : ∀ l : List Suborder,
      l.map (fun s => s.subtotal) = (l.map Suborder.data).map (fun d => d.subtotal) := by
    intro l
    rw [List.map_map]
    rfl
  rw [hmap, data_new_suborders, List.map_map, ← sum_subtotal_groupBySeller]
  rfl

/-- Counterexample to C9: the sample cart sent with a subtotal of 1 is accepted,
and the stored order has suborder subtotals adding up to 14 but a stored
subtotal of 1. -/
theorem createOrder_stored_subtotal_mismatch :
    (createOrder demoEnv demoStore { demoBody with subtotal := 1 }).2.code = 201 ∧
    ∃ o, (createOrder demoEnv demoStore { demoBody with subtotal := 1 }).1.orders
        = demoStore.orders ++ [o] ∧
      (o.suborders.map (fun s => s.subtotal)).sum ≠ o.subtotal := by
  refine ⟨by decide, ?_⟩
  obtain ⟨items, o, hi, hord, hsum, hsub⟩ :=
    createOrder_subtotals demoEnv demoStore _ { demoBody with subtotal := 1 } _ rfl (by decide)
  refine ⟨o, hord, ?_⟩
  have hitems : items
      = [⟨penId, sellerA, 2, 3⟩, ⟨cupId, sellerB, 1, 5⟩, ⟨penId, sellerA, 1, 3⟩] := by
    have : some [(⟨penId, sellerA, 2, 3⟩ : Item), ⟨cupId, sellerB, 1, 5⟩, ⟨penId, sellerA, 1, 3⟩]
        = some items := hi
    exact (Option.some.inj this).symm
  rw [hsum, hsub, hitems]
  norm_num [demoBody]

/-- Claim C9, amended: the order stored by a successful `createOrder` has the
request's subtotal as its subtotal, exactly as sent. The handler does not
compare it with the suborders: the same request sent with any other subtotal
is accepted too and stores the same order, suborders included, with that other
subtotal. So the sum of the suborder subtotals equals the stored subtotal
exactly when the request's subtotal is that sum. -/
theorem createOrder_subtotal_as_sent (env : Env) (db db' : Store)
    (body : CreateOrderBody) (resp : Response)
    (hrun : createOrder env db body = (db', resp)) (hok : resp.code = 201) :
    ∃ o, db'.orders = db.orders ++ [o] ∧ o.subtotal = body.subtotal ∧
      (∀ q : ℚ, (createOrder env db { body with subtotal := q }).2.code = 201 ∧
        (createOrder env db { body with subtotal := q }).1.orders
          = db.orders ++ [{ o with subtotal := q }]) ∧
      ((o.suborders.map (fun s => s.subtotal)).sum = o.subtotal ↔
        body.subtotal = (o.suborders.map (fun s => s.subtotal)).sum) := by
  obtain ⟨userId, items, shippingInfo, paymentMethod, hu, hi, hs, hp, -, hval, hdec, hord, -,
    -, -, hfields, hpay, buyer, user, hcast, huser⟩ :=
    createOrder_created env db db' body resp hrun hok
  refine ⟨_, hord, rfl, ?_, ?_⟩
  · intro q
    rw [createOrder_run env db { body with subtotal := q } userId items shippingInfo
      paymentMethod buyer user db'.products hu hi hs hp hfields hpay hval hcast huser hdec]
    exact ⟨rfl, rfl⟩
  · constructor
    · intro h
      rw [h]
      rfl
    · intro h
      rw [← h]
      rfl

/-- Witness for C9 as amended: the sample cart, whose request subtotal is 14. -/
theorem createOrder_subtotal_as_sent_witness :
    ∃ o, (createOrder demoEnv demoStore demoBody).1.orders = demoStore.orders ++ [o] ∧
      o.subtotal = demoBody.subtotal ∧
      (∀ q : ℚ, (createOrder demoEnv demoStore { demoBody with subtotal := q }).2.code = 201 ∧
        (createOrder demoEnv demoStore { demoBody with subtotal := q }).1.orders
          = demoStore.orders ++ [{ o with subtotal := q }]) ∧
      ((o.suborders.map (fun s => s.subtotal)).sum = o.subtotal ↔
        demoBody.subtotal = (o.suborders.map (fun s => s.subtotal)).sum) :=
  createOrder_subtotal_as_sent demoEnv demoStore _ demoBody _ rfl (by decide)

/-- Claim C10 evaluated on the code: in the sample catalog every stock is
non-negative and seller A holds 5 pens; a cart with two line items of 3 pens
each from seller A passes the validation loop, since each line asks for at most
the recorded stock, the order is created (201), and the stock loop leaves
seller A's pen stock at -1. -/
theorem createOrder_duplicate_lines_stock_negative :
    (∀ p ∈ demoStore.products, ∀ s ∈ p.sellers, 0 ≤ s.stock) ∧
    oversellBody.items = some [⟨penId, sellerA, 3, 3⟩, ⟨penId, sellerA, 3, 3⟩] ∧
    validateItems demoEnv demoStore.products
      [⟨penId, sellerA, 3, 3⟩, ⟨penId, sellerA, 3, 3⟩] = none ∧
    (createOrder demoEnv demoStore oversellBody).2.code = 201 ∧
    (createOrder demoEnv demoStore oversellBody).1.products.map
        (fun p => (p.name, p.sellers.map (fun s => s.stock)))
      = [("pen", [-1]), ("cup", [4])] := by
  refine ⟨by decide, rfl, by decide, by decide, by decide⟩


/-! ## The stock updates -/

theorem createOrderInterleaved_id (env : Env) (db : Store) (body : CreateOrderBody) :
    createOrderInterleaved env db body id = createOrder env db body := rfl

theorem find?_modifyFirst {α : Type} (p : α → Bool) (f : α → α) (hpf : ∀ x, p (f x) = p x)
    (xs : List α) : (modifyFirst p f xs).find? p = (xs.find? p).map f := by
  induction xs with
  | nil => rfl
  | cons a as ih =>
    by_cases ha : p a = true
    · simp [modifyFirst, ha, hpf]
    · have ha' : p a = false := by simpa using ha
      simp [modifyFirst, ha', ih]

theorem any_modifyFirst {α : Type} (p q : α → Bool) (f : α → α) (hqf : ∀ x, q (f x) = q x)
    (xs : List α) : (modifyFirst p f xs).any q = xs.any q := by
  induction xs with
  | nil => rfl
  | cons a as ih =>
    by_cases ha : p a = true
    · simp [modifyFirst, ha, hqf]
    · have ha' : p a = false := by simpa using ha
      simp [modifyFirst, ha', ih]

theorem matchesPair_incStock (productId sellerId other : ObjectId) (d : Int) (p : Product) :
    matchesPair productId sellerId { p with sellers := incStock p.sellers other d }
      = matchesPair productId sellerId p := by
  simp only [matchesPair, incStock]
  rw [any_modifyFirst (fun s : SellerEntry => s.sellerId == other)
    (fun s : SellerEntry => s.sellerId == sellerId)
    (fun s : SellerEntry => { s with stock := s.stock + d }) (fun _ => rfl)]

/-- The stock update as a total function on the catalog: a catalog without
the product/seller pair is left as it is. -/
theorem findOneAndUpdate_eq (products : List Product) (productId sellerId : ObjectId)
    (d : Int) :
    Product.findOneAndUpdate products productId sellerId d =
      if products.any (matchesPair productId sellerId) then
        some (modifyFirst (matchesPair productId sellerId)
          (fun p => { p with sellers := incStock p.sellers sellerId d }) products)
      else none := by
  induction products with
  | nil => rfl
  | cons p rest ih =>
    by_cases hp : matchesPair productId sellerId p = true
    · have hp' := hp
      simp only [matchesPair] at hp'
      simp [Product.findOneAndUpdate, modifyFirst, hp, hp']
    · have hp' : matchesPair productId sellerId p = false := by simpa using hp
      have hp'' := hp'
      simp only [matchesPair] at hp''
      simp only [Product.findOneAndUpdate, hp'', Bool.false_eq_true, if_false, ih,
        List.any_cons, hp', Bool.false_or, modifyFirst]
      split <;> rfl

theorem stockOf_eq_none_iff (products : List Product) (productId sellerId : ObjectId) :
    stockOf products productId sellerId = none ↔
      products.any (matchesPair productId sellerId) = false := by
  unfold stockOf
  cases hf : products.find? (matchesPair productId sellerId) with
  | none =>
    simp only [Option.none_bind, true_iff]
    rw [List.find?_eq_none] at hf
    simpa using hf
  | some p =>
    have hp := List.find?_some hf
    have hmem := List.mem_of_find?_eq_some hf
    simp only [Option.some_bind, Option.map_eq_none']
    constructor
    · intro hnone
      rw [List.find?_eq_none] at hnone
      simp only [matchesPair, Bool.and_eq_true, List.any_eq_true] at hp
      obtain ⟨-, s, hs, hsid⟩ := hp
      exact absurd hsid (hnone s hs)
    · intro hany
      rw [List.any_eq_false] at hany
      exact absurd hp (hany p hmem)

/-- A stock update that finds its product/seller pair adds `d` to the stock it
addresses. -/
theorem stockOf_findOneAndUpdate (products products1 : List Product)
    (productId sellerId : ObjectId) (d : Int)
    (h : Product.findOneAndUpdate products productId sellerId d = some products1) :
    stockOf products1 productId sellerId
      = (stockOf products productId sellerId).map (fun st => st + d) := by
  rw [findOneAndUpdate_eq] at h
  split at h
  · cases h
    unfold stockOf
    rw [find?_modifyFirst _ _ (fun p => matchesPair_incStock productId sellerId sellerId d p)]
    cases products.find? (matchesPair productId sellerId) with
    | none => rfl
    | some p =>
      simp only [Option.map_some', Option.some_bind, incStock]
      rw [find?_modifyFirst (fun s : SellerEntry => s.sellerId == sellerId)
        (fun s : SellerEntry => { s with stock := s.stock + d }) (fun _ => rfl)]
      cases p.sellers.find? (fun s => s.sellerId == sellerId) <;> rfl
  · cases h

/-- Claim C11 evaluated on the code: the stock update for a line item of 3
pens on a catalog in which seller A holds 2 finds the pair, reports no
failure and leaves the stock at -1. `createOrder` reaches that step with the
cart of two line items of 3 pens each from seller A, who holds 5: the first
update leaves 2 pens, the second, asking for 3, leaves -1, and the stock loop
reports no failed line item. -/
theorem decrement_step_ignores_stock :
    stockOf lowCatalog penId sellerA = some 2 ∧
    (∃ products1,
      Product.findOneAndUpdate lowCatalog penId sellerA (-3) = some products1 ∧
      decrementStock demoEnv lowCatalog [⟨penId, sellerA, 3, 3⟩] = (products1, none) ∧
      stockOf products1 penId sellerA = some (-1)) ∧
    oversellBody.items = some [⟨penId, sellerA, 3, 3⟩, ⟨penId, sellerA, 3, 3⟩] ∧
    stockOf demoStore.products penId sellerA = some 5 ∧
    ∃ products1 products2,
      Product.findOneAndUpdate demoStore.products penId sellerA (-3) = some products1 ∧
      stockOf products1 penId sellerA = some 2 ∧
      Product.findOneAndUpdate products1 penId sellerA (-3) = some products2 ∧
      stockOf products2 penId sellerA = some (-1) ∧
      decrementStock demoEnv demoStore.products
        [⟨penId, sellerA, 3, 3⟩, ⟨penId, sellerA, 3, 3⟩] = (products2, none) ∧
      (createOrder demoEnv demoStore oversellBody).1.products = products2 :=
  ⟨by decide, ⟨[⟨penId, "pen", [⟨sellerA, -1, 3⟩]⟩], by rfl, by rfl, by decide⟩, rfl,
    by decide,
    [⟨penId, "pen", [⟨sellerA, 2, 3⟩]⟩, ⟨cupId, "cup", [⟨sellerB, 4, 5⟩]⟩],
    [⟨penId, "pen", [⟨sellerA, -1, 3⟩]⟩, ⟨cupId, "cup", [⟨sellerB, 4, 5⟩]⟩],
    by rfl, by decide, by rfl, by decide, by rfl, by rfl⟩


/-! ## The checks of createOrder -/

theorem validateItems_cons_of_available (env : Env) (products : List Product) (item : Item)
    (rest : List Item) (h : Available env products item) :
    validateItems env products (item :: rest) = validateItems env products rest := by
  obtain ⟨productId, product, sellerData, hcast, hprod, hsel, hge⟩ := h
  have hlt : ¬ sellerData.stock < item.quantity := by omega
  simp only [validateItems, hcast, hprod, hsel, hlt, if_false]

theorem validateItems_append_of_available (env : Env) (products : List Product)
    (pre rest : List Item) (h : ∀ it ∈ pre, Available env products it) :
    validateItems env products (pre ++ rest) = validateItems env products rest := by
  induction pre with
  | nil => rfl
  | cons a as ih =>
    rw [List.cons_append,
      validateItems_cons_of_available _ _ _ _ (h a (List.mem_cons_self _ _))]
    exact ih (fun it hit => h it (List.mem_cons_of_mem _ hit))

/-- The validation loop lets a cart through only if every line item is
available in the catalog. -/
theorem available_of_validateItems_none (env : Env) (products : List Product)
    (items : List Item) (h : validateItems env products items = none) :
    ∀ it ∈ items, Available env products it := by
  induction items with
  | nil => intro it hit; cases hit
  | cons a as ih =>
    unfold validateItems at h
    split at h
    · cases h
    · rename_i productId hcast
      split at h
      · cases h
      · rename_i product hprod
        split at h
        · cases h
        · rename_i sellerData hsel
          split at h
          · cases h
          · rename_i hlt
            intro it hit
            rcases List.mem_cons.1 hit with rfl | hit
            · exact ⟨productId, product, sellerData, hcast, hprod, hsel, by omega⟩
            · exact ih h it hit

/-- The product identifier of a line item that is available is cast to the
identifier of a product of the catalog, which is what the stock update's
filter and the stored order hold for it. -/
theorem castItem_of_available (env : Env) (products : List Product) (item : Item)
    (h : Available env products item) :
    env.castId item.productId.toString = some (castItem env item).productId ∧
    ∃ product, Product.findById products (castItem env item).productId = some product := by
  obtain ⟨productId, product, -, hcast, hprod, -, -⟩ := h
  have hc : (castItem env item).productId = productId := cast_of_castId env _ _ hcast
  rw [hc]
  exact ⟨hcast, product, hprod⟩

/-- A request that passes the field check and the payment check and has a line
item rejected by the validation loop is answered with that rejection, the store
unchanged. -/
theorem createOrder_of_rejection (env : Env) (db : Store) (body : CreateOrderBody)
    (userId : ObjectId) (items : List Item) (shippingInfo : ShippingInfo)
    (paymentMethod : String) (rejection : Response)
    (hu : body.userId = some userId) (hi : body.items = some items)
    (hs : body.shippingInfo = some shippingInfo) (hp : body.paymentMethod = some paymentMethod)
    (hfields : (userId.toString == "" || items.length == 0 || paymentMethod == "") = false)
    (hpay : (paymentMethod == "stripe" && paymentResultRejected body.paymentResult) = false)
    (hval : validateItems env db.products items = some rejection) :
    createOrder env db body = (db, rejection) := by
  simp only [createOrder, hu, hi, hs, hp, hfields, hpay, hval, Bool.false_eq_true, if_false]

/-- Counterexample to C12: the catalog has no product with the identifier
"abc", and a cart whose only line item names that product is answered 500
'Failed to create order', not 404: `Product.findById` throws on a value that
is no identifier, and the handler's `catch` answers. -/
theorem createOrder_malformed_product_id :
    (∀ p ∈ demoStore.products, p._id.toString ≠ "abc") ∧
    malformedBody.items = some [⟨⟨"abc"⟩, sellerA, 1, 3⟩] ∧
    createOrder demoEnv demoStore malformedBody
      = (demoStore, ⟨500, "Failed to create order", none, none⟩) := by
  refine ⟨by decide, rfl, by rfl⟩

/-- Claim C12, amended: `createOrder` validates the line items in sequence.
For a request that passes the field and payment checks, at the first line item
that is not available the store is left unchanged and the answer is 500
'Failed to create order' when the item's productId is no identifier, 404 when
it is one and no product has it, 400 (seller not associated) when the product
has no entry whose sellerId has the item's sellerId as its string form, and
400 (insufficient stock) when the quantity exceeds that entry's stock.
Conversely a request answered 201 had every line item available at validation
time. -/
theorem createOrder_validates_in_sequence (env : Env) (db : Store) (body : CreateOrderBody)
    (userId : ObjectId) (items : List Item) (shippingInfo : ShippingInfo)
    (paymentMethod : String)
    (hu : body.userId = some userId) (hi : body.items = some items)
    (hs : body.shippingInfo = some shippingInfo) (hp : body.paymentMethod = some paymentMethod)
    (hfields : (userId.toString == "" || items.length == 0 || paymentMethod == "") = false)
    (hpay : (paymentMethod == "stripe" && paymentResultRejected body.paymentResult) = false) :
    (∀ pre item post, items = pre ++ item :: post →
      (∀ it ∈ pre, Available env db.products it) →
      (env.castId item.productId.toString = none →
        createOrder env db body = (db, ⟨500, "Failed to create order", none, none⟩)) ∧
      (∀ productId, env.castId item.productId.toString = some productId →
        Product.findById db.products productId = none →
        createOrder env db body = (db,
          ⟨404, "Product with ID " ++ item.productId.toString ++ " not found", none, none⟩)) ∧
      (∀ productId product, env.castId item.productId.toString = some productId →
        Product.findById db.products productId = some product →
        product.sellers.find?
          (fun seller => seller.sellerId.toString == item.sellerId.toString) = none →
        createOrder env db body = (db,
          ⟨400, "Seller with ID " ++ item.sellerId.toString ++
            " not associated with product " ++ product.name, none, none⟩)) ∧
      (∀ productId product sellerData,
        env.castId item.productId.toString = some productId →
        Product.findById db.products productId = some product →
        product.sellers.find?
          (fun seller => seller.sellerId.toString == item.sellerId.toString)
            = some sellerData →
        sellerData.stock < item.quantity →
        createOrder env db body = (db,
          ⟨400, "Insufficient stock for product: " ++ product.name, none, none⟩))) ∧
    ((createOrder env db body).2.code = 201 → ∀ it ∈ items, Available env db.products it) := by
  constructor
  · intro pre item post hsplit hpre
    have hskip := validateItems_append_of_available env db.products pre (item :: post) hpre
    rw [← hsplit] at hskip
    refine ⟨?_, ?_, ?_, ?_⟩
    · intro hcast
      apply createOrder_of_rejection env db body userId items shippingInfo paymentMethod _
        hu hi hs hp hfields hpay
      rw [hskip]
      simp only [validateItems, hcast]
    · intro productId hcast hprod
      apply createOrder_of_rejection env db body userId items shippingInfo paymentMethod _
        hu hi hs hp hfields hpay
      rw [hskip]
      simp only [validateItems, hcast, hprod]
    · intro productId product hcast hprod hsel
      apply createOrder_of_rejection env db body userId items shippingInfo paymentMethod _
        hu hi hs hp hfields hpay
      rw [hskip]
      simp only [validateItems, hcast, hprod, hsel]
    · intro productId product sellerData hcast hprod hsel hlt
      apply createOrder_of_rejection env db body userId items shippingInfo paymentMethod _
        hu hi hs hp hfields hpay
      rw [hskip]
      simp only [validateItems, hcast, hprod, hsel, hlt, if_true]
  · intro hok
    obtain ⟨userId', items', -, -, -, hi', -, -, -, hval, -⟩ :=
      createOrder_created env db _ body _ rfl hok
    rw [hi] at hi'
    cases hi'
    exact available_of_validateItems_none env db.products items hval

/-- Witness for C12 as amended: in a cart whose first line item is available
and whose second names a seller with no entry for the product, the second line
item is rejected with 400; and the sample cart, answered 201, had every line
item available. -/
theorem createOrder_validates_in_sequence_witness :
    createOrder demoEnv demoStore mismatchBody = (demoStore,
      ⟨400, "Seller with ID " ++ sellerA.toString ++
        " not associated with product " ++ "cup", none, none⟩) ∧
    ∀ it ∈ [(⟨penId, sellerA, 2, 3⟩ : Item), ⟨cupId, sellerB, 1, 5⟩, ⟨penId, sellerA, 1, 3⟩],
      Available demoEnv demoStore.products it :=
  ⟨((createOrder_validates_in_sequence demoEnv demoStore mismatchBody buyerId
      [⟨penId, sellerA, 2, 3⟩, ⟨cupId, sellerA, 1, 5⟩] ⟨"1 Main Street"⟩ "cod"
      rfl rfl rfl rfl (by decide) (by decide)).1
      [⟨penId, sellerA, 2, 3⟩] ⟨cupId, sellerA, 1, 5⟩ [] rfl
      (fun it hit => by
        rw [List.mem_singleton.1 hit]
        exact ⟨penId, ⟨penId, "pen", [⟨sellerA, 5, 3⟩]⟩, ⟨sellerA, 5, 3⟩, by decide, by rfl,
          by rfl, by decide⟩)).2.2.1
      cupId ⟨cupId, "cup", [⟨sellerB, 4, 5⟩]⟩ (by decide) (by rfl) (by rfl),
    (createOrder_validates_in_sequence demoEnv demoStore demoBody buyerId
      [⟨penId, sellerA, 2, 3⟩, ⟨cupId, sellerB, 1, 5⟩, ⟨penId, sellerA, 1, 3⟩]
      ⟨"1 Main Street"⟩ "cod" rfl rfl rfl rfl (by decide) (by decide)).2 (by decide)⟩

theorem createOrder_of_missing (env : Env) (db : Store) (body : CreateOrderBody)
    (h : requiredFieldMissing body) :
    createOrder env db body = (db, ⟨400, "Missing required fields", none, none⟩) := by
  unfold createOrder
  split
  · rename_i userId items shippingInfo paymentMethod hu hi hs hp
    have hcond :
        (userId.toString == "" || items.length == 0 || paymentMethod == "") = true := by
      rcases h with (h | h) | (h | h) | h | (h | h)
      · rw [hu] at h; cases h
      · rw [hu] at h; cases h; rfl
      · rw [hi] at h; cases h
      · rw [hi] at h; cases h; simp
      · rw [hs] at h; cases h
      · rw [hp] at h; cases h
      · rw [hp] at h; cases h; simp
    simp only [hcond, if_true]
  · rfl

theorem fields_of_not_missing (body : CreateOrderBody) (h : ¬ requiredFieldMissing body) :
    ∃ userId items shippingInfo paymentMethod,
      body.userId = some userId ∧ body.items = some items ∧
      body.shippingInfo = some shippingInfo ∧ body.paymentMethod = some paymentMethod ∧
      (userId.toString == "" || items.length == 0 || paymentMethod == "") = false := by
  simp only [requiredFieldMissing, not_or] at h
  obtain ⟨⟨hu1, hu2⟩, ⟨hi1, hi2⟩, hs, hp1, hp2⟩ := h
  cases hu : body.userId with
  | none => exact absurd hu hu1
  | some userId =>
    cases hi : body.items with
    | none => exact absurd hi hi1
    | some items =>
      cases hs' : body.shippingInfo with
      | none => exact absurd hs' hs
      | some shippingInfo =>
        cases hp : body.paymentMethod with
        | none => exact absurd hp hp1
        | some paymentMethod =>
          refine ⟨userId, items, shippingInfo, paymentMethod, rfl, rfl, rfl, rfl, ?_⟩
          have h1 : userId.toString ≠ "" := by
            intro hc
            apply hu2
            rw [hu]
            cases userId
            simp only [ObjectId.toString] at hc
            rw [hc]
          have h2 : items ≠ [] := by
            intro hc
            apply hi2
            rw [hi, hc]
          have h3 : paymentMethod ≠ "" := by
            intro hc
            apply hp2
            rw [hp, hc]
          simp [h1, h2, h3]

theorem validateItems_message (env : Env) (products : List Product) (items : List Item)
    (r : Response) (h : validateItems env products items = some r) :
    r.message ≠ "Missing required fields" := by
  induction items with
  | nil => simp [validateItems] at h
  | cons item rest ih =>
    unfold validateItems at h
    split at h
    · cases h
      simp
    · split at h
      · cases h
        intro hc
        have hd := congrArg String.data hc
        simp only [String.data_append] at hd
        simp at hd
      · split at h
        · cases h
          intro hc
          have hd := congrArg String.data hc
          simp only [String.data_append] at hd
          simp at hd
        · split at h
          · cases h
            intro hc
            have hd := congrArg String.data hc
            simp only [String.data_append] at hd
            simp at hd
          · exact ih h

/-- A request with every required field is never answered with the
missing-fields rejection. -/
theorem createOrder_of_not_missing (env : Env) (db : Store) (body : CreateOrderBody)
    (h : ¬ requiredFieldMissing body) :
    ¬ ((createOrder env db body).2.code = 400 ∧
      (createOrder env db body).2.message = "Missing required fields") := by
  obtain ⟨userId, items, shippingInfo, paymentMethod, hu, hi, hs, hp, hfields⟩ :=
    fields_of_not_missing body h
  simp only [createOrder, hu, hi, hs, hp, hfields, Bool.false_eq_true, if_false]
  split
  · rintro ⟨-, hm⟩
    simp at hm
  · split
    · rename_i rejection hval
      rintro ⟨-, hm⟩
      exact validateItems_message _ _ _ _ hval hm
    · split
      · rintro ⟨hc, -⟩
        simp at hc
      · split
        · rintro ⟨hc, -⟩
          simp at hc
        · split
          · rintro ⟨hc, -⟩
            simp at hc
          · rintro ⟨hc, -⟩
            simp at hc

/-- Claim C13: a `createOrder` request with paymentMethod `stripe` whose
paymentResult is absent or has a status other than "succeeded" is rejected
with 400 and leaves the whole store (orders, stocks, carts) as it was; when the
request has its required fields the rejection is the payment error. -/
theorem createOrder_stripe_unconfirmed_rejected (env : Env) (db : Store)
    (body : CreateOrderBody) (hp : body.paymentMethod = some "stripe")
    (hr : body.paymentResult = none ∨
      ∃ r, body.paymentResult = some r ∧ r.status ≠ some "succeeded") :
    (createOrder env db body).1 = db ∧ (createOrder env db body).2.code = 400 ∧
    (¬ requiredFieldMissing body → (createOrder env db body).2
        = ⟨400, "Valid Stripe payment result required", none, none⟩) := by
  have hrej : paymentResultRejected body.paymentResult = true := by
    rcases hr with hr | ⟨r, hr, hst⟩
    · rw [hr]; rfl
    · rw [hr]
      simp [paymentResultRejected, hst]
  have hpresent : ¬ requiredFieldMissing body →
      createOrder env db body
        = (db, ⟨400, "Valid Stripe payment result required", none, none⟩) := by
    intro hnm
    obtain ⟨userId, items, shippingInfo, paymentMethod, hu, hi, hs, hp', hfields⟩ :=
      fields_of_not_missing body hnm
    rw [hp] at hp'
    cases hp'
    simp only [createOrder, hu, hi, hs, hp, hfields, hrej, Bool.false_eq_true, if_false,
      beq_self_eq_true, Bool.and_self, if_true]
  by_cases hm : requiredFieldMissing body
  · rw [createOrder_of_missing env db body hm]
    exact ⟨rfl, rfl, fun hnm => absurd hm hnm⟩
  · rw [hpresent hm]
    exact ⟨rfl, rfl, fun _ => rfl⟩

/-- Witness for C13: the sample cart paid by `stripe` with a paymentResult of
status "failed". -/
theorem createOrder_stripe_unconfirmed_rejected_witness :
    (createOrder demoEnv demoStore failedStripeBody).1 = demoStore ∧
    (createOrder demoEnv demoStore failedStripeBody).2.code = 400 ∧
    (¬ requiredFieldMissing failedStripeBody →
      (createOrder demoEnv demoStore failedStripeBody).2
        = ⟨400, "Valid Stripe payment result required", none, none⟩) :=
  createOrder_stripe_unconfirmed_rejected demoEnv demoStore failedStripeBody rfl
    (Or.inr ⟨⟨some "pi_1", some "failed"⟩, rfl, by decide⟩)

/-- Claim C14: `createOrder` answers 400 'Missing required fields' if and only
if userId, items, shippingInfo or paymentMethod is missing or items is empty;
and when one is, that is the answer whatever the rest of the request and the
store are, with the store unchanged. -/
theorem createOrder_missing_fields_iff (env : Env) (db : Store) (body : CreateOrderBody) :
    (((createOrder env db body).2.code = 400 ∧
      (createOrder env db body).2.message = "Missing required fields")
        ↔ requiredFieldMissing body) ∧
    (requiredFieldMissing body →
      createOrder env db body = (db, ⟨400, "Missing required fields", none, none⟩)) := by
  refine ⟨⟨?_, ?_⟩, createOrder_of_missing env db body⟩
  · intro hresp
    by_contra hnm
    exact createOrder_of_not_missing env db body hnm hresp
  · intro hm
    rw [createOrder_of_missing env db body hm]
    exact ⟨rfl, rfl⟩

/-- Witness for C14: a `stripe` request without items and without a
paymentResult, for a catalog and account that do not matter, gets the
missing-fields answer. -/
theorem createOrder_missing_fields_iff_witness :
    createOrder demoEnv demoStore { failedStripeBody with items := some [], paymentResult := none }
      = (demoStore, ⟨400, "Missing required fields", none, none⟩) :=
  (createOrder_missing_fields_iff demoEnv demoStore
    { failedStripeBody with items := some [], paymentResult := none }).2
    (Or.inr (Or.inl (Or.inr rfl)))


/-! ## Roll-back of a failed stock loop -/

/-- A stock loop that reports a failed line item stopped at a catalog without
that item's product/seller pair. -/
theorem decrementStock_failed (env : Env) (products products1 : List Product)
    (items : List Item) (item : Item)
    (h : decrementStock env products items = (products1, some item)) :
    item ∈ items ∧ stockOf products1 (castItem env item).productId item.sellerId = none := by
  induction items generalizing products with
  | nil => simp [decrementStock] at h
  | cons x xs ih =>
    unfold decrementStock at h
    split at h
    · rename_i hupd
      simp only [Prod.mk.injEq, Option.some.injEq] at h
      obtain ⟨rfl, rfl⟩ := h
      refine ⟨List.mem_cons_self _ _, ?_⟩
      rw [findOneAndUpdate_eq] at hupd
      split at hupd
      · cases hupd
      · rename_i hany
        exact (stockOf_eq_none_iff _ _ _).2 (by simpa using hany)
    · obtain ⟨hmem, hnone⟩ := ih _ h
      exact ⟨List.mem_cons_of_mem _ hmem, hnone⟩

theorem deleteOne_append_fresh (orders : List Order) (order : Order)
    (hfresh : ∀ o ∈ orders, o._id ≠ order._id) :
    Order.deleteOne (orders ++ [order]) order._id = orders := by
  unfold Order.deleteOne
  rw [List.eraseP_append_right]
  · simp [List.eraseP]
  · intro o ho
    simpa using hfresh o ho

theorem findById_eq_none_of_fresh (orders : List Order) (id : ObjectId)
    (hfresh : ∀ o ∈ orders, o._id ≠ id) : Order.findById orders id.toString = none := by
  unfold Order.findById
  rw [List.find?_eq_none]
  intro o ho hc
  have : o._id.toString = id.toString := by simpa using hc
  exact hfresh o ho (ObjectId.toString_inj this)

/-- Claim C15: when the request has passed its checks and, on the store as
other requests have left it, the stock loop fails at a line item, the handler
answers 500 naming that item's product, the order it had just saved is deleted
again, so that the order collection is as it was before the save and holds no
order with the new identifier, and the failing item's product/seller pair does
not exist in the catalog. -/
theorem createOrderInterleaved_rolls_back (env : Env) (db : Store) (body : CreateOrderBody)
    (concurrent : Store → Store) (userId : ObjectId) (items : List Item)
    (shippingInfo : ShippingInfo) (paymentMethod : String) (buyer : ObjectId) (user : User)
    (products1 : List Product) (item : Item)
    (hu : body.userId = some userId) (hi : body.items = some items)
    (hs : body.shippingInfo = some shippingInfo) (hp : body.paymentMethod = some paymentMethod)
    (hfields : (userId.toString == "" || items.length == 0 || paymentMethod == "") = false)
    (hpay : (paymentMethod == "stripe" && paymentResultRejected body.paymentResult) = false)
    (hval : validateItems env db.products items = none)
    (hcast : env.castId userId.toString = some buyer)
    (huser : User.findById db.users buyer = some user)
    (hfresh : ∀ o ∈ (concurrent db).orders, o._id ≠ env.newId 0)
    (hdec : decrementStock env (concurrent db).products items = (products1, some item)) :
    createOrderInterleaved env db body concurrent =
      ({ concurrent db with products := products1 },
        ⟨500, "Failed to update stock for product ID " ++ item.productId.toString,
          none, none⟩) ∧
    (createOrderInterleaved env db body concurrent).1.orders = (concurrent db).orders ∧
    Order.findById (createOrderInterleaved env db body concurrent).1.orders
      (env.newId 0).toString = none ∧
    item ∈ items ∧ stockOf products1 (castItem env item).productId item.sellerId = none := by
  have hrun : createOrderInterleaved env db body concurrent =
      ({ concurrent db with products := products1 },
        ⟨500, "Failed to update stock for product ID " ++ item.productId.toString,
          none, none⟩) := by
    simp only [createOrderInterleaved, hu, hi, hs, hp, hfields, hpay, hval, hcast, huser, hdec,
      Bool.false_eq_true, if_false]
    rw [deleteOne_append_fresh _ _ (by simpa [Order.new] using hfresh)]
  obtain ⟨hmem, hnone⟩ := decrementStock_failed _ _ _ _ _ hdec
  refine ⟨hrun, ?_, ?_, hmem, hnone⟩
  · rw [hrun]
  · rw [hrun]
    exact findById_eq_none_of_fresh _ _ hfresh

/-- Witness for C15: the sample cart was validated, then another request
removed the pen from the catalog before the stock loop ran. -/
theorem createOrderInterleaved_rolls_back_witness :
    createOrderInterleaved demoEnv demoStore demoBody removePen =
      ({ removePen demoStore with products := [⟨cupId, "cup", [⟨sellerB, 4, 5⟩]⟩] },
        ⟨500, "Failed to update stock for product ID " ++ penId.toString, none, none⟩) ∧
    (createOrderInterleaved demoEnv demoStore demoBody removePen).1.orders
      = (removePen demoStore).orders ∧
    Order.findById (createOrderInterleaved demoEnv demoStore demoBody removePen).1.orders
      (demoEnv.newId 0).toString = none ∧
    (⟨penId, sellerA, 2, 3⟩ : Item) ∈
      [(⟨penId, sellerA, 2, 3⟩ : Item), ⟨cupId, sellerB, 1, 5⟩, ⟨penId, sellerA, 1, 3⟩] ∧
    stockOf [⟨cupId, "cup", [⟨sellerB, 4, 5⟩]⟩]
      (castItem demoEnv ⟨penId, sellerA, 2, 3⟩).productId sellerA = none :=
  createOrderInterleaved_rolls_back demoEnv demoStore demoBody removePen buyerId
    [⟨penId, sellerA, 2, 3⟩, ⟨cupId, sellerB, 1, 5⟩, ⟨penId, sellerA, 1, 3⟩]
    ⟨"1 Main Street"⟩ "cod" buyerId ⟨buyerId, "Ada", "ada@example.org"⟩
    [⟨cupId, "cup", [⟨sellerB, 4, 5⟩]⟩] ⟨penId, sellerA, 2, 3⟩
    rfl rfl rfl rfl (by decide) (by decide) (by decide) (by decide) (by rfl) (by decide)
    (by rfl)


/-! ## The buyer's cart -/

/-- After a successful `createOrder` for a buyer who has a cart, the items
left in the cart are exactly the cart items for which no line item of the
request has, as sent, the same productId and the same sellerId; the cart record
is deleted when none is left and otherwise stays, holding those items. -/
theorem createOrder_cart_filter (env : Env) (db db' : Store) (body : CreateOrderBody)
    (resp : Response) (userId : ObjectId) (cart : Cart)
    (hrun : createOrder env db body = (db', resp)) (hok : resp.code = 201)
    (hu : body.userId = some userId)
    (hcart : db.carts.find? (fun c => c.userId == env.cast userId) = some cart) :
    ∃ items kept, body.items = some items ∧
      kept = cart.items.filter (fun ci =>
        !items.any (fun it => it.productId == ci.productId && it.sellerId == ci.sellerId)) ∧
      (∀ ci, ci ∈ kept ↔ ci ∈ cart.items ∧
        ∀ it ∈ items, ¬ (it.productId = ci.productId ∧ it.sellerId = ci.sellerId)) ∧
      (kept = [] → db'.carts = db.carts.eraseP (fun c => c.userId == env.cast userId)) ∧
      (kept ≠ [] →
        db'.carts.find? (fun c => c.userId == env.cast userId)
          = some { cart with items := kept }) := by
  obtain ⟨userId', items, -, -, hu', hi, -, -, -, -, -, -, hcarts, -⟩ :=
    createOrder_created env db db' body resp hrun hok
  rw [hu] at hu'
  cases hu'
  have hkept : keptCartItems cart items = cart.items.filter (fun ci =>
      !items.any (fun it => it.productId == ci.productId && it.sellerId == ci.sellerId)) := by
    simp only [keptCartItems, toString_beq]
  refine ⟨items, _, hi, rfl, ?_, ?_, ?_⟩
  · intro ci
    simp only [List.mem_filter, Bool.not_eq_true', List.any_eq_false, Bool.and_eq_true,
      beq_iff_eq]
  · intro hnil
    rw [hcarts]
    simp only [clearCart, hcart, hkept, hnil, List.length_nil, beq_self_eq_true, if_true]
  · intro hne
    rw [hcarts]
    have hlen : ((cart.items.filter (fun ci => !items.any (fun it =>
        it.productId == ci.productId && it.sellerId == ci.sellerId))).length == 0) = false := by
      simpa using hne
    simp only [clearCart, hcart, hkept, hlen, Bool.false_eq_true, if_false]
    have hfound := find?_modifyFirst (fun c : Cart => c.userId == env.cast userId)
      (fun c : Cart => { c with items := cart.items.filter (fun ci => !items.any (fun it =>
        it.productId == ci.productId && it.sellerId == ci.sellerId)) })
      (fun _ => rfl) db.carts
    rw [hfound, hcart]
    have hid : cart.userId = env.cast userId := by
      have := List.find?_some hcart
      simpa using this
    simp [hid]

/-- Claim C16 evaluated on the code: the buyer's cart holds 2 pens of seller A
and a cup of seller A. A cart of 2 pens of seller A, with the pen's identifier
spelled in upper case, is ordered: the answer is 201, the stored order's line
item is the pen of seller A, seller A's stock of pens goes from 5 to 3, and the
buyer's cart is as it was, still holding the pen that was ordered. -/
theorem createOrder_keeps_ordered_item_in_cart :
    cartStore.carts = [⟨buyerId, [⟨penId, sellerA, 2⟩, ⟨cupId, sellerA, 1⟩]⟩] ∧
    upperCaseBody.items = some [⟨penIdUpper, sellerA, 2, 3⟩] ∧
    (createOrder demoEnv cartStore upperCaseBody).2.code = 201 ∧
    (createOrder demoEnv cartStore upperCaseBody).1.orders.map
        (fun o => o.items.map (fun it => (it.productId, it.sellerId, it.quantity)))
      = [[(penId, sellerA, 2), (cupId, sellerB, 1)], [(penId, sellerA, 1)],
          [(penId, sellerA, 2)]] ∧
    stockOf cartStore.products penId sellerA = some 5 ∧
    stockOf (createOrder demoEnv cartStore upperCaseBody).1.products penId sellerA = some 3 ∧
    (createOrder demoEnv cartStore upperCaseBody).1.carts
      = [⟨buyerId, [⟨penId, sellerA, 2⟩, ⟨cupId, sellerA, 1⟩]⟩] := by
  refine ⟨rfl, rfl, by decide, by decide, by decide, by decide, by decide⟩

/-! ## Rejections and refunds of deleteOrder -/

/-- Claim C17: `deleteOrder` of an existing order whose status is not `pending`
is rejected with 400 and leaves the whole store unchanged: the order, every
stock and the refund log; for a well-formed identifier the rejection is the
not-pending one. -/
theorem deleteOrder_rejects_non_pending (env : Env) (db : Store) (orderId : String)
    (order : Order) (hfind : Order.findById db.orders orderId = some order)
    (hst : order.status ≠ "pending") :
    (deleteOrder env db orderId).1 = db ∧ (deleteOrder env db orderId).2.code = 400 ∧
    (env.isValid orderId = true → (deleteOrder env db orderId).2
      = ⟨400, "Cannot delete order that is not in pending status", none, none⟩) := by
  have hne : (order.status != "pending") = true := by simpa using hst
  cases hv : env.isValid orderId
  · simp [deleteOrder, hv]
  · simp [deleteOrder, hv, hfind, hne]

/-- Witness for C17: the two-suborder sample order has status `shipped`. -/
theorem deleteOrder_rejects_non_pending_witness :
    (deleteOrder demoEnv demoStore "65a000000000000000000301").1 = demoStore ∧
    (deleteOrder demoEnv demoStore "65a000000000000000000301").2.code = 400 ∧
    (demoEnv.isValid "65a000000000000000000301" = true →
      (deleteOrder demoEnv demoStore "65a000000000000000000301").2
        = ⟨400, "Cannot delete order that is not in pending status", none, none⟩) :=
  deleteOrder_rejects_non_pending demoEnv demoStore "65a000000000000000000301" demoOrder
    (by rfl) (by decide)


/-- A restore loop that reports a failed line item stopped at a catalog
without that item's product/seller pair. -/
theorem restoreStock_failed (products products1 : List Product) (items : List Item)
    (item : Item) (h : restoreStock products items = (products1, some item)) :
    item ∈ items ∧ stockOf products1 item.productId item.sellerId = none := by
  induction items generalizing products with
  | nil => simp [restoreStock] at h
  | cons x xs ih =>
    unfold restoreStock at h
    split at h
    · rename_i hupd
      simp only [Prod.mk.injEq, Option.some.injEq] at h
      obtain ⟨rfl, rfl⟩ := h
      refine ⟨List.mem_cons_self _ _, ?_⟩
      rw [findOneAndUpdate_eq] at hupd
      split at hupd
      · cases hupd
      · rename_i hany
        exact (stockOf_eq_none_iff _ _ _).2 (by simpa using hany)
    · obtain ⟨hmem, hnone⟩ := ih _ h
      exact ⟨List.mem_cons_of_mem _ hmem, hnone⟩

/-- Claim C20: when, in `deleteOrder` of a `pending` order, the stock restore
of a line item finds no product/seller pair, the answer is 500 naming that
item's product, the order collection and the refund log are as before, so the
order is not deleted and no refund is requested, and the catalog is the one the
restore loop had reached. -/
theorem deleteOrder_restore_failure (env : Env) (db : Store) (orderId : String)
    (order : Order) (products1 : List Product) (item : Item)
    (hvalid : env.isValid orderId = true)
    (hfind : Order.findById db.orders orderId = some order)
    (hpending : order.status = "pending")
    (hres : restoreStock db.products order.items = (products1, some item)) :
    deleteOrder env db orderId =
      ({ db with products := products1 },
        ⟨500, "Failed to restore stock for product ID " ++ item.productId.toString,
          none, none⟩) ∧
    (deleteOrder env db orderId).1.orders = db.orders ∧
    (deleteOrder env db orderId).1.refunds = db.refunds ∧
    Order.findById (deleteOrder env db orderId).1.orders orderId = some order ∧
    item ∈ order.items ∧ stockOf products1 item.productId item.sellerId = none := by
  have hrun : deleteOrder env db orderId =
      ({ db with products := products1 },
        ⟨500, "Failed to restore stock for product ID " ++ item.productId.toString,
          none, none⟩) := by
    simp [deleteOrder, hvalid, hfind, hpending, hres]
  obtain ⟨hmem, hnone⟩ := restoreStock_failed _ _ _ _ hres
  refine ⟨hrun, ?_, ?_, ?_, hmem, hnone⟩
  · rw [hrun]
  · rw [hrun]
  · rw [hrun]
    exact hfind

/-- Witness for C20: the pending single-suborder sample order lists a pen that
is no longer in the catalog. -/
theorem deleteOrder_restore_failure_witness :
    deleteOrder demoEnv orphanStore "65a000000000000000000302" =
      ({ orphanStore with products := [⟨cupId, "cup", [⟨sellerB, 4, 5⟩]⟩] },
        ⟨500, "Failed to restore stock for product ID " ++ penId.toString, none, none⟩) ∧
    (deleteOrder demoEnv orphanStore "65a000000000000000000302").1.orders
      = orphanStore.orders ∧
    (deleteOrder demoEnv orphanStore "65a000000000000000000302").1.refunds
      = orphanStore.refunds ∧
    Order.findById (deleteOrder demoEnv orphanStore "65a000000000000000000302").1.orders
      "65a000000000000000000302" = some demoSingleOrder ∧
    (⟨penId, sellerA, 1, 3⟩ : Item) ∈ demoSingleOrder.items ∧
    stockOf [⟨cupId, "cup", [⟨sellerB, 4, 5⟩]⟩] penId sellerA = none :=
  deleteOrder_restore_failure demoEnv orphanStore "65a000000000000000000302" demoSingleOrder
    [⟨cupId, "cup", [⟨sellerB, 4, 5⟩]⟩] ⟨penId, sellerA, 1, 3⟩
    (by decide) (by rfl) (by decide) (by rfl)

/-- Claim C19: `deleteOrder` of an existing order with a well-formed identifier
sends a refund request if and only if the order is `pending`, its
paymentMethod is `stripe`, it carries a stripePaymentIntentId, and the stock
restoration succeeded; the request is for that payment intent, and when the
gateway refuses it the answer is 500 'Failed to process refund' and the order
collection is unchanged. -/
theorem deleteOrder_refund_iff (env : Env) (db : Store) (orderId : String) (order : Order)
    (hvalid : env.isValid orderId = true)
    (hfind : Order.findById db.orders orderId = some order) :
    ((deleteOrder env db orderId).1.refunds ≠ db.refunds ↔
      (order.status = "pending" ∧ order.paymentMethod = "stripe" ∧
        truthy order.stripePaymentIntentId = true ∧
        (restoreStock db.products order.items).2 = none)) ∧
    (∀ intent, order.status = "pending" → order.paymentMethod = "stripe" →
      order.stripePaymentIntentId = some intent → intent ≠ "" →
      (restoreStock db.products order.items).2 = none →
      (deleteOrder env db orderId).1.refunds = db.refunds ++ [intent] ∧
      (env.refundOk intent = false →
        (deleteOrder env db orderId).2 = ⟨500, "Failed to process refund", none, none⟩ ∧
        (deleteOrder env db orderId).1.orders = db.orders)) := by
  have happ : ∀ x : String, db.refunds ++ [x] ≠ db.refunds := by
    intro x hc
    have := congrArg List.length hc
    simp at this
  constructor
  · by_cases hpend : order.status = "pending"
    · cases hres : restoreStock db.products order.items with
      | mk products1 failed =>
        cases failed with
        | some item =>
          simp [deleteOrder, hvalid, hfind, hpend, hres]
        | none =>
          cases hint : order.stripePaymentIntentId with
          | none => simp [deleteOrder, hvalid, hfind, hpend, hres, hint, truthy]
          | some intent =>
            by_cases hpm : order.paymentMethod = "stripe"
            · by_cases hne : intent = ""
              · simp [deleteOrder, hvalid, hfind, hpend, hres, hint, truthy, hpm, hne]
              · cases hrk : env.refundOk intent <;>
                  simp [deleteOrder, hvalid, hfind, hpend, hres, hint, truthy, hpm, hne, hrk,
                    happ]
            · simp [deleteOrder, hvalid, hfind, hpend, hres, hint, truthy, hpm]
    · have hne : (order.status != "pending") = true := by simpa using hpend
      simp [deleteOrder, hvalid, hfind, hne, hpend]
  · intro intent hpend hpm hint hne hres
    cases hres' : restoreStock db.products order.items with
    | mk products1 failed =>
      rw [hres'] at hres
      simp only at hres
      subst hres
      cases hrk : env.refundOk intent <;>
        simp [deleteOrder, hvalid, hfind, hpend, hres', hint, hpm, hne, hrk]


/-- Witness for C19: the gateway refuses the refund of the pending `stripe`
order with payment intent "pi_9". -/
theorem deleteOrder_refund_iff_witness :
    (deleteOrder refusingEnv stripeStore "65a000000000000000000303").1.refunds
      = stripeStore.refunds ++ ["pi_9"] ∧
    (refusingEnv.refundOk "pi_9" = false →
      (deleteOrder refusingEnv stripeStore "65a000000000000000000303").2
        = ⟨500, "Failed to process refund", none, none⟩ ∧
      (deleteOrder refusingEnv stripeStore "65a000000000000000000303").1.orders
        = stripeStore.orders) :=
  (deleteOrder_refund_iff refusingEnv stripeStore "65a000000000000000000303"
    { _id := ⟨"65a000000000000000000303"⟩
      userId := buyerId
      items := [⟨penId, sellerA, 1, 3⟩]
      suborders :=
        [⟨⟨"65a000000000000000000404"⟩, sellerA, [⟨penId, sellerA, 1, 3⟩], 3, "pending",
          none⟩]
      shippingInfo := ⟨"1 Main Street"⟩
      deliveryMethod := some "standard"
      paymentMethod := "stripe"
      subtotal := 3
      shipping := 1
      tax := 0
      total := 4
      paymentStatus := "paid"
      stripePaymentIntentId := some "pi_9"
      status := "pending"
      statusUpdatedAt := none }
    (by decide) (by rfl)).2 "pi_9" rfl rfl rfl (by decide) (by rfl)

/-! ## Round trip of the stock -/

theorem modifyFirst_comm {α : Type} (p q : α → Bool) (f g : α → α)
    (hpg : ∀ x, p (g x) = p x) (hqf : ∀ x, q (f x) = q x) (hfg : ∀ x, f (g x) = g (f x))
    (xs : List α) :
    modifyFirst p f (modifyFirst q g xs) = modifyFirst q g (modifyFirst p f xs) := by
  induction xs with
  | nil => rfl
  | cons a as ih =>
    cases hp : p a <;> cases hq : q a <;>
      simp [modifyFirst, hp, hq, hpg, hqf, hfg, ih]

theorem modifyFirst_cancel {α : Type} (p : α → Bool) (f g : α → α)
    (hpg : ∀ x, p (g x) = p x) (hfg : ∀ x, f (g x) = x) (xs : List α) :
    modifyFirst p f (modifyFirst p g xs) = xs := by
  induction xs with
  | nil => rfl
  | cons a as ih =>
    cases hp : p a <;> simp [modifyFirst, hp, hpg, hfg, ih]

theorem incStock_comm (sellers : List SellerEntry) (a b : ObjectId) (d e : Int) :
    incStock (incStock sellers b e) a d = incStock (incStock sellers a d) b e := by
  unfold incStock
  apply modifyFirst_comm
  · intro _; rfl
  · intro _; rfl
  · intro s
    simp only [SellerEntry.mk.injEq, true_and, and_true]
    omega

theorem incStock_cancel (sellers : List SellerEntry) (a : ObjectId) (q : Int) :
    incStock (incStock sellers a (-q)) a q = sellers := by
  unfold incStock
  apply modifyFirst_cancel
  · intro _; rfl
  · intro s
    cases s
    simp only [SellerEntry.mk.injEq, true_and, and_true]
    omega

theorem incPair_comm (products : List Product) (a s b t : ObjectId) (d e : Int) :
    incPair (incPair products b t e) a s d = incPair (incPair products a s d) b t e := by
  unfold incPair
  apply modifyFirst_comm
  · intro p; exact matchesPair_incStock a s t e p
  · intro p; exact matchesPair_incStock b t s d p
  · intro p
    simp only [Product.mk.injEq, true_and]
    exact incStock_comm p.sellers s t d e

theorem incPair_cancel (products : List Product) (a s : ObjectId) (q : Int) :
    incPair (incPair products a s (-q)) a s q = products := by
  unfold incPair
  apply modifyFirst_cancel
  · intro p; exact matchesPair_incStock a s s (-q) p
  · intro p
    cases p
    simp only [Product.mk.injEq, true_and]
    exact incStock_cancel _ s q

theorem any_matchesPair_incPair (products : List Product) (a s b t : ObjectId) (d : Int) :
    (incPair products a s d).any (matchesPair b t) = products.any (matchesPair b t) := by
  unfold incPair
  exact any_modifyFirst _ _ _ (fun p => matchesPair_incStock b t s d p) products

theorem findOneAndUpdate_eq_incPair (products : List Product) (a s : ObjectId) (d : Int) :
    Product.findOneAndUpdate products a s d =
      if products.any (matchesPair a s) then some (incPair products a s d) else none :=
  findOneAndUpdate_eq products a s d

/-- A restore loop that succeeds still succeeds after one more stock update
has been applied to its starting catalog, and ends in the catalog it ended in
before with that update applied. -/
theorem restoreStock_incPair (items : List Item) (start final : List Product)
    (a s : ObjectId) (d : Int) (h : restoreStock start items = (final, none)) :
    restoreStock (incPair start a s d) items = (incPair final a s d, none) := by
  induction items generalizing start with
  | nil =>
    simp only [restoreStock, Prod.mk.injEq, and_true] at h
    subst h
    rfl
  | cons x xs ih =>
    unfold restoreStock at h ⊢
    rw [findOneAndUpdate_eq_incPair] at h ⊢
    rw [any_matchesPair_incPair]
    by_cases hany : start.any (matchesPair x.productId x.sellerId) = true
    · simp only [hany, if_true] at h ⊢
      rw [incPair_comm]
      exact ih _ h
    · simp [hany] at h

/-- A stock loop that succeeds leaves every product/seller pair in place. -/
theorem any_matchesPair_decrementStock (env : Env) (items : List Item)
    (start reached : List Product) (b t : ObjectId)
    (h : decrementStock env start items = (reached, none)) :
    reached.any (matchesPair b t) = start.any (matchesPair b t) := by
  induction items generalizing start with
  | nil =>
    simp only [decrementStock, Prod.mk.injEq, and_true] at h
    rw [h]
  | cons y ys ih =>
    unfold decrementStock at h
    rw [findOneAndUpdate_eq_incPair] at h
    by_cases hany : start.any (matchesPair (castItem env y).productId y.sellerId) = true
    · simp only [hany, if_true] at h
      rw [ih _ h, any_matchesPair_incPair]
    · simp [hany] at h

/-- Restoring the line items of a cart whose stock loop succeeded, as the
order stores them, brings the catalog back to where the stock loop started. -/
theorem restoreStock_decrementStock (env : Env) (items : List Item)
    (start reached : List Product)
    (h : decrementStock env start items = (reached, none)) :
    restoreStock reached (items.map (castItem env)) = (start, none) := by
  induction items generalizing start with
  | nil =>
    simp only [decrementStock, Prod.mk.injEq, and_true] at h
    subst h
    rfl
  | cons x xs ih =>
    unfold decrementStock at h
    rw [findOneAndUpdate_eq_incPair] at h
    by_cases hany : start.any (matchesPair (castItem env x).productId x.sellerId) = true
    · simp only [hany, if_true] at h
      have ih' := ih _ h
      have hany' : reached.any (matchesPair (castItem env x).productId x.sellerId) = true := by
        rw [any_matchesPair_decrementStock env xs _ _ _ _ h, any_matchesPair_incPair]
        exact hany
      rw [List.map_cons]
      unfold restoreStock
      rw [show (castItem env x).sellerId = x.sellerId from rfl,
        show (castItem env x).quantity = x.quantity from rfl,
        findOneAndUpdate_eq_incPair, if_pos hany']
      simp only
      have hstep := restoreStock_incPair (xs.map (castItem env)) reached _
        (castItem env x).productId x.sellerId x.quantity ih'
      rw [incPair_cancel] at hstep
      exact hstep
    · simp [hany] at h

/-- A `deleteOrder` call answered with 200 found a `pending` order, restored
the stock of all its line items, and removed it from the order collection. -/
theorem deleteOrder_ok (env : Env) (db db' : Store) (orderId : String) (resp : Response)
    (hrun : deleteOrder env db orderId = (db', resp)) (hok : resp.code = 200) :
    ∃ order, Order.findById db.orders orderId = some order ∧ order.status = "pending" ∧
      restoreStock db.products order.items = (db'.products, none) ∧
      db'.orders = db.orders.eraseP (fun o => o._id.toString == orderId) := by
  unfold deleteOrder at hrun
  split at hrun
  · cases hrun; simp at hok
  split at hrun
  · cases hrun; simp at hok
  rename_i order hfind
  split at hrun
  · cases hrun; simp at hok
  rename_i hpend
  have hpending : order.status = "pending" := by simpa using hpend
  split at hrun
  · cases hrun; simp at hok
  rename_i products1 hres
  simp only at hrun
  split at hrun
  · split at hrun
    · split at hrun
      · cases hrun
        exact ⟨order, hfind, hpending, hres, rfl⟩
      · cases hrun; simp at hok
    · cases hrun
      exact ⟨order, hfind, hpending, hres, rfl⟩
  · cases hrun
    exact ⟨order, hfind, hpending, hres, rfl⟩

/-- Claim C18: when `createOrder` succeeds on a store in which the new order's
identifier is not yet used, the stored order is `pending`, and a successful
`deleteOrder` of it right afterwards leaves the catalog, hence every
product/seller stock, exactly as it was before `createOrder`, however many
line items refer to the same product/seller pair; the order collection is
back to what it was as well. -/
theorem createOrder_deleteOrder_restores_stock (env : Env) (db db1 db2 : Store)
    (body : CreateOrderBody) (r1 r2 : Response)
    (hfresh : ∀ o ∈ db.orders, o._id ≠ env.newId 0)
    (hcreate : createOrder env db body = (db1, r1)) (hcreated : r1.code = 201)
    (hdelete : deleteOrder env db1 (env.newId 0).toString = (db2, r2))
    (hdeleted : r2.code = 200) :
    (∃ o, db1.orders = db.orders ++ [o] ∧ o._id = env.newId 0 ∧ o.status = "pending") ∧
    db2.products = db.products ∧ db2.orders = db.orders := by
  obtain ⟨userId, items, shippingInfo, paymentMethod, -, -, -, -, -, -, hdec, hord, -⟩ :=
    createOrder_created env db db1 body r1 hcreate hcreated
  obtain ⟨order, hfind, -, hres, herase⟩ := deleteOrder_ok env db1 db2 _ r2 hdelete hdeleted
  have hnone := findById_eq_none_of_fresh db.orders (env.newId 0) hfresh
  have hfound : order = Order.new env userId items (groupBySeller items) shippingInfo
      body.deliveryMethod paymentMethod body.subtotal body.shipping body.tax body.total
      (if paymentMethod == "stripe" then "paid" else "pending")
      (if paymentMethod == "stripe" then body.paymentResult.bind (fun r => r.id)
        else none) := by
    rw [hord] at hfind
    unfold Order.findById at hfind hnone
    rw [List.find?_append, hnone] at hfind
    simp only [Option.none_or, List.find?_cons, List.find?_nil] at hfind
    split at hfind
    · exact (Option.some.inj hfind).symm
    · cases hfind
  refine ⟨⟨_, hord, rfl, rfl⟩, ?_, ?_⟩
  · have hitems : order.items = items.map (castItem env) := by rw [hfound]; rfl
    rw [hitems] at hres
    have hback := restoreStock_decrementStock env items db.products db1.products hdec
    rw [hback] at hres
    exact (Prod.mk.inj hres).1.symm
  · rw [herase, hord]
    have := deleteOne_append_fresh db.orders
      (Order.new env userId items (groupBySeller items) shippingInfo
        body.deliveryMethod paymentMethod body.subtotal body.shipping body.tax body.total
        (if paymentMethod == "stripe" then "paid" else "pending")
        (if paymentMethod == "stripe" then body.paymentResult.bind (fun r => r.id)
          else none)) hfresh
    simp only [Order.deleteOne] at this
    have hpred : (fun o : Order => o._id.toString == (env.newId 0).toString)
        = (fun o : Order => o._id == env.newId 0) := by
      funext o
      exact toString_beq _ _
    rw [hpred]
    exact this

/-- Witness for C18: the sample cart, with two line items for seller A's pen,
is ordered and the order deleted again. -/
theorem createOrder_deleteOrder_restores_stock_witness :
    (∃ o, (createOrder demoEnv demoStore demoBody).1.orders = demoStore.orders ++ [o] ∧
      o._id = demoEnv.newId 0 ∧ o.status = "pending") ∧
    (deleteOrder demoEnv (createOrder demoEnv demoStore demoBody).1
      (demoEnv.newId 0).toString).1.products = demoStore.products ∧
    (deleteOrder demoEnv (createOrder demoEnv demoStore demoBody).1
      (demoEnv.newId 0).toString).1.orders = demoStore.orders :=
  createOrder_deleteOrder_restores_stock demoEnv demoStore _ _ demoBody _ _
    (by decide) rfl (by decide) rfl (by decide)

/-! ## Status updates: transitions, frame and repetition -/

theorem findById_save (orders : List Order) (order order' : Order) (id : String)
    (hfind : Order.findById orders id = some order) (hid : order'._id = order._id) :
    Order.findById (Order.save orders order') id = some order' := by
  have hstr : order._id.toString = id := by
    have := List.find?_some hfind
    simpa using this
  simp only [Order.findById, Order.save, hid, hstr]
  apply find?_modifyFirst_const _ _ _ _ order hfind
  simp [hid, hstr]

/-- An `updateOrderStatus` request with well-formed identifiers and one of the
five statuses, for a stored order and one of its suborders, is answered 200
and stores the order with the status writes applied. -/
theorem updateOrderStatus_run (env : Env) (db : Store) (body : UpdateStatusBody)
    (order : Order) (sub : Suborder)
    (hvo : env.isValid body.orderId = true) (hvs : env.isValid body.suborderId = true)
    (hst : allowedStatuses.contains body.status = true)
    (hfind : Order.findById db.orders body.orderId = some order)
    (hsub : order.suborders.find? (fun sub => sub._id.toString == body.suborderId) = some sub) :
    updateOrderStatus env db body =
      ({ db with orders := Order.save db.orders (applyStatusUpdate env order body) },
        ⟨200, "Order and suborder status updated successfully",
          some (applyStatusUpdate env order body), none⟩) := by
  simp only [updateOrderStatus, hvo, hvs, hst, hfind, hsub, Bool.not_true, Bool.false_eq_true,
    if_false]
  rw [findById_save db.orders order _ body.orderId hfind (applyStatusUpdate_id env order body)]

/-- A successful `updateOrderStatus` had well-formed identifiers, one of the
five statuses, a stored order and one of its suborders. -/
theorem updateOrderStatus_ok_full (env : Env) (db db' : Store) (body : UpdateStatusBody)
    (resp : Response) (hrun : updateOrderStatus env db body = (db', resp))
    (hok : resp.code = 200) :
    ∃ order sub, env.isValid body.orderId = true ∧ env.isValid body.suborderId = true ∧
      allowedStatuses.contains body.status = true ∧
      Order.findById db.orders body.orderId = some order ∧
      order.suborders.find? (fun sub => sub._id.toString == body.suborderId) = some sub ∧
      db' = { db with orders := Order.save db.orders (applyStatusUpdate env order body) } ∧
      Order.findById db'.orders body.orderId = some (applyStatusUpdate env order body) := by
  have hrun' := hrun
  unfold updateOrderStatus at hrun
  split at hrun
  · cases hrun; simp at hok
  rename_i hvo
  split at hrun
  · cases hrun; simp at hok
  rename_i hvs
  split at hrun
  · cases hrun; simp at hok
  rename_i hst
  split at hrun
  · cases hrun; simp at hok
  rename_i order hfind
  split at hrun
  · cases hrun; simp at hok
  rename_i sub hsub
  have hvo' : env.isValid body.orderId = true := by simpa using hvo
  have hvs' : env.isValid body.suborderId = true := by simpa using hvs
  have hst' : allowedStatuses.contains body.status = true := by simpa using hst
  have hfull := updateOrderStatus_run env db body order sub hvo' hvs' hst' hfind hsub
  rw [hfull] at hrun'
  cases hrun'
  exact ⟨order, sub, hvo', hvs', hst', hfind, hsub, rfl,
    findById_save db.orders order _ body.orderId hfind (applyStatusUpdate_id env order body)⟩

/-- Claim C21: `updateOrderStatus` enforces no transition rule. For a stored
order, one of its suborders (addressed by well-formed identifiers) in whatever
current status, and any of the five statuses as new status, the update is
answered 200 and the suborder is stored with the new status; a new status
outside the five values is answered 400 'Invalid status' with the store
unchanged. -/
theorem updateOrderStatus_any_transition (env : Env) (db : Store) (body : UpdateStatusBody)
    (order : Order) (sub : Suborder)
    (hvo : env.isValid body.orderId = true) (hvs : env.isValid body.suborderId = true)
    (hfind : Order.findById db.orders body.orderId = some order)
    (hsub : order.suborders.find? (fun sub => sub._id.toString == body.suborderId) = some sub) :
    (body.status ∈ ["pending", "processing", "shipped", "delivered", "cancelled"] →
      (updateOrderStatus env db body).2.code = 200 ∧
      ∃ o, Order.findById (updateOrderStatus env db body).1.orders body.orderId = some o ∧
        o.suborders.find? (fun sub => sub._id.toString == body.suborderId)
          = some { sub with status := body.status, statusUpdatedAt := some env.now }) ∧
    (body.status ∉ ["pending", "processing", "shipped", "delivered", "cancelled"] →
      updateOrderStatus env db body = (db, ⟨400, "Invalid status", none, none⟩)) := by
  constructor
  · intro hmem
    have hst : allowedStatuses.contains body.status = true := by
      simpa [allowedStatuses] using hmem
    rw [updateOrderStatus_run env db body order sub hvo hvs hst hfind hsub]
    refine ⟨rfl, _, findById_save db.orders order _ body.orderId hfind
      (applyStatusUpdate_id env order body), ?_⟩
    simp only [applyStatusUpdate, recomputeStatus_suborders]
    rw [find?_modifyFirst (fun s : Suborder => s._id.toString == body.suborderId)
      (fun s : Suborder => { s with status := body.status, statusUpdatedAt := some env.now })
      (fun _ => rfl), hsub]
    rfl
  · intro hnot
    have hst : allowedStatuses.contains body.status = false := by
      simpa [allowedStatuses] using hnot
    simp only [updateOrderStatus, hvo, hvs, hst, Bool.not_true, Bool.false_eq_true, if_false,
      Bool.not_false, if_true]

/-- Witness for C21: the delivered suborder of the two-suborder sample order is
set back to `pending`, and the status "refunded" is refused. -/
theorem updateOrderStatus_any_transition_witness :
    ((updateOrderStatus demoEnv demoStore
        ⟨"65a000000000000000000301", "65a000000000000000000401", "pending"⟩).2.code = 200 ∧
      ∃ o, Order.findById (updateOrderStatus demoEnv demoStore
          ⟨"65a000000000000000000301", "65a000000000000000000401", "pending"⟩).1.orders
          "65a000000000000000000301" = some o ∧
        o.suborders.find? (fun sub => sub._id.toString == "65a000000000000000000401")
          = some ⟨⟨"65a000000000000000000401"⟩, sellerA, [⟨penId, sellerA, 2, 3⟩], 6,
              "pending", some demoEnv.now⟩) ∧
    updateOrderStatus demoEnv demoStore
        ⟨"65a000000000000000000301", "65a000000000000000000401", "refunded"⟩
      = (demoStore, ⟨400, "Invalid status", none, none⟩) :=
  ⟨(updateOrderStatus_any_transition demoEnv demoStore
      ⟨"65a000000000000000000301", "65a000000000000000000401", "pending"⟩ demoOrder
      ⟨⟨"65a000000000000000000401"⟩, sellerA, [⟨penId, sellerA, 2, 3⟩], 6, "delivered", none⟩
      (by decide) (by decide) (by rfl) (by rfl)).1 (by decide),
    (updateOrderStatus_any_transition demoEnv demoStore
      ⟨"65a000000000000000000301", "65a000000000000000000401", "refunded"⟩ demoOrder
      ⟨⟨"65a000000000000000000401"⟩, sellerA, [⟨penId, sellerA, 2, 3⟩], 6, "delivered", none⟩
      (by decide) (by decide) (by rfl) (by rfl)).2 (by decide)⟩

/-- The recomputation touches only the order's status and paymentStatus. -/
theorem recomputeStatus_shape (order : Order) (status : String) :
    recomputeStatus order status =
      { order with
        status := (recomputeStatus order status).status
        paymentStatus := (recomputeStatus order status).paymentStatus } := by
  unfold recomputeStatus
  simp only
  split_ifs <;> rfl

theorem recomputeStatus_paymentStatus (order : Order) (status : String) :
    (recomputeStatus order status).paymentStatus
      = if marksPaid order status then "paid" else order.paymentStatus := by
  unfold recomputeStatus marksPaid
  simp only
  split_ifs <;> simp_all
  rename_i h1 h2 h3 h4 h5
  obtain ⟨x, hx, hnd⟩ := h2
  exact absurd (h5.1 x hx) hnd

theorem marksPaid_not_stripe (order : Order) (status : String)
    (h : marksPaid order status = true) : order.paymentMethod ≠ "stripe" := by
  unfold marksPaid at h
  split at h <;> simp_all

/-- Claim C30: a successful `updateOrderStatus` stores a paymentStatus that is
either the one the order had or `paid`; for an order whose paymentMethod is
`stripe` it is the one the order had; and an order whose paymentStatus was
`paid` is stored with paymentStatus `paid`. -/
theorem updateOrderStatus_keeps_paid (env : Env) (db db' : Store) (body : UpdateStatusBody)
    (resp : Response) (order : Order)
    (hfind : Order.findById db.orders body.orderId = some order)
    (hrun : updateOrderStatus env db body = (db', resp)) (hok : resp.code = 200) :
    ∃ o, Order.findById db'.orders body.orderId = some o ∧
      (o.paymentStatus = order.paymentStatus ∨ o.paymentStatus = "paid") ∧
      (order.paymentMethod = "stripe" → o.paymentStatus = order.paymentStatus) ∧
      (order.paymentStatus = "paid" → o.paymentStatus = "paid") := by
  obtain ⟨order', -, hfind', -, -, hstored⟩ :=
    updateOrderStatus_ok env db db' body resp hrun hok
  rw [hfind] at hfind'
  cases hfind'
  refine ⟨_, hstored, ?_, ?_, ?_⟩
  · simp only [applyStatusUpdate, recomputeStatus_paymentStatus]
    split
    · right; rfl
    · left; rfl
  · intro hstripe
    simp only [applyStatusUpdate, recomputeStatus_paymentStatus]
    split
    · rename_i hm
      have hns := marksPaid_not_stripe _ _ hm
      exact absurd hstripe hns
    · rfl
  · intro hpaid
    simp only [applyStatusUpdate, recomputeStatus_paymentStatus]
    split
    · rfl
    · exact hpaid

/-- Witness for C30: the single suborder of the cash-on-delivery sample order
is set to `delivered`, which marks the order `paid`, and then to `cancelled`. -/
theorem updateOrderStatus_keeps_paid_witness :
    ∃ o, Order.findById
        (updateOrderStatus demoEnv
          (updateOrderStatus demoEnv demoStore
            ⟨"65a000000000000000000302", "65a000000000000000000403", "delivered"⟩).1
          ⟨"65a000000000000000000302", "65a000000000000000000403", "cancelled"⟩).1.orders
        "65a000000000000000000302" = some o ∧
      (o.paymentStatus = "paid" ∨ o.paymentStatus = "paid") ∧
      ("cod" = "stripe" → o.paymentStatus = "paid") ∧
      ("paid" = "paid" → o.paymentStatus = "paid") :=
  updateOrderStatus_keeps_paid demoEnv
    (updateOrderStatus demoEnv demoStore
      ⟨"65a000000000000000000302", "65a000000000000000000403", "delivered"⟩).1 _
    ⟨"65a000000000000000000302", "65a000000000000000000403", "cancelled"⟩ _
    (applyStatusUpdate demoEnv demoSingleOrder
      ⟨"65a000000000000000000302", "65a000000000000000000403", "delivered"⟩)
    (by rfl) rfl (by decide)

theorem forall₂_self {α : Type} (R : α → α → Prop) (hrefl : ∀ x, R x x) (xs : List α) :
    List.Forall₂ R xs xs := by
  induction xs with
  | nil => exact List.Forall₂.nil
  | cons a as ih => exact List.Forall₂.cons (hrefl a) ih

theorem forall₂_modifyFirst {α : Type} (R : α → α → Prop) (p : α → Bool) (f : α → α)
    (hrefl : ∀ x, R x x) (hf : ∀ x, p x = true → R x (f x)) (xs : List α) :
    List.Forall₂ R xs (modifyFirst p f xs) := by
  induction xs with
  | nil => exact List.Forall₂.nil
  | cons a as ih =>
    by_cases ha : p a = true
    · simp only [modifyFirst, ha, if_true]
      exact List.Forall₂.cons (hf a ha) (forall₂_self R hrefl as)
    · simp only [modifyFirst, ha, Bool.false_eq_true, if_false]
      exact List.Forall₂.cons (hrefl a) ih

/-- Claim C25: a successful `updateOrderStatus` leaves the catalog, the
accounts, the carts and the refund log as they were, leaves every other order
as it was, and stores the addressed order with the same identifier, buyer,
line items, shipping and delivery data, paymentMethod, monetary totals and
payment reference; position by position its suborders keep their identifier,
sellerId, items and subtotal, and a suborder with another identifier than the
addressed one is stored unchanged. -/
theorem updateOrderStatus_frame (env : Env) (db db' : Store) (body : UpdateStatusBody)
    (resp : Response) (order : Order)
    (hfind : Order.findById db.orders body.orderId = some order)
    (hrun : updateOrderStatus env db body = (db', resp)) (hok : resp.code = 200) :
    ∃ o, Order.findById db'.orders body.orderId = some o ∧
      o._id = order._id ∧ o.userId = order.userId ∧ o.items = order.items ∧
      o.shippingInfo = order.shippingInfo ∧ o.deliveryMethod = order.deliveryMethod ∧
      o.paymentMethod = order.paymentMethod ∧ o.subtotal = order.subtotal ∧
      o.shipping = order.shipping ∧ o.tax = order.tax ∧ o.total = order.total ∧
      o.stripePaymentIntentId = order.stripePaymentIntentId ∧
      List.Forall₂ (fun s s' => s'._id = s._id ∧ s'.sellerId = s.sellerId ∧
          s'.items = s.items ∧ s'.subtotal = s.subtotal ∧
          (s._id.toString ≠ body.suborderId → s' = s))
        order.suborders o.suborders ∧
      List.Forall₂ (fun a b => a._id.toString ≠ body.orderId → b = a) db.orders db'.orders ∧
      db'.products = db.products ∧ db'.users = db.users ∧ db'.carts = db.carts ∧
      db'.refunds = db.refunds := by
  obtain ⟨order', sub, -, -, -, hfind', -, hdb, hstored⟩ :=
    updateOrderStatus_ok_full env db db' body resp hrun hok
  rw [hfind] at hfind'
  cases hfind'
  have hid : order._id.toString = body.orderId := by
    have := List.find?_some hfind
    simpa using this
  refine ⟨_, hstored, ?_, ?_, ?_, ?_, ?_, ?_, ?_, ?_, ?_, ?_, ?_, ?_, ?_, ?_, ?_, ?_, ?_⟩
  any_goals (simp only [applyStatusUpdate]; rw [recomputeStatus_shape])
  · simp only [applyStatusUpdate, recomputeStatus_suborders]
    apply forall₂_modifyFirst
    · intro s
      exact ⟨rfl, rfl, rfl, rfl, fun _ => rfl⟩
    · intro s hs
      refine ⟨rfl, rfl, rfl, rfl, fun hne => ?_⟩
      exact absurd (by simpa using hs) hne
  · rw [hdb]
    simp only [Order.save]
    apply forall₂_modifyFirst
    · intro a _; rfl
    · intro a ha hne
      rw [applyStatusUpdate_id, hid] at ha
      exact absurd (by simpa using ha) hne
  · rw [hdb]
  · rw [hdb]
  · rw [hdb]
  · rw [hdb]

/-- Witness for C25: the shipped suborder of the two-suborder sample order is
set to `delivered`. -/
theorem updateOrderStatus_frame_witness :
    ∃ o, Order.findById
        (updateOrderStatus demoEnv demoStore
          ⟨"65a000000000000000000301", "65a000000000000000000402", "delivered"⟩).1.orders
        "65a000000000000000000301" = some o ∧
      o._id = demoOrder._id ∧ o.userId = demoOrder.userId ∧ o.items = demoOrder.items ∧
      o.shippingInfo = demoOrder.shippingInfo ∧ o.deliveryMethod = demoOrder.deliveryMethod ∧
      o.paymentMethod = demoOrder.paymentMethod ∧ o.subtotal = demoOrder.subtotal ∧
      o.shipping = demoOrder.shipping ∧ o.tax = demoOrder.tax ∧ o.total = demoOrder.total ∧
      o.stripePaymentIntentId = demoOrder.stripePaymentIntentId ∧
      List.Forall₂ (fun s s' => s'._id = s._id ∧ s'.sellerId = s.sellerId ∧
          s'.items = s.items ∧ s'.subtotal = s.subtotal ∧
          (s._id.toString ≠ "65a000000000000000000402" → s' = s))
        demoOrder.suborders o.suborders ∧
      List.Forall₂ (fun a b => a._id.toString ≠ "65a000000000000000000301" → b = a)
        demoStore.orders
        (updateOrderStatus demoEnv demoStore
          ⟨"65a000000000000000000301", "65a000000000000000000402", "delivered"⟩).1.orders ∧
      (updateOrderStatus demoEnv demoStore
          ⟨"65a000000000000000000301", "65a000000000000000000402", "delivered"⟩).1.products
        = demoStore.products ∧
      (updateOrderStatus demoEnv demoStore
          ⟨"65a000000000000000000301", "65a000000000000000000402", "delivered"⟩).1.users
        = demoStore.users ∧
      (updateOrderStatus demoEnv demoStore
          ⟨"65a000000000000000000301", "65a000000000000000000402", "delivered"⟩).1.carts
        = demoStore.carts ∧
      (updateOrderStatus demoEnv demoStore
          ⟨"65a000000000000000000301", "65a000000000000000000402", "delivered"⟩).1.refunds
        = demoStore.refunds :=
  updateOrderStatus_frame demoEnv demoStore _
    ⟨"65a000000000000000000301", "65a000000000000000000402", "delivered"⟩ _ demoOrder
    (by rfl) rfl (by decide)

theorem map_status_modifyFirst_twice (id : String) (status : String) (t1 t2 : Option Nat)
    (subs : List Suborder) :
    (modifyFirst (fun sub => sub._id.toString == id)
        (fun sub => { sub with status := status, statusUpdatedAt := t2 })
        (modifyFirst (fun sub => sub._id.toString == id)
          (fun sub => { sub with status := status, statusUpdatedAt := t1 }) subs)).map
        (fun sub => sub.status)
      = (modifyFirst (fun sub => sub._id.toString == id)
          (fun sub => { sub with status := status, statusUpdatedAt := t1 }) subs).map
          (fun sub => sub.status) := by
  induction subs with
  | nil => rfl
  | cons a as ih =>
    by_cases ha : a._id.toString = id
    · simp [modifyFirst, ha]
    · simp [modifyFirst, ha, ih]

/-- The recomputed status depends on the order only through the list of its
suborders' statuses. -/
theorem recomputeStatus_status_congr (a b : Order) (status : String)
    (h : a.suborders.map (fun sub => sub.status) = b.suborders.map (fun sub => sub.status)) :
    (recomputeStatus a status).status = (recomputeStatus b status).status := by
  have hlen : a.suborders.length = b.suborders.length := by
    have := congrArg List.length h
    simpa using this
  by_cases h1 : a.suborders.length = 1
  · rw [recomputeStatus_status_of_one a status h1,
      recomputeStatus_status_of_one b status (hlen ▸ h1)]
  · rw [recomputeStatus_status_of_many a status h1,
      recomputeStatus_status_of_many b status (hlen ▸ h1), h]

theorem marksPaid_congr (a b : Order) (status : String)
    (h : a.suborders.map (fun sub => sub.status) = b.suborders.map (fun sub => sub.status))
    (hpm : a.paymentMethod = b.paymentMethod) : marksPaid a status = marksPaid b status := by
  have hlen : a.suborders.length = b.suborders.length := by
    have := congrArg List.length h
    simpa using this
  simp only [marksPaid, h, hlen, hpm]

theorem applyStatusUpdate_eq (env : Env) (order : Order) (body : UpdateStatusBody) :
    applyStatusUpdate env order body =
      { recomputeStatus (writeSuborder env order body) body.status with
        statusUpdatedAt := some env.now } := rfl

theorem applyStatusUpdate_suborders (env : Env) (order : Order) (body : UpdateStatusBody) :
    (applyStatusUpdate env order body).suborders = (writeSuborder env order body).suborders := by
  rw [applyStatusUpdate_eq]
  exact recomputeStatus_suborders _ _

theorem applyStatusUpdate_status (env : Env) (order : Order) (body : UpdateStatusBody) :
    (applyStatusUpdate env order body).status
      = (recomputeStatus (writeSuborder env order body) body.status).status := rfl

theorem applyStatusUpdate_paymentMethod (env : Env) (order : Order) (body : UpdateStatusBody) :
    (applyStatusUpdate env order body).paymentMethod = order.paymentMethod := by
  rw [applyStatusUpdate_eq, recomputeStatus_shape]
  rfl

theorem applyStatusUpdate_paymentStatus (env : Env) (order : Order) (body : UpdateStatusBody) :
    (applyStatusUpdate env order body).paymentStatus
      = if marksPaid (writeSuborder env order body) body.status then "paid"
        else order.paymentStatus := by
  rw [applyStatusUpdate_eq]
  exact recomputeStatus_paymentStatus _ _

theorem writeSuborder_twice (env env2 : Env) (order : Order) (body : UpdateStatusBody) :
    (writeSuborder env2 (applyStatusUpdate env order body) body).suborders.map
        (fun sub => sub.status)
      = (writeSuborder env order body).suborders.map (fun sub => sub.status) := by
  have h := applyStatusUpdate_suborders env order body
  simp only [writeSuborder] at h ⊢
  rw [h]
  exact map_status_modifyFirst_twice _ _ _ _ _

/-- Claim C24: the derived status is a function of the suborder statuses
alone, and when a successful `updateOrderStatus` call is repeated with the
same body, at whatever later time, the order stored after the second call has
the same status, the same paymentStatus and the same suborder statuses as the
order stored after the first. -/
theorem updateOrderStatus_repeat (env env2 : Env) (db db1 db2 : Store)
    (body : UpdateStatusBody) (r1 r2 : Response)
    (hrun1 : updateOrderStatus env db body = (db1, r1)) (hok1 : r1.code = 200)
    (hrun2 : updateOrderStatus env2 db1 body = (db2, r2)) (hok2 : r2.code = 200) :
    (∀ (a b : Order) (status : String),
      a.suborders.map (fun sub => sub.status) = b.suborders.map (fun sub => sub.status) →
      (recomputeStatus a status).status = (recomputeStatus b status).status) ∧
    ∃ o1 o2, Order.findById db1.orders body.orderId = some o1 ∧
      Order.findById db2.orders body.orderId = some o2 ∧
      o2.status = o1.status ∧ o2.paymentStatus = o1.paymentStatus ∧
      o2.suborders.map (fun sub => sub.status) = o1.suborders.map (fun sub => sub.status) := by
  refine ⟨recomputeStatus_status_congr, ?_⟩
  obtain ⟨order, -, -, -, -, hstored1⟩ := updateOrderStatus_ok env db db1 body r1 hrun1 hok1
  obtain ⟨order1, -, hfind1, -, -, hstored2⟩ :=
    updateOrderStatus_ok env2 db1 db2 body r2 hrun2 hok2
  rw [hstored1] at hfind1
  cases hfind1
  have hsame := writeSuborder_twice env env2 order body
  refine ⟨_, _, hstored1, hstored2, ?_, ?_, ?_⟩
  · rw [applyStatusUpdate_status, applyStatusUpdate_status]
    exact recomputeStatus_status_congr _ _ _ hsame
  · have hm : marksPaid (writeSuborder env2 (applyStatusUpdate env order body) body) body.status
        = marksPaid (writeSuborder env order body) body.status :=
      marksPaid_congr _ _ _ hsame (applyStatusUpdate_paymentMethod env order body)
    rw [applyStatusUpdate_paymentStatus, hm, applyStatusUpdate_paymentStatus]
    split <;> rfl
  · rw [applyStatusUpdate_suborders, applyStatusUpdate_suborders]
    exact hsame

/-- Witness for C24: the request setting the shipped suborder of the
two-suborder sample order to `delivered` is sent twice. -/
theorem updateOrderStatus_repeat_witness :
    (∀ (a b : Order) (status : String),
      a.suborders.map (fun sub => sub.status) = b.suborders.map (fun sub => sub.status) →
      (recomputeStatus a status).status = (recomputeStatus b status).status) ∧
    ∃ o1 o2, Order.findById
        (updateOrderStatus demoEnv demoStore
          ⟨"65a000000000000000000301", "65a000000000000000000402", "delivered"⟩).1.orders
        "65a000000000000000000301" = some o1 ∧
      Order.findById
        (updateOrderStatus refusingEnv
          (updateOrderStatus demoEnv demoStore
            ⟨"65a000000000000000000301", "65a000000000000000000402", "delivered"⟩).1
          ⟨"65a000000000000000000301", "65a000000000000000000402", "delivered"⟩).1.orders
        "65a000000000000000000301" = some o2 ∧
      o2.status = o1.status ∧ o2.paymentStatus = o1.paymentStatus ∧
      o2.suborders.map (fun sub => sub.status) = o1.suborders.map (fun sub => sub.status) :=
  updateOrderStatus_repeat demoEnv refusingEnv demoStore _ _
    ⟨"65a000000000000000000301", "65a000000000000000000402", "delivered"⟩ _ _
    rfl (by decide) rfl (by decide)

/-! ## The aggregate status of an order with several suborders -/

theorem precedenceTable_mem (l : List String) :
    precedenceTable l ∈ ["processing", "shipped", "delivered", "cancelled"] := by
  unfold precedenceTable
  split_ifs <;> simp

theorem deleteOrder_of_not_pending (env : Env) (db : Store) (orderId : String) (order : Order)
    (hfind : Order.findById db.orders orderId = some order) (hst : order.status ≠ "pending") :
    (deleteOrder env db orderId).1 = db ∧ (deleteOrder env db orderId).2.code = 400 := by
  have hne : (order.status != "pending") = true := by simpa using hst
  cases hv : env.isValid orderId
  · simp [deleteOrder, hv]
  · simp [deleteOrder, hv, hfind, hne]

/-- Claim C26: for an order with two or more suborders, the status stored by a
successful `updateOrderStatus` is one of `processing`, `shipped`, `delivered`,
`cancelled` and so never `pending`, whatever the suborder statuses are; and a
`deleteOrder` of that order afterwards is rejected with 400, the store
unchanged. -/
theorem updateOrderStatus_multi_never_pending (env : Env) (db db' : Store)
    (body : UpdateStatusBody) (resp : Response) (order : Order)
    (hfind : Order.findById db.orders body.orderId = some order)
    (hlen : 2 ≤ order.suborders.length)
    (hrun : updateOrderStatus env db body = (db', resp)) (hok : resp.code = 200) :
    ∃ o, Order.findById db'.orders body.orderId = some o ∧
      o.suborders.length = order.suborders.length ∧
      o.status ∈ ["processing", "shipped", "delivered", "cancelled"] ∧
      o.status ≠ "pending" ∧
      ∀ env2, (deleteOrder env2 db' body.orderId).1 = db' ∧
        (deleteOrder env2 db' body.orderId).2.code = 400 := by
  obtain ⟨order', -, hfind', -, -, hstored⟩ :=
    updateOrderStatus_ok env db db' body resp hrun hok
  rw [hfind] at hfind'
  cases hfind'
  have hlen' : (writeSuborder env order body).suborders.length = order.suborders.length := by
    simp only [writeSuborder, length_modifyFirst]
  have hmem : (applyStatusUpdate env order body).status
      ∈ ["processing", "shipped", "delivered", "cancelled"] := by
    rw [applyStatusUpdate_status, recomputeStatus_status_of_many _ _ (by omega)]
    exact precedenceTable_mem _
  have hne : (applyStatusUpdate env order body).status ≠ "pending" := by
    intro hc
    rw [hc] at hmem
    exact absurd hmem (by decide)
  refine ⟨_, hstored, ?_, hmem, hne, ?_⟩
  · rw [applyStatusUpdate_suborders, hlen']
  · intro env2
    exact deleteOrder_of_not_pending env2 db' body.orderId _ hstored hne

/-- Witness for C26: in an order with two `pending` suborders one suborder is
written `pending` again; the order's status becomes `processing`. -/
theorem updateOrderStatus_multi_never_pending_witness :
    ∃ o, Order.findById
        (updateOrderStatus demoEnv pendingPairStore
          ⟨"65a000000000000000000305", "65a000000000000000000405", "pending"⟩).1.orders
        "65a000000000000000000305" = some o ∧
      o.suborders.length = 2 ∧
      o.status ∈ ["processing", "shipped", "delivered", "cancelled"] ∧
      o.status ≠ "pending" ∧
      ∀ env2, (deleteOrder env2
          (updateOrderStatus demoEnv pendingPairStore
            ⟨"65a000000000000000000305", "65a000000000000000000405", "pending"⟩).1
          "65a000000000000000000305").1
        = (updateOrderStatus demoEnv pendingPairStore
            ⟨"65a000000000000000000305", "65a000000000000000000405", "pending"⟩).1 ∧
        (deleteOrder env2
          (updateOrderStatus demoEnv pendingPairStore
            ⟨"65a000000000000000000305", "65a000000000000000000405", "pending"⟩).1
          "65a000000000000000000305").2.code = 400 :=
  updateOrderStatus_multi_never_pending demoEnv pendingPairStore _
    ⟨"65a000000000000000000305", "65a000000000000000000405", "pending"⟩ _
    { _id := ⟨"65a000000000000000000305"⟩
      userId := buyerId
      items := [⟨penId, sellerA, 2, 3⟩, ⟨cupId, sellerB, 1, 5⟩]
      suborders :=
        [⟨⟨"65a000000000000000000405"⟩, sellerA, [⟨penId, sellerA, 2, 3⟩], 6, "pending",
           none⟩,
         ⟨⟨"65a000000000000000000406"⟩, sellerB, [⟨cupId, sellerB, 1, 5⟩], 5, "pending",
           none⟩]
      shippingInfo := ⟨"1 Main Street"⟩
      deliveryMethod := some "standard"
      paymentMethod := "cod"
      subtotal := 11
      shipping := 1
      tax := 0
      total := 12
      paymentStatus := "pending"
      stripePaymentIntentId := none
      status := "pending"
      statusUpdatedAt := none }
    (by rfl) (by decide) rfl (by decide)

theorem precedenceTable_fallback_iff (l : List String)
    (henum : ∀ x ∈ l, x ∈ ["pending", "processing", "shipped", "delivered", "cancelled"]) :
    (precedenceTable l = "processing" ∧ ∀ x ∈ l, x ≠ "processing") ↔
      ((∀ x ∈ l, x = "pending" ∨ x = "cancelled") ∧ ∃ x ∈ l, x = "pending") := by
  constructor
  · rintro ⟨hres, hnp⟩
    have h1 : ¬ ∃ s ∈ l, s = "processing" := fun ⟨s, hs, hsp⟩ => hnp s hs hsp
    unfold precedenceTable at hres
    rw [if_neg h1] at hres
    by_cases hd : ∀ s ∈ l, s = "delivered"
    · rw [if_pos hd] at hres
      exact absurd hres (by decide)
    rw [if_neg hd] at hres
    by_cases hc : ∀ s ∈ l, s = "cancelled"
    · rw [if_pos hc] at hres
      exact absurd hres (by decide)
    rw [if_neg hc] at hres
    by_cases hs : (∃ s ∈ l, s = "shipped") ∨
        ((∃ s ∈ l, s = "delivered") ∧ ∃ s ∈ l, s ≠ "delivered")
    · rw [if_pos hs] at hres
      exact absurd hres (by decide)
    have hnd : ∃ s ∈ l, s ≠ "delivered" := by
      by_contra hcon
      apply hd
      intro s hs'
      by_contra hne
      exact hcon ⟨s, hs', hne⟩
    have hkind : ∀ x ∈ l, x = "pending" ∨ x = "cancelled" := by
      intro x hx
      have hx5 := henum x hx
      simp only [List.mem_cons, List.mem_singleton, List.not_mem_nil, or_false] at hx5
      rcases hx5 with h | h | h | h | h
      · exact Or.inl h
      · exact absurd h (hnp x hx)
      · exact absurd (Or.inl ⟨x, hx, h⟩) hs
      · exact absurd (Or.inr ⟨⟨x, hx, h⟩, hnd⟩) hs
      · exact Or.inr h
    refine ⟨hkind, ?_⟩
    by_contra hcon
    apply hc
    intro s hs'
    rcases hkind s hs' with h | h
    · exact absurd ⟨s, hs', h⟩ hcon
    · exact h
  · rintro ⟨hkind, x, hx, hxp⟩
    have hnp : ∀ y ∈ l, y ≠ "processing" := by
      intro y hy hc
      rcases hkind y hy with h | h <;> rw [h] at hc <;> exact absurd hc (by decide)
    refine ⟨?_, hnp⟩
    have h1 : ¬ ∃ s ∈ l, s = "processing" := fun ⟨s, hs, hsp⟩ => hnp s hs hsp
    have h2 : ¬ ∀ s ∈ l, s = "delivered" := by
      intro hc
      have := hc x hx
      rw [hxp] at this
      exact absurd this (by decide)
    have h3 : ¬ ∀ s ∈ l, s = "cancelled" := by
      intro hc
      have := hc x hx
      rw [hxp] at this
      exact absurd this (by decide)
    have h4 : ¬ ((∃ s ∈ l, s = "shipped") ∨
        ((∃ s ∈ l, s = "delivered") ∧ ∃ s ∈ l, s ≠ "delivered")) := by
      rintro (⟨s, hs, hc⟩ | ⟨⟨s, hs, hc⟩, -⟩) <;>
        rcases hkind s hs with h | h <;> rw [h] at hc <;> exact absurd hc (by decide)
    unfold precedenceTable
    rw [if_neg h1, if_neg h2, if_neg h3, if_neg h4]

theorem precedenceTable_shipped_iff (l : List String) (hnp : ∀ x ∈ l, x ≠ "processing")
    (hnd : ¬ ∀ x ∈ l, x = "delivered") :
    precedenceTable l = "shipped" ↔ ∃ x ∈ l, x = "shipped" ∨ x = "delivered" := by
  have h1 : ¬ ∃ s ∈ l, s = "processing" := fun ⟨s, hs, hsp⟩ => hnp s hs hsp
  have hex : ∃ s ∈ l, s ≠ "delivered" := by
    by_contra hcon
    apply hnd
    intro s hs'
    by_contra hne
    exact hcon ⟨s, hs', hne⟩
  unfold precedenceTable
  rw [if_neg h1, if_neg hnd]
  constructor
  · intro hres
    by_cases hc : ∀ s ∈ l, s = "cancelled"
    · rw [if_pos hc] at hres
      exact absurd hres (by decide)
    rw [if_neg hc] at hres
    by_cases hs : (∃ s ∈ l, s = "shipped") ∨
        ((∃ s ∈ l, s = "delivered") ∧ ∃ s ∈ l, s ≠ "delivered")
    · rcases hs with ⟨s, hs', h⟩ | ⟨⟨s, hs', h⟩, -⟩
      · exact ⟨s, hs', Or.inl h⟩
      · exact ⟨s, hs', Or.inr h⟩
    · rw [if_neg hs] at hres
      exact absurd hres (by decide)
  · rintro ⟨x, hx, hxs⟩
    have hc : ¬ ∀ s ∈ l, s = "cancelled" := by
      intro hc
      have := hc x hx
      rcases hxs with h | h <;> rw [h] at this <;> exact absurd this (by decide)
    have hs : (∃ s ∈ l, s = "shipped") ∨
        ((∃ s ∈ l, s = "delivered") ∧ ∃ s ∈ l, s ≠ "delivered") := by
      rcases hxs with h | h
      · exact Or.inl ⟨x, hx, h⟩
      · exact Or.inr ⟨⟨x, hx, h⟩, hex⟩
    rw [if_neg hc, if_pos hs]

theorem status_mem_modifyFirst (id status : String) (t : Option Nat) (subs : List Suborder)
    (x : String)
    (hx : x ∈ (modifyFirst (fun sub => sub._id.toString == id)
      (fun sub => { sub with status := status, statusUpdatedAt := t }) subs).map
      (fun sub => sub.status)) :
    x ∈ subs.map (fun sub => sub.status) ∨ x = status := by
  induction subs with
  | nil => simp [modifyFirst] at hx
  | cons a as ih =>
    by_cases ha : a._id.toString = id
    · simp only [modifyFirst, ha, beq_self_eq_true, if_true, List.map_cons, List.mem_cons] at hx
      rcases hx with h | h
      · exact Or.inr h
      · exact Or.inl (List.mem_cons_of_mem _ h)
    · simp only [modifyFirst, beq_iff_eq, ha, if_false, List.map_cons, List.mem_cons] at hx
      rcases hx with h | h
      · exact Or.inl (by rw [h]; exact List.mem_cons_self _ _)
      · rcases ih h with h' | h'
        · exact Or.inl (List.mem_cons_of_mem _ h')
        · exact Or.inr h'

/-- Claim C27: for an order with two or more suborders whose statuses are among
the five values, after a successful `updateOrderStatus` the stored status is
`processing` with no suborder `processing` if and only if every suborder is
`pending` or `cancelled` and at least one is `pending`; and when no suborder is
`processing` and not all are `delivered`, the stored status is `shipped`
exactly when some suborder is `shipped` or `delivered`. -/
theorem updateOrderStatus_fallback_iff (env : Env) (db db' : Store)
    (body : UpdateStatusBody) (resp : Response) (order : Order)
    (hfind : Order.findById db.orders body.orderId = some order)
    (hlen : 2 ≤ order.suborders.length)
    (henum : ∀ x ∈ order.suborders.map (fun sub => sub.status),
      x ∈ ["pending", "processing", "shipped", "delivered", "cancelled"])
    (hrun : updateOrderStatus env db body = (db', resp)) (hok : resp.code = 200) :
    ∃ o, Order.findById db'.orders body.orderId = some o ∧
      ((o.status = "processing" ∧
          ∀ x ∈ o.suborders.map (fun sub => sub.status), x ≠ "processing") ↔
        ((∀ x ∈ o.suborders.map (fun sub => sub.status), x = "pending" ∨ x = "cancelled") ∧
          ∃ x ∈ o.suborders.map (fun sub => sub.status), x = "pending")) ∧
      ((∀ x ∈ o.suborders.map (fun sub => sub.status), x ≠ "processing") →
        (¬ ∀ x ∈ o.suborders.map (fun sub => sub.status), x = "delivered") →
        (o.status = "shipped" ↔
          ∃ x ∈ o.suborders.map (fun sub => sub.status), x = "shipped" ∨ x = "delivered")) := by
  obtain ⟨order', -, hfind', -, hst, hstored⟩ :=
    updateOrderStatus_ok env db db' body resp hrun hok
  rw [hfind] at hfind'
  cases hfind'
  have hlen' : (writeSuborder env order body).suborders.length ≠ 1 := by
    simp only [writeSuborder, length_modifyFirst]
    omega
  have hstatus : (applyStatusUpdate env order body).status
      = precedenceTable ((writeSuborder env order body).suborders.map (fun sub => sub.status)) := by
    rw [applyStatusUpdate_status, recomputeStatus_status_of_many _ _ hlen']
  have henum' : ∀ x ∈ (writeSuborder env order body).suborders.map (fun sub => sub.status),
      x ∈ ["pending", "processing", "shipped", "delivered", "cancelled"] := by
    intro x hx
    rcases status_mem_modifyFirst _ _ _ _ x hx with h | h
    · exact henum x h
    · rw [h]
      simpa [allowedStatuses] using hst
  refine ⟨_, hstored, ?_, ?_⟩
  · rw [hstatus, applyStatusUpdate_suborders]
    exact precedenceTable_fallback_iff _ henum'
  · rw [hstatus, applyStatusUpdate_suborders]
    exact precedenceTable_shipped_iff _

/-- Witness for C27: in an order with two `pending` suborders one suborder is
set to `cancelled`. -/
theorem updateOrderStatus_fallback_iff_witness :
    ∃ o, Order.findById
        (updateOrderStatus demoEnv pendingPairStore
          ⟨"65a000000000000000000305", "65a000000000000000000405", "cancelled"⟩).1.orders
        "65a000000000000000000305" = some o ∧
      ((o.status = "processing" ∧
          ∀ x ∈ o.suborders.map (fun sub => sub.status), x ≠ "processing") ↔
        ((∀ x ∈ o.suborders.map (fun sub => sub.status), x = "pending" ∨ x = "cancelled") ∧
          ∃ x ∈ o.suborders.map (fun sub => sub.status), x = "pending")) ∧
      ((∀ x ∈ o.suborders.map (fun sub => sub.status), x ≠ "processing") →
        (¬ ∀ x ∈ o.suborders.map (fun sub => sub.status), x = "delivered") →
        (o.status = "shipped" ↔
          ∃ x ∈ o.suborders.map (fun sub => sub.status), x = "shipped" ∨ x = "delivered")) :=
  updateOrderStatus_fallback_iff demoEnv pendingPairStore _
    ⟨"65a000000000000000000305", "65a000000000000000000405", "cancelled"⟩ _
    { _id := ⟨"65a000000000000000000305"⟩
      userId := buyerId
      items := [⟨penId, sellerA, 2, 3⟩, ⟨cupId, sellerB, 1, 5⟩]
      suborders :=
        [⟨⟨"65a000000000000000000405"⟩, sellerA, [⟨penId, sellerA, 2, 3⟩], 6, "pending",
           none⟩,
         ⟨⟨"65a000000000000000000406"⟩, sellerB, [⟨cupId, sellerB, 1, 5⟩], 5, "pending",
           none⟩]
      shippingInfo := ⟨"1 Main Street"⟩
      deliveryMethod := some "standard"
      paymentMethod := "cod"
      subtotal := 11
      shipping := 1
      tax := 0
      total := 12
      paymentStatus := "pending"
      stripePaymentIntentId := none
      status := "pending"
      statusUpdatedAt := none }
    (by rfl) (by decide) (by decide) rfl (by decide)

/-! ## Payment reference of a new order -/

/-- A `createOrder` call answered with 201 passed the payment check. -/
theorem createOrder_payment_checked (env : Env) (db db' : Store) (body : CreateOrderBody)
    (resp : Response) (hrun : createOrder env db body = (db', resp)) (hok : resp.code = 201) :
    ∃ paymentMethod, body.paymentMethod = some paymentMethod ∧
      (paymentMethod == "stripe" && paymentResultRejected body.paymentResult) = false := by
  unfold createOrder at hrun
  split at hrun
  · rename_i userId items shippingInfo paymentMethod hu hi hs hp
    split at hrun
    · cases hrun; simp at hok
    split at hrun
    · cases hrun; simp at hok
    rename_i hpay
    exact ⟨paymentMethod, hp, by simpa using hpay⟩
  · cases hrun; simp at hok

theorem paymentResult_of_not_rejected (result : Option PaymentResult)
    (h : paymentResultRejected result = false) :
    ∃ r id, result = some r ∧ r.id = some id ∧ id ≠ "" ∧ r.status = some "succeeded" := by
  cases result with
  | none => simp [paymentResultRejected] at h
  | some r =>
    simp only [paymentResultRejected, Bool.or_eq_false_iff, Bool.not_eq_false',
      bne_eq_false_iff_eq] at h
    obtain ⟨hid, hst⟩ := h
    cases hrid : r.id with
    | none => rw [hrid] at hid; simp [truthy] at hid
    | some id =>
      rw [hrid] at hid
      refine ⟨r, id, rfl, hrid, ?_, hst⟩
      simpa [truthy] using hid

/-- Claim C22: the order stored by a successful `createOrder` has the
request's paymentMethod; when that is `stripe` the request carried a
succeeded payment confirmation with an id, the stored stripePaymentIntentId is
that id and the paymentStatus is `paid`; otherwise no stripePaymentIntentId is
stored and the paymentStatus is `pending`. -/
theorem createOrder_payment_reference (env : Env) (db db' : Store) (body : CreateOrderBody)
    (resp : Response) (hrun : createOrder env db body = (db', resp)) (hok : resp.code = 201) :
    ∃ o paymentMethod, db'.orders = db.orders ++ [o] ∧
      body.paymentMethod = some paymentMethod ∧ o.paymentMethod = paymentMethod ∧
      (paymentMethod = "stripe" →
        ∃ r id, body.paymentResult = some r ∧ r.id = some id ∧ id ≠ "" ∧
          r.status = some "succeeded" ∧
          o.stripePaymentIntentId = some id ∧ o.paymentStatus = "paid") ∧
      (paymentMethod ≠ "stripe" →
        o.stripePaymentIntentId = none ∧ o.paymentStatus = "pending") ∧
      ((o.stripePaymentIntentId ≠ none ↔ paymentMethod = "stripe") ∧
        (o.paymentStatus = "paid" ↔ paymentMethod = "stripe")) := by
  obtain ⟨userId, items, shippingInfo, paymentMethod, -, -, -, hp, -, -, -, hord, -, -, -⟩ :=
    createOrder_created env db db' body resp hrun hok
  obtain ⟨paymentMethod', hp', hpay⟩ := createOrder_payment_checked env db db' body resp hrun hok
  rw [hp] at hp'
  cases hp'
  have hstripe : paymentMethod = "stripe" →
      ∃ r id, body.paymentResult = some r ∧ r.id = some id ∧ id ≠ "" ∧
        r.status = some "succeeded" ∧
        (Order.new env userId items (groupBySeller items) shippingInfo body.deliveryMethod
          paymentMethod body.subtotal body.shipping body.tax body.total
          (if paymentMethod == "stripe" then "paid" else "pending")
          (if paymentMethod == "stripe" then body.paymentResult.bind (fun r => r.id)
            else none)).stripePaymentIntentId = some id ∧
        (Order.new env userId items (groupBySeller items) shippingInfo body.deliveryMethod
          paymentMethod body.subtotal body.shipping body.tax body.total
          (if paymentMethod == "stripe" then "paid" else "pending")
          (if paymentMethod == "stripe" then body.paymentResult.bind (fun r => r.id)
            else none)).paymentStatus = "paid" := by
    intro hs
    subst hs
    have hrej : paymentResultRejected body.paymentResult = false := by simpa using hpay
    obtain ⟨r, id, hr, hid, hne, hst⟩ := paymentResult_of_not_rejected _ hrej
    refine ⟨r, id, hr, hid, hne, hst, ?_, ?_⟩
    · simp [Order.new, hr, hid]
    · simp [Order.new]
  have hother : paymentMethod ≠ "stripe" →
      (Order.new env userId items (groupBySeller items) shippingInfo body.deliveryMethod
          paymentMethod body.subtotal body.shipping body.tax body.total
          (if paymentMethod == "stripe" then "paid" else "pending")
          (if paymentMethod == "stripe" then body.paymentResult.bind (fun r => r.id)
            else none)).stripePaymentIntentId = none ∧
        (Order.new env userId items (groupBySeller items) shippingInfo body.deliveryMethod
          paymentMethod body.subtotal body.shipping body.tax body.total
          (if paymentMethod == "stripe" then "paid" else "pending")
          (if paymentMethod == "stripe" then body.paymentResult.bind (fun r => r.id)
            else none)).paymentStatus = "pending" := by
    intro hs
    simp [Order.new, hs]
  refine ⟨_, paymentMethod, hord, hp, rfl, hstripe, hother, ?_, ?_⟩
  · constructor
    · intro hset
      by_contra hs
      exact hset (hother hs).1
    · intro hs
      obtain ⟨r, id, -, -, -, -, hint, -⟩ := hstripe hs
      rw [hint]
      simp
  · constructor
    · intro hpaid
      by_contra hs
      rw [(hother hs).2] at hpaid
      exact absurd hpaid (by decide)
    · intro hs
      obtain ⟨r, id, -, -, -, -, -, hpaid⟩ := hstripe hs
      exact hpaid

/-- Witness for C22: the sample cart paid by `stripe` with the succeeded
confirmation "pi_7". -/
theorem createOrder_payment_reference_witness :
    ∃ o paymentMethod,
      (createOrder demoEnv demoStore paidStripeBody).1.orders = demoStore.orders ++ [o] ∧
      paidStripeBody.paymentMethod = some paymentMethod ∧ o.paymentMethod = paymentMethod ∧
      (paymentMethod = "stripe" →
        ∃ r id, paidStripeBody.paymentResult = some r ∧ r.id = some id ∧ id ≠ "" ∧
          r.status = some "succeeded" ∧
          o.stripePaymentIntentId = some id ∧ o.paymentStatus = "paid") ∧
      (paymentMethod ≠ "stripe" →
        o.stripePaymentIntentId = none ∧ o.paymentStatus = "pending") ∧
      ((o.stripePaymentIntentId ≠ none ↔ paymentMethod = "stripe") ∧
        (o.paymentStatus = "paid" ↔ paymentMethod = "stripe")) :=
  createOrder_payment_reference demoEnv demoStore _ paidStripeBody _ rfl (by decide)

/-! ## Partial effects of failed calls -/

theorem decrementStock_split (env : Env) (start products1 : List Product)
    (items : List Item) (item : Item)
    (h : decrementStock env start items = (products1, some item)) :
    ∃ pre post, items = pre ++ item :: post ∧
      decrementStock env start pre = (products1, none) ∧
      Product.findOneAndUpdate products1 (castItem env item).productId item.sellerId
        (-item.quantity) = none := by
  induction items generalizing start with
  | nil => simp [decrementStock] at h
  | cons x xs ih =>
    unfold decrementStock at h
    split at h
    · rename_i hupd
      simp only [Prod.mk.injEq, Option.some.injEq] at h
      obtain ⟨rfl, rfl⟩ := h
      exact ⟨[], xs, rfl, rfl, hupd⟩
    · rename_i products' hupd
      obtain ⟨pre, post, hsplit, hpre, hfail⟩ := ih _ h
      refine ⟨x :: pre, post, by rw [hsplit]; rfl, ?_, hfail⟩
      simp only [decrementStock, hupd]
      exact hpre

theorem decrementStock_eq_foldl (env : Env) (start reached : List Product)
    (items : List Item) (h : decrementStock env start items = (reached, none)) :
    reached = items.foldl
      (fun ps it => incPair ps (castItem env it).productId it.sellerId (-it.quantity))
      start := by
  induction items generalizing start with
  | nil =>
    simp only [decrementStock, Prod.mk.injEq, and_true] at h
    rw [h]
    rfl
  | cons x xs ih =>
    unfold decrementStock at h
    rw [findOneAndUpdate_eq_incPair] at h
    by_cases hany : start.any (matchesPair (castItem env x).productId x.sellerId) = true
    · simp only [hany, if_true] at h
      rw [List.foldl_cons]
      exact ih _ h
    · simp [hany] at h

/-- Claim C28: when the request has passed its checks and, on the store as
other requests have left it, the stock loop fails at a line item, the line
items before it had their quantities subtracted and stay so: the catalog after
the call is the one reached by those decrements, nothing is added back, while
the order saved by the call is gone and the answer is 500. -/
theorem createOrderInterleaved_keeps_partial_decrements (env : Env) (db : Store)
    (body : CreateOrderBody) (concurrent : Store → Store) (userId : ObjectId)
    (items : List Item) (shippingInfo : ShippingInfo) (paymentMethod : String)
    (buyer : ObjectId) (user : User)
    (products1 : List Product) (item : Item)
    (hu : body.userId = some userId) (hi : body.items = some items)
    (hs : body.shippingInfo = some shippingInfo) (hp : body.paymentMethod = some paymentMethod)
    (hfields : (userId.toString == "" || items.length == 0 || paymentMethod == "") = false)
    (hpay : (paymentMethod == "stripe" && paymentResultRejected body.paymentResult) = false)
    (hval : validateItems env db.products items = none)
    (hcast : env.castId userId.toString = some buyer)
    (huser : User.findById db.users buyer = some user)
    (hfresh : ∀ o ∈ (concurrent db).orders, o._id ≠ env.newId 0)
    (hdec : decrementStock env (concurrent db).products items = (products1, some item)) :
    ∃ pre post, items = pre ++ item :: post ∧
      decrementStock env (concurrent db).products pre = (products1, none) ∧
      products1 = pre.foldl
        (fun ps it => incPair ps (castItem env it).productId it.sellerId (-it.quantity))
        (concurrent db).products ∧
      (createOrderInterleaved env db body concurrent).1.products = products1 ∧
      (createOrderInterleaved env db body concurrent).1.orders = (concurrent db).orders ∧
      (createOrderInterleaved env db body concurrent).2.code = 500 := by
  have hrun : createOrderInterleaved env db body concurrent =
      ({ concurrent db with products := products1 },
        ⟨500, "Failed to update stock for product ID " ++ item.productId.toString,
          none, none⟩) := by
    simp only [createOrderInterleaved, hu, hi, hs, hp, hfields, hpay, hval, hcast, huser, hdec,
      Bool.false_eq_true, if_false]
    rw [deleteOne_append_fresh _ _ (by simpa [Order.new] using hfresh)]
  obtain ⟨pre, post, hsplit, hpre, -⟩ := decrementStock_split _ _ _ _ _ hdec
  refine ⟨pre, post, hsplit, hpre, decrementStock_eq_foldl _ _ _ _ hpre, ?_, ?_, ?_⟩ <;>
    rw [hrun]

/-- Witness for C28: the cart orders 2 pens and then a cup; another request
removed the cup after validation. The call fails at the cup and seller A's
stock of pens stays at 3 instead of 5. -/
theorem createOrderInterleaved_keeps_partial_decrements_witness :
    (∃ pre post,
      [(⟨penId, sellerA, 2, 3⟩ : Item), ⟨cupId, sellerB, 1, 5⟩]
        = pre ++ (⟨cupId, sellerB, 1, 5⟩ : Item) :: post ∧
      decrementStock demoEnv (removeCup demoStore).products pre
        = ([⟨penId, "pen", [⟨sellerA, 3, 3⟩]⟩], none) ∧
      [(⟨penId, "pen", [⟨sellerA, 3, 3⟩]⟩ : Product)] = pre.foldl
        (fun ps it => incPair ps (castItem demoEnv it).productId it.sellerId (-it.quantity))
        (removeCup demoStore).products ∧
      (createOrderInterleaved demoEnv demoStore
          { demoBody with items := some [⟨penId, sellerA, 2, 3⟩, ⟨cupId, sellerB, 1, 5⟩] }
          removeCup).1.products = [⟨penId, "pen", [⟨sellerA, 3, 3⟩]⟩] ∧
      (createOrderInterleaved demoEnv demoStore
          { demoBody with items := some [⟨penId, sellerA, 2, 3⟩, ⟨cupId, sellerB, 1, 5⟩] }
          removeCup).1.orders = (removeCup demoStore).orders ∧
      (createOrderInterleaved demoEnv demoStore
          { demoBody with items := some [⟨penId, sellerA, 2, 3⟩, ⟨cupId, sellerB, 1, 5⟩] }
          removeCup).2.code = 500) ∧
    stockOf demoStore.products penId sellerA = some 5 ∧
    stockOf [⟨penId, "pen", [⟨sellerA, 3, 3⟩]⟩] penId sellerA = some 3 :=
  ⟨createOrderInterleaved_keeps_partial_decrements demoEnv demoStore
      { demoBody with items := some [⟨penId, sellerA, 2, 3⟩, ⟨cupId, sellerB, 1, 5⟩] }
      removeCup buyerId [⟨penId, sellerA, 2, 3⟩, ⟨cupId, sellerB, 1, 5⟩]
      ⟨"1 Main Street"⟩ "cod" buyerId ⟨buyerId, "Ada", "ada@example.org"⟩
      [⟨penId, "pen", [⟨sellerA, 3, 3⟩]⟩] ⟨cupId, sellerB, 1, 5⟩
      rfl rfl rfl rfl (by decide) (by decide) (by decide) (by decide) (by rfl) (by decide)
      (by rfl),
    by decide, by decide⟩

theorem pairs_of_restoreStock (start reached : List Product) (items : List Item)
    (h : restoreStock start items = (reached, none)) :
    ∀ it ∈ items, start.any (matchesPair it.productId it.sellerId) = true := by
  induction items generalizing start with
  | nil => intro it hit; cases hit
  | cons x xs ih =>
    unfold restoreStock at h
    rw [findOneAndUpdate_eq_incPair] at h
    by_cases hany : start.any (matchesPair x.productId x.sellerId) = true
    · simp only [hany, if_true] at h
      intro it hit
      rcases List.mem_cons.1 hit with rfl | hit
      · exact hany
      · have := ih _ h it hit
        rwa [any_matchesPair_incPair] at this
    · simp [hany] at h

theorem restoreStock_of_pairs (start : List Product) (items : List Item)
    (h : ∀ it ∈ items, start.any (matchesPair it.productId it.sellerId) = true) :
    restoreStock start items =
      (items.foldl (fun ps it => incPair ps it.productId it.sellerId it.quantity) start,
        none) := by
  induction items generalizing start with
  | nil => rfl
  | cons x xs ih =>
    unfold restoreStock
    rw [findOneAndUpdate_eq_incPair, if_pos (h x (List.mem_cons_self _ _))]
    simp only [List.foldl_cons]
    apply ih
    intro it hit
    rw [any_matchesPair_incPair]
    exact h it (List.mem_cons_of_mem _ hit)

theorem any_matchesPair_foldl_incPair (items : List Item) (start : List Product)
    (b t : ObjectId) :
    (items.foldl (fun ps it => incPair ps it.productId it.sellerId it.quantity) start).any
        (matchesPair b t) = start.any (matchesPair b t) := by
  induction items generalizing start with
  | nil => rfl
  | cons x xs ih =>
    rw [List.foldl_cons, ih, any_matchesPair_incPair]

/-- Claim C29: when `deleteOrder` of a `pending` order paid by `stripe` has
restored the stock of every line item and the gateway then refuses the refund,
the answer is 500 'Failed to process refund', the catalog keeps the added
quantities, and the order is still stored and `pending`; a second
`deleteOrder` of the same order restores successfully again, so that its
catalog is the original one with every line item's quantity added twice. -/
theorem deleteOrder_refund_failure_restores_twice (env env2 : Env) (db : Store)
    (orderId : String) (order : Order) (intent : String) (products1 : List Product)
    (hvalid : env.isValid orderId = true) (hvalid2 : env2.isValid orderId = true)
    (hfind : Order.findById db.orders orderId = some order)
    (hpending : order.status = "pending") (hpm : order.paymentMethod = "stripe")
    (hint : order.stripePaymentIntentId = some intent) (hne : intent ≠ "")
    (hres : restoreStock db.products order.items = (products1, none))
    (hrefused : env.refundOk intent = false) :
    deleteOrder env db orderId =
      ({ db with products := products1, refunds := db.refunds ++ [intent] },
        ⟨500, "Failed to process refund", none, none⟩) ∧
    products1 = order.items.foldl
      (fun ps it => incPair ps it.productId it.sellerId it.quantity) db.products ∧
    Order.findById (deleteOrder env db orderId).1.orders orderId = some order ∧
    (deleteOrder env2 (deleteOrder env db orderId).1 orderId).1.products
      = order.items.foldl (fun ps it => incPair ps it.productId it.sellerId it.quantity)
          (order.items.foldl (fun ps it => incPair ps it.productId it.sellerId it.quantity)
            db.products) := by
  have hrun : deleteOrder env db orderId =
      ({ db with products := products1, refunds := db.refunds ++ [intent] },
        ⟨500, "Failed to process refund", none, none⟩) := by
    simp [deleteOrder, hvalid, hfind, hpending, hres, hint, hpm, hne, hrefused]
  have hpairs := pairs_of_restoreStock _ _ _ hres
  have hfold : products1 = order.items.foldl
      (fun ps it => incPair ps it.productId it.sellerId it.quantity) db.products := by
    have := restoreStock_of_pairs db.products order.items hpairs
    rw [hres] at this
    exact (Prod.mk.inj this).1
  have hpairs1 : ∀ it ∈ order.items,
      products1.any (matchesPair it.productId it.sellerId) = true := by
    intro it hit
    rw [hfold, any_matchesPair_foldl_incPair]
    exact hpairs it hit
  have hres2 := restoreStock_of_pairs products1 order.items hpairs1
  refine ⟨hrun, hfold, ?_, ?_⟩
  · rw [hrun]
    exact hfind
  · rw [hrun, ← hfold]
    cases hrk : env2.refundOk intent <;>
      simp [deleteOrder, hvalid2, hfind, hpending, hres2, hint, hpm, hne, hrk]

/-- Witness for C29: the gateway refuses the refund of the pending `stripe`
order for one pen; seller A's stock of pens is 4 before, 5 after the failed
call and 6 after a second call. -/
theorem deleteOrder_refund_failure_restores_twice_witness :
    (deleteOrder refusingEnv stripeStore "65a000000000000000000303" =
      ({ stripeStore with
          products := [⟨penId, "pen", [⟨sellerA, 5, 3⟩]⟩]
          refunds := stripeStore.refunds ++ ["pi_9"] },
        ⟨500, "Failed to process refund", none, none⟩) ∧
    [(⟨penId, "pen", [⟨sellerA, 5, 3⟩]⟩ : Product)] = [(⟨penId, sellerA, 1, 3⟩ : Item)].foldl
      (fun ps it => incPair ps it.productId it.sellerId it.quantity) stripeStore.products ∧
    (Order.findById
      (deleteOrder refusingEnv stripeStore "65a000000000000000000303").1.orders
      "65a000000000000000000303").map (fun o => o.status) = some "pending" ∧
    (deleteOrder refusingEnv
      (deleteOrder refusingEnv stripeStore "65a000000000000000000303").1
      "65a000000000000000000303").1.products
      = [(⟨penId, sellerA, 1, 3⟩ : Item)].foldl
          (fun ps it => incPair ps it.productId it.sellerId it.quantity)
          ([(⟨penId, sellerA, 1, 3⟩ : Item)].foldl
            (fun ps it => incPair ps it.productId it.sellerId it.quantity)
            stripeStore.products)) ∧
    stockOf stripeStore.products penId sellerA = some 4 ∧
    stockOf (deleteOrder refusingEnv
      (deleteOrder refusingEnv stripeStore "65a000000000000000000303").1
      "65a000000000000000000303").1.products penId sellerA = some 6 :=
  ⟨(fun h => ⟨h.1, h.2.1, by rw [h.2.2.1]; rfl, h.2.2.2⟩)
    (deleteOrder_refund_failure_restores_twice refusingEnv refusingEnv stripeStore
      "65a000000000000000000303"
      { _id := ⟨"65a000000000000000000303"⟩
        userId := buyerId
        items := [⟨penId, sellerA, 1, 3⟩]
        suborders :=
          [⟨⟨"65a000000000000000000404"⟩, sellerA, [⟨penId, sellerA, 1, 3⟩], 3, "pending",
            none⟩]
        shippingInfo := ⟨"1 Main Street"⟩
        deliveryMethod := some "standard"
        paymentMethod := "stripe"
        subtotal := 3
        shipping := 1
        tax := 0
        total := 4
        paymentStatus := "paid"
        stripePaymentIntentId := some "pi_9"
        status := "pending"
        statusUpdatedAt := none }
      "pi_9" [⟨penId, "pen", [⟨sellerA, 5, 3⟩]⟩]
      (by decide) (by decide) (by rfl) rfl rfl rfl (by decide) (by rfl) rfl),
    by decide, by decide⟩

/-! ## Seller statistics -/

theorem foldl_countSuborder (subs : List Suborder) (st : SellerStats) :
    subs.foldl countSuborder st =
      { totalOrders := st.totalOrders
        pending := st.pending + subs.countP (fun sub => sub.status == "pending")
        processing := st.processing + subs.countP (fun sub => sub.status == "processing")
        shipped := st.shipped + subs.countP (fun sub => sub.status == "shipped")
        delivered := st.delivered + subs.countP (fun sub => sub.status == "delivered") } := by
  induction subs generalizing st with
  | nil => rfl
  | cons a as ih =>
    rw [List.foldl_cons, ih]
    simp only [List.countP_cons, countSuborder]
    by_cases h1 : a.status = "pending"
    · simp [h1]
      omega
    by_cases h2 : a.status = "processing"
    · simp [h2]
      omega
    by_cases h3 : a.status = "shipped"
    · simp [h3]
      omega
    by_cases h4 : a.status = "delivered"
    · simp [h4]
      omega
    simp [h1, h2, h3, h4]

theorem countOrder_eq (sellerId : String) (st : SellerStats) (order : Order) :
    countOrder sellerId st order =
      { totalOrders := st.totalOrders +
          order.suborders.countP (fun sub => sub.sellerId.toString == sellerId)
        pending := st.pending + order.suborders.countP (fun sub =>
          sub.sellerId.toString == sellerId && sub.status == "pending")
        processing := st.processing + order.suborders.countP (fun sub =>
          sub.sellerId.toString == sellerId && sub.status == "processing")
        shipped := st.shipped + order.suborders.countP (fun sub =>
          sub.sellerId.toString == sellerId && sub.status == "shipped")
        delivered := st.delivered + order.suborders.countP (fun sub =>
          sub.sellerId.toString == sellerId && sub.status == "delivered") } := by
  have hfilter : ∀ q : Suborder → Bool,
      (order.suborders.filter (fun sub => sub.sellerId.toString == sellerId)).countP q
        = order.suborders.countP (fun sub => sub.sellerId.toString == sellerId && q sub) := by
    intro q
    induction order.suborders with
    | nil => rfl
    | cons a as ih =>
      by_cases ha : a.sellerId.toString = sellerId
      · simp [List.filter_cons, List.countP_cons, ha, ih]
      · simp [List.filter_cons, List.countP_cons, ha, ih]
  have hlen : (order.suborders.filter (fun sub => sub.sellerId.toString == sellerId)).length
      = order.suborders.countP (fun sub => sub.sellerId.toString == sellerId) := by
    rw [List.countP_eq_length_filter]
  simp only [countOrder, foldl_countSuborder, hfilter, hlen]

theorem foldl_countOrder (sellerId : String) (orders : List Order) (st : SellerStats) :
    orders.foldl (countOrder sellerId) st =
      { totalOrders := st.totalOrders + countSellerAll orders sellerId
        pending := st.pending + countSellerSuborders orders sellerId "pending"
        processing := st.processing + countSellerSuborders orders sellerId "processing"
        shipped := st.shipped + countSellerSuborders orders sellerId "shipped"
        delivered := st.delivered + countSellerSuborders orders sellerId "delivered" } := by
  induction orders generalizing st with
  | nil => rfl
  | cons o os ih =>
    rw [List.foldl_cons, ih, countOrder_eq]
    simp only [countSellerAll, countSellerSuborders, List.map_cons, List.sum_cons,
      SellerStats.mk.injEq]
    refine ⟨?_, ?_, ?_, ?_, ?_⟩ <;> omega

/-- An order that the query of `getSellerStats` leaves out has no suborder of
the seller. -/
theorem countP_eq_zero_of_not_any (sellerId : String) (o : Order) (q : Suborder → Bool)
    (h : o.suborders.any (fun sub => sub.sellerId == (⟨sellerId⟩ : ObjectId)) = false) :
    o.suborders.countP (fun sub => sub.sellerId.toString == sellerId && q sub) = 0 := by
  rw [List.countP_eq_zero]
  intro sub hsub
  rw [List.any_eq_false] at h
  have hne := h sub hsub
  have hstr : (sub.sellerId.toString == sellerId) = false := by
    have := toString_beq sub.sellerId ⟨sellerId⟩
    simp only [ObjectId.toString] at this ⊢
    rw [this]
    simpa using hne
  simp [hstr]

theorem countSellerSuborders_filter (orders : List Order) (sellerId status : String) :
    countSellerSuborders
        (orders.filter (fun order =>
          order.suborders.any (fun sub => sub.sellerId == (⟨sellerId⟩ : ObjectId))))
        sellerId status
      = countSellerSuborders orders sellerId status := by
  induction orders with
  | nil => rfl
  | cons o os ih =>
    unfold countSellerSuborders at ih ⊢
    by_cases ho : o.suborders.any (fun sub => sub.sellerId == (⟨sellerId⟩ : ObjectId)) = true
    · simp only [List.filter_cons, ho, if_true, List.map_cons, List.sum_cons, ih]
    · have ho' : o.suborders.any (fun sub => sub.sellerId == (⟨sellerId⟩ : ObjectId))
          = false := by simpa using ho
      have hz := countP_eq_zero_of_not_any sellerId o (fun sub => sub.status == status) ho'
      simp only [List.filter_cons, ho', Bool.false_eq_true, if_false, List.map_cons,
        List.sum_cons, ih, hz, Nat.zero_add]

theorem countSellerAll_filter (orders : List Order) (sellerId : String) :
    countSellerAll
        (orders.filter (fun order =>
          order.suborders.any (fun sub => sub.sellerId == (⟨sellerId⟩ : ObjectId))))
        sellerId
      = countSellerAll orders sellerId := by
  induction orders with
  | nil => rfl
  | cons o os ih =>
    unfold countSellerAll at ih ⊢
    by_cases ho : o.suborders.any (fun sub => sub.sellerId == (⟨sellerId⟩ : ObjectId)) = true
    · simp only [List.filter_cons, ho, if_true, List.map_cons, List.sum_cons, ih]
    · have ho' : o.suborders.any (fun sub => sub.sellerId == (⟨sellerId⟩ : ObjectId))
          = false := by simpa using ho
      have hz := countP_eq_zero_of_not_any sellerId o (fun _ => true) ho'
      simp only [Bool.and_true] at hz
      simp only [List.filter_cons, ho', Bool.false_eq_true, if_false, List.map_cons,
        List.sum_cons, ih, hz, Nat.zero_add]

/-- Counterexample to C23: seller A has a single suborder, which is
`cancelled`; the statistics returned for seller A carry no count for
`cancelled`, and the four counts they carry add up to 0 while the total is 1. -/
theorem getSellerStats_no_cancelled_count :
    countSellerSuborders cancelledStore.orders "65a00000000000000000000a" "cancelled" = 1 ∧
    (getSellerStats demoEnv cancelledStore "65a00000000000000000000a").stats
      = some ⟨1, 0, 0, 0, 0⟩ ∧
    ¬ ∀ status ∈ ["pending", "processing", "shipped", "delivered", "cancelled"],
      (getSellerStats demoEnv cancelledStore "65a00000000000000000000a").stats.bind
          (fun stats => stats.get status)
        = some (countSellerSuborders cancelledStore.orders "65a00000000000000000000a" status) := by
  refine ⟨by decide, by decide, ?_⟩
  intro hall
  have h := hall "cancelled" (by decide)
  revert h
  decide

/-- Claim C23, amended: for a well-formed seller identifier `getSellerStats`
answers 200 with statistics that give, for each of the statuses `pending`,
`processing`, `shipped` and `delivered`, the number of the seller's suborders
with that status over all orders, and as `totalOrders` the number of all the
seller's suborders; the statistics have no entry for `cancelled`. -/
theorem getSellerStats_counts (env : Env) (db : Store) (sellerId : String)
    (hvalid : env.isValid sellerId = true) :
    ∃ stats, getSellerStats env db sellerId
        = ⟨200, "Stats retrieved successfully", some stats⟩ ∧
      (∀ status ∈ ["pending", "processing", "shipped", "delivered"],
        stats.get status = some (countSellerSuborders db.orders sellerId status)) ∧
      stats.get "totalOrders" = some (countSellerAll db.orders sellerId) ∧
      stats.get "cancelled" = none := by
  refine ⟨(db.orders.filter (fun order =>
      order.suborders.any (fun sub => sub.sellerId == (⟨sellerId⟩ : ObjectId)))).foldl
      (countOrder sellerId) ⟨0, 0, 0, 0, 0⟩, ?_, ?_, ?_, ?_⟩
  · simp only [getSellerStats, hvalid, Bool.not_true, Bool.false_eq_true, if_false]
  · intro status hstatus
    rw [foldl_countOrder]
    simp only [List.mem_cons, List.mem_singleton, List.not_mem_nil, or_false] at hstatus
    rcases hstatus with rfl | rfl | rfl | rfl <;>
      simp [SellerStats.get, countSellerSuborders_filter]
  · rw [foldl_countOrder]
    simp [SellerStats.get, countSellerAll_filter]
  · simp [SellerStats.get]

/-- Witness for C23 as amended: the statistics of seller A over the sample
store. -/
theorem getSellerStats_counts_witness :
    ∃ stats, getSellerStats demoEnv demoStore "65a00000000000000000000a"
        = ⟨200, "Stats retrieved successfully", some stats⟩ ∧
      (∀ status ∈ ["pending", "processing", "shipped", "delivered"],
        stats.get status
          = some (countSellerSuborders demoStore.orders "65a00000000000000000000a" status)) ∧
      stats.get "totalOrders"
        = some (countSellerAll demoStore.orders "65a00000000000000000000a") ∧
      stats.get "cancelled" = none :=
  getSellerStats_counts demoEnv demoStore "65a00000000000000000000a" (by decide)

end OrderController
